import Mathlib

/-!
# Material parameter resolution (CamelotCore, `CmMaterial.cpp`)

A shallow embedding of the parameter reconciler and of the buffer wiring of
`Material::initBestTechnique`, together with the properties proved about them.

`std::map<String, V>` is carried as the list of its entries in iteration
order, `std::set<String>` as the list of its elements in iteration order.
The containers the code builds itself are built with an ordered insert, so
they stay strictly sorted; the containers the code only reads (the
descriptors of a compiled program, the declarations of a shader) are taken
as they come, and the functions below read them with `find` and by
iteration exactly as the source does.
-/

namespace CamelotFramework

/-! ## Containers -/

/-- Entries of a `Map<String, V>::type` in iteration order. -/
abbrev StrMap (V : Type) := List (String × V)

/-- Elements of a `Set<String>::type` in iteration order. -/
abbrev StrSet := List String

namespace StrMap

variable {V : Type}

/-- Keys of the map in iteration order. -/
def keys (m : StrMap V) : List String := List.map Prod.fst m

/-- Lookup `m.find(k)`: `none` stands for `m.end()`. -/
def find : StrMap V → String → Option V
  | [], _ => none
  | (k', v) :: rest, k => if k' = k then some v else find rest k

/-- Assignment `m[k] = v`: replaces the entry of `k` or adds one at its place in key order. -/
def insert (k : String) (v : V) : StrMap V → StrMap V
  | [] => [(k, v)]
  | (k', v') :: rest =>
    if k.toList < k'.toList then (k, v) :: (k', v') :: rest
    else if k = k' then (k, v) :: rest
    else (k', v') :: insert k v rest

/-- Removal `m.erase(it)` of the entry stored under `k`. -/
def erase (k : String) : StrMap V → StrMap V
  | [] => []
  | (k', v') :: rest => if k' = k then erase k rest else (k', v') :: erase k rest

/-- Keys in strictly ascending order, the shape of every `std::map`. Strings are compared
character by character, as `std::string` compares them. -/
def Sorted (m : StrMap V) : Prop :=
  List.Pairwise (fun a b : String => a.toList < b.toList) (keys m)

end StrMap

namespace StrSet

/-- Insertion `s.insert(k)` into a set: no effect when `k` is present. -/
def insert (k : String) : StrSet → StrSet
  | [] => [k]
  | k' :: rest =>
    if k.toList < k'.toList then k :: k' :: rest
    else if k = k' then k' :: rest
    else k' :: insert k rest

end StrSet

/-! ## Descriptors of a compiled program (`CmGpuParamDesc.h`) -/

/-- Data types of a GPU data parameter. The seven kinds the material stores are
named as in the source; `GPDT_OTHER` carries the code of any other enumerator. -/
inductive GpuParamDataType where
  | GPDT_FLOAT1
  | GPDT_FLOAT2
  | GPDT_FLOAT3
  | GPDT_FLOAT4
  | GPDT_MATRIX_3X3
  | GPDT_MATRIX_4X4
  | GPDT_STRUCT
  | GPDT_OTHER (code : Nat)
  deriving DecidableEq, Repr

/-- Descriptor of one data parameter of a compiled program (`GpuParamDataDesc`). -/
structure GpuParamDataDesc where
  name : String
  elementSize : Nat
  arraySize : Nat
  arrayElementStride : Nat
  type : GpuParamDataType
  paramBlockSlot : Nat
  gpuMemOffset : Nat
  cpuMemOffset : Nat
  deriving DecidableEq, Repr

/-- Descriptor of one object parameter (sampler, texture or buffer) of a compiled program. -/
structure GpuParamObjectDesc where
  name : String
  slot : Nat
  deriving DecidableEq, Repr

/-- Descriptor of one parameter block of a compiled program (`GpuParamBlockDesc`). -/
structure GpuParamBlockDesc where
  name : String
  slot : Nat
  blockSize : Nat
  isShareable : Bool
  deriving DecidableEq, Repr

/-- All parameters of one compiled program (`GpuParamDesc`). -/
structure GpuParamDesc where
  paramBlocks : StrMap GpuParamBlockDesc
  params : StrMap GpuParamDataDesc
  samplers : StrMap GpuParamObjectDesc
  textures : StrMap GpuParamObjectDesc
  buffers : StrMap GpuParamObjectDesc
  deriving DecidableEq, Repr

/-! ## The reconciler -/

/-- The function `Material::areParamsEqual`. -/
def areParamsEqual (paramA paramB : GpuParamDataDesc) (ignoreBufferOffsets : Bool) : Bool :=
  let equal := decide (paramA.arraySize = paramB.arraySize)
    && decide (paramA.elementSize = paramB.elementSize)
    && decide (paramA.type = paramB.type)
    && decide (paramA.arrayElementStride = paramB.arrayElementStride)
  if !ignoreBufferOffsets then
    equal && (decide (paramA.cpuMemOffset = paramB.cpuMemOffset)
      && decide (paramA.gpuMemOffset = paramB.gpuMemOffset))
  else equal

/-- The two maps `foundDataParams` and `validParams` of `determineValidDataParameters`. -/
structure DataParamScan where
  foundDataParams : StrMap GpuParamDataDesc
  validParams : StrMap Bool
  deriving Repr

/-- Body of the inner loop of `determineValidDataParameters` for the entry `(key, curParam)`.
When `validParams[key]` is true the entry of `key` in `foundDataParams` exists; the source
dereferences it without a check, and the branch for a missing entry leaves the maps as they are. -/
def dataParamStep (st : DataParamScan) (e : String × GpuParamDataDesc) : DataParamScan :=
  match StrMap.find st.validParams e.1 with
  | none =>
    { foundDataParams := StrMap.insert e.1 e.2 st.foundDataParams
      validParams := StrMap.insert e.1 true st.validParams }
  | some true =>
    match StrMap.find st.foundDataParams e.1 with
    | some otherParam =>
      if !areParamsEqual e.2 otherParam true then
        { foundDataParams := StrMap.erase e.1 st.foundDataParams
          validParams := StrMap.insert e.1 false st.validParams }
      else st
    | none => st
  | some false => st

/-- The function `Material::determineValidDataParameters`: the outer loop runs over the
descriptors, the inner one over `curDesc.params`. -/
def determineValidDataParameters (paramDescs : List GpuParamDesc) : StrMap GpuParamDataDesc :=
  (paramDescs.foldl
    (fun (st : DataParamScan) (curDesc : GpuParamDesc) => curDesc.params.foldl dataParamStep st)
    { foundDataParams := [], validParams := [] }).foundDataParams

/-- Every entry of the `params` maps, in the order the two loops of the reconciler visit them. -/
def allDataParams (paramDescs : List GpuParamDesc) : StrMap GpuParamDataDesc :=
  paramDescs.flatMap (fun d => d.params)

/-- Initial state of the scan of `determineValidDataParameters`. -/
def DataParamScan.init : DataParamScan := { foundDataParams := [], validParams := [] }

/-- Two declarations agree on type, array size, element size and array-element stride. -/
def sameLayout (a b : GpuParamDataDesc) : Prop :=
  a.type = b.type ∧ a.arraySize = b.arraySize ∧ a.elementSize = b.elementSize
    ∧ a.arrayElementStride = b.arrayElementStride

/-- The name `n` has not been met: it is in neither map. -/
def DataFresh (n : String) (st : DataParamScan) : Prop :=
  StrMap.find st.validParams n = none ∧ StrMap.find st.foundDataParams n = none

/-- The name `n` is a candidate seeded by the declaration `p0`. -/
def DataLive (n : String) (p0 : GpuParamDataDesc) (st : DataParamScan) : Prop :=
  StrMap.find st.validParams n = some true ∧ StrMap.find st.foundDataParams n = some p0

/-- The name `n` has been removed. -/
def DataDead (n : String) (st : DataParamScan) : Prop :=
  StrMap.find st.validParams n = some false ∧ StrMap.find st.foundDataParams n = none

/-- One declaration with its two buffer offsets replaced by the pair `g` yields for it. -/
def relocateParam (g : GpuParamDataDesc → Nat × Nat) (p : GpuParamDataDesc) : GpuParamDataDesc :=
  { p with cpuMemOffset := (g p).1, gpuMemOffset := (g p).2 }

/-- A descriptor whose data parameters all had their buffer offsets replaced through `g`. -/
def relocateDesc (g : GpuParamDataDesc → Nat × Nat) (d : GpuParamDesc) : GpuParamDesc :=
  { d with params := d.params.map (fun e => (e.1, relocateParam g e.2)) }

/-- A data parameter of four floats in block slot 0. -/
def exampleColorParam : GpuParamDataDesc :=
  { name := "tintColor", elementSize := 4, arraySize := 1, arrayElementStride := 4,
    type := GpuParamDataType.GPDT_FLOAT4, paramBlockSlot := 0, gpuMemOffset := 0,
    cpuMemOffset := 0 }

/-- A stage that declares `tintColor` as four floats. -/
def exampleStageA : GpuParamDesc :=
  { paramBlocks := [], params := [("tintColor", exampleColorParam)], samplers := [],
    textures := [], buffers := [] }

/-- A stage that declares `tintColor` as three floats. -/
def exampleStageB : GpuParamDesc :=
  { paramBlocks := [],
    params := [("tintColor", { exampleColorParam with type := GpuParamDataType.GPDT_FLOAT3 })],
    samplers := [], textures := [], buffers := [] }

/-- One of the three inner loops of `determineValidObjectParameters`. -/
def insertObjectNames (validParams : StrSet) (objs : StrMap GpuParamObjectDesc) : StrSet :=
  objs.foldl (fun acc e => if e.1 ∈ acc then acc else StrSet.insert e.1 acc) validParams

/-- The function `Material::determineValidObjectParameters`. -/
def determineValidObjectParameters (paramDescs : List GpuParamDesc) : StrSet :=
  paramDescs.foldl
    (fun (validParams : StrSet) (curDesc : GpuParamDesc) =>
      insertObjectNames
        (insertObjectNames (insertObjectNames validParams curDesc.samplers) curDesc.textures)
        curDesc.buffers)
    []

/-- The member loop of `determineValidShareableParamBlocks`: runs over `curDesc.params` and
yields the final value of `isBlockValid`. `ignoreBufferOffsets` is the default argument of
`areParamsEqual`, which is declared in the header. -/
def blockMembersMatch (ignoreBufferOffsets : Bool) (curBlock : GpuParamBlockDesc)
    (otherBlockName : String) (otherDesc : GpuParamDesc) : StrMap GpuParamDataDesc → Bool
  | [] => true
  | (key, myParam) :: rest =>
    if myParam.paramBlockSlot ≠ curBlock.slot then
      blockMembersMatch ignoreBufferOffsets curBlock otherBlockName otherDesc rest
    else
      match StrMap.find otherDesc.params key with
      | none => false
      | some otherParam =>
        if !areParamsEqual myParam otherParam ignoreBufferOffsets
            || decide (curBlock.name ≠ otherBlockName) then false
        else blockMembersMatch ignoreBufferOffsets curBlock otherBlockName otherDesc rest

/-- The two maps `uniqueParamBlocks` and `validParamBlocks` of
`determineValidShareableParamBlocks`. -/
structure BlockScan where
  uniqueParamBlocks : StrMap (String × GpuParamDesc)
  validParamBlocks : StrMap Bool
  deriving Repr

/-- Body of the block loop of `determineValidShareableParamBlocks` for the entry
`(key, curBlock)` of `curDesc.paramBlocks`. -/
def blockStep (ignoreBufferOffsets : Bool) (curDesc : GpuParamDesc) (st : BlockScan)
    (e : String × GpuParamBlockDesc) : BlockScan :=
  if !e.2.isShareable then st
  else
    match StrMap.find st.uniqueParamBlocks e.1 with
    | none =>
      { uniqueParamBlocks := StrMap.insert e.1 (e.1, curDesc) st.uniqueParamBlocks
        validParamBlocks := StrMap.insert e.1 true st.validParamBlocks }
    | some (otherBlockName, otherDesc) =>
      if !blockMembersMatch ignoreBufferOffsets e.2 otherBlockName otherDesc curDesc.params then
        if (StrMap.find st.validParamBlocks e.1).getD false then
          { st with validParamBlocks := StrMap.insert e.1 false st.validParamBlocks }
        else st
      else st

/-- The scan of `determineValidShareableParamBlocks` over all descriptors. -/
def scanShareableBlocks (ignoreBufferOffsets : Bool) (paramDescs : List GpuParamDesc) :
    BlockScan :=
  paramDescs.foldl
    (fun (st : BlockScan) (curDesc : GpuParamDesc) =>
      curDesc.paramBlocks.foldl (blockStep ignoreBufferOffsets curDesc) st)
    { uniqueParamBlocks := [], validParamBlocks := [] }

/-- The function `Material::determineValidShareableParamBlocks`: the names whose flag in
`validParamBlocks` is still set after the scan. -/
def determineValidShareableParamBlocks (ignoreBufferOffsets : Bool)
    (paramDescs : List GpuParamDesc) : StrSet :=
  (scanShareableBlocks ignoreBufferOffsets paramDescs).validParamBlocks.foldl
    (fun (ret : StrSet) (e : String × Bool) => if e.2 then StrSet.insert e.1 ret else ret) []

/-- The innermost loop of `determineParameterToBlockMapping`: the name of the first block of
`curDesc.paramBlocks` whose slot is `slot`. -/
def findBlockOfSlot (slot : Nat) : StrMap GpuParamBlockDesc → Option String
  | [] => none
  | (_, block) :: rest => if block.slot = slot then some block.name else findBlockOfSlot slot rest

/-- Body of the parameter loop of `determineParameterToBlockMapping`. -/
def paramToBlockStep (curDesc : GpuParamDesc) (paramToParamBlock : StrMap String)
    (e : String × GpuParamDataDesc) : StrMap String :=
  match StrMap.find paramToParamBlock e.2.name with
  | some _ => paramToParamBlock
  | none =>
    match findBlockOfSlot e.2.paramBlockSlot curDesc.paramBlocks with
    | some blockName => StrMap.insert e.2.name blockName paramToParamBlock
    | none => paramToParamBlock

/-- The function `Material::determineParameterToBlockMapping`. -/
def determineParameterToBlockMapping (paramDescs : List GpuParamDesc) : StrMap String :=
  paramDescs.foldl
    (fun (acc : StrMap String) (curDesc : GpuParamDesc) =>
      curDesc.params.foldl (paramToBlockStep curDesc) acc) []

/-- Every shareable entry of the `paramBlocks` maps with its descriptor, in the order the two
loops of `determineValidShareableParamBlocks` visit them; the entries that are not shareable
are the ones the loop skips with `continue`. -/
def shareableDecls (paramDescs : List GpuParamDesc) :
    StrMap (GpuParamDesc × GpuParamBlockDesc) :=
  paramDescs.flatMap (fun d =>
    (d.paramBlocks.filter (fun e => e.2.isShareable)).map (fun e => (e.1, (d, e.2))))

/-- The body `blockStep` on an entry of `shareableDecls`. -/
def shareableStep (ignoreBufferOffsets : Bool) (st : BlockScan)
    (x : String × (GpuParamDesc × GpuParamBlockDesc)) : BlockScan :=
  blockStep ignoreBufferOffsets x.2.1 st (x.1, x.2.2)

/-- The block name `X` has not been met: it is in neither map. -/
def BlockFresh (X : String) (st : BlockScan) : Prop :=
  StrMap.find st.uniqueParamBlocks X = none ∧ StrMap.find st.validParamBlocks X = none

/-- The block name `X` was first declared by `F` and its flag is `v`. -/
def BlockSeen (X : String) (F : GpuParamDesc) (v : Bool) (st : BlockScan) : Prop :=
  StrMap.find st.uniqueParamBlocks X = some (X, F) ∧ StrMap.find st.validParamBlocks X = some v

/-- What the member loop checks for the block `b` of a later descriptor against the first
descriptor `F` that declared the block under the name `X`. -/
def membersFoundIn (ignoreBufferOffsets : Bool) (X : String) (F : GpuParamDesc)
    (b : GpuParamBlockDesc) (params : StrMap GpuParamDataDesc) : Prop :=
  ∀ k p, (k, p) ∈ params → p.paramBlockSlot = b.slot →
    (∃ q, StrMap.find F.params k = some q ∧ areParamsEqual p q ignoreBufferOffsets = true)
      ∧ b.name = X

/-- A float parameter behind `tintColor` in block slot 0. -/
def exampleGlossParam : GpuParamDataDesc :=
  { name := "gloss", elementSize := 1, arraySize := 1, arrayElementStride := 1,
    type := GpuParamDataType.GPDT_FLOAT1, paramBlockSlot := 0, gpuMemOffset := 4,
    cpuMemOffset := 4 }

/-- A vertex stage: shareable block `PerMaterial` of eight words holding `tintColor` and
`gloss`. -/
def exampleVertexStage : GpuParamDesc :=
  { paramBlocks :=
      [("PerMaterial", { name := "PerMaterial", slot := 0, blockSize := 8, isShareable := true })],
    params := [("gloss", exampleGlossParam), ("tintColor", exampleColorParam)],
    samplers := [], textures := [], buffers := [] }

/-- A fragment stage: shareable block `PerMaterial` of four words holding `tintColor` only. -/
def exampleFragmentStage : GpuParamDesc :=
  { paramBlocks :=
      [("PerMaterial", { name := "PerMaterial", slot := 0, blockSize := 4, isShareable := true })],
    params := [("tintColor", exampleColorParam)],
    samplers := [], textures := [], buffers := [] }

/-- Every data parameter in the order the two loops of `determineParameterToBlockMapping`
visit them, under its `name` field, with what the block loop finds for it in its own
descriptor. -/
def ownerDecls (paramDescs : List GpuParamDesc) : StrMap (Option String) :=
  paramDescs.flatMap (fun d =>
    d.params.map (fun e => (e.2.name, findBlockOfSlot e.2.paramBlockSlot d.paramBlocks)))

/-- The body `paramToBlockStep` on an entry of `ownerDecls`. -/
def ownerStep (paramToParamBlock : StrMap String) (x : String × Option String) :
    StrMap String :=
  match StrMap.find paramToParamBlock x.1 with
  | some _ => paramToParamBlock
  | none =>
    match x.2 with
    | some blockName => StrMap.insert x.1 blockName paramToParamBlock
    | none => paramToParamBlock

/-! ## Collaborators of the material -/

/-- Usage hint of a parameter block buffer (`GpuParamBlockUsage`). -/
inductive GpuParamBlockUsage where
  | GPBU_STATIC
  | GPBU_DYNAMIC
  deriving DecidableEq, Repr

/-- Modelled from the spec: a constant-buffer instance, of which only the declaration is used
by `CmMaterial.cpp`. It carries the identity the allocator gave it, the byte size and the
usage hint it was requested with; `usage = none` stands for a request that leaves the usage
to the default argument of the allocator. -/
structure GpuParamBlockBuffer where
  id : Nat
  size : Nat
  usage : Option GpuParamBlockUsage
  deriving DecidableEq, Repr

/-- A `GpuParamBlockBufferPtr`; `none` is the null pointer. -/
abbrev GpuParamBlockBufferPtr := Option GpuParamBlockBuffer

/-- What happened to a buffer, as recorded by the buffer manager. -/
inductive BufferEvent where
  | created (buffer : GpuParamBlockBuffer)
  | destroyed (buffer : GpuParamBlockBuffer)
  deriving DecidableEq, Repr

/-- Modelled from the spec: the buffer-creation capability (`HardwareBufferManager`), which
allocates a buffer given a byte size and a usage hint, and whose buffers expose a destroy
operation. The state is the next free identity and the record of all creations and
destructions, oldest first. -/
structure HardwareBufferManager where
  nextId : Nat
  log : List BufferEvent
  deriving DecidableEq, Repr

/-- Modelled from the spec: `HardwareBufferManager::createGpuParamBlockBuffer`, which hands
out a buffer of the requested size with a fresh identity. -/
def HardwareBufferManager.createGpuParamBlockBuffer (hbm : HardwareBufferManager) (size : Nat)
    (usage : Option GpuParamBlockUsage) : GpuParamBlockBuffer × HardwareBufferManager :=
  let buffer : GpuParamBlockBuffer := { id := hbm.nextId, size := size, usage := usage }
  (buffer, { nextId := hbm.nextId + 1, log := hbm.log ++ [BufferEvent.created buffer] })

/-- Modelled from the spec: `GpuParamBlockBuffer::destroy`. -/
def HardwareBufferManager.destroy (hbm : HardwareBufferManager) (buffer : GpuParamBlockBuffer) :
    HardwareBufferManager :=
  { hbm with log := hbm.log ++ [BufferEvent.destroyed buffer] }

/-- The literal `sizeof(UINT32)`. -/
def sizeofUINT32 : Nat := 4

/-- Modelled from the spec: the kinds of object parameters as `Shader::isSampler`,
`Shader::isTexture` and `Shader::isBuffer` tell them apart (sampler, texture, buffer); the
enumeration and the three predicates are declared outside `CmMaterial.cpp`, and `unknown` is
a kind none of them accepts. -/
inductive GpuParamObjectType where
  | sampler (code : Nat)
  | texture (code : Nat)
  | buffer (code : Nat)
  | unknown (code : Nat)
  deriving DecidableEq, Repr

/-- Modelled from the spec: `Shader::isSampler`. -/
def Shader.isSampler : GpuParamObjectType → Bool
  | GpuParamObjectType.sampler _ => true
  | _ => false

/-- Modelled from the spec: `Shader::isTexture`. -/
def Shader.isTexture : GpuParamObjectType → Bool
  | GpuParamObjectType.texture _ => true
  | _ => false

/-- Modelled from the spec: `Shader::isBuffer`. -/
def Shader.isBuffer : GpuParamObjectType → Bool
  | GpuParamObjectType.buffer _ => true
  | _ => false

/-- Declaration of a data parameter by the shader (`SHADER_DATA_PARAM_DESC`). -/
structure SHADER_DATA_PARAM_DESC where
  name : String
  gpuVariableName : String
  type : GpuParamDataType
  arraySize : Nat
  elementSize : Nat
  deriving DecidableEq, Repr

/-- Declaration of an object parameter by the shader (`SHADER_OBJECT_PARAM_DESC`). -/
structure SHADER_OBJECT_PARAM_DESC where
  name : String
  gpuVariableName : String
  type : GpuParamObjectType
  deriving DecidableEq, Repr

/-- Declaration of a parameter block by the shader (`SHADER_PARAM_BLOCK_DESC`). -/
structure SHADER_PARAM_BLOCK_DESC where
  name : String
  shared : Bool
  usage : GpuParamBlockUsage
  deriving DecidableEq, Repr

/-- A compiled program, of which the material reads the parameter descriptor. -/
structure GpuProgram where
  paramDesc : GpuParamDesc
  deriving DecidableEq, Repr

/-- A program handle `HGpuProgram`; `none` is the empty handle. -/
abbrev HGpuProgram := Option GpuProgram

/-- One pass with its six optional programs. -/
structure Pass where
  vertexProgram : HGpuProgram
  fragmentProgram : HGpuProgram
  geometryProgram : HGpuProgram
  hullProgram : HGpuProgram
  domainProgram : HGpuProgram
  computeProgram : HGpuProgram
  deriving DecidableEq, Repr

/-- A technique: its passes in order. -/
structure Technique where
  passes : List Pass
  deriving DecidableEq, Repr

/-- A shader as the material consumes it: the technique `getBestTechnique` returns (`none`
when no technique is supported) and the three maps of declarations. -/
structure Shader where
  bestTechnique : Option Technique
  paramBlocks : StrMap SHADER_PARAM_BLOCK_DESC
  dataParams : StrMap SHADER_DATA_PARAM_DESC
  objectParams : StrMap SHADER_OBJECT_PARAM_DESC
  deriving DecidableEq, Repr

/-- The accessor `Shader::getBestTechnique`. -/
def Shader.getBestTechnique (shader : Shader) : Option Technique := shader.bestTechnique

/-- The accessor `Technique::getNumPasses`. -/
def Technique.getNumPasses (t : Technique) : Nat := t.passes.length

/-! ## Values held by the material -/

/-- Values of the C++ type `float`, carried by their bit pattern: the material stores and
returns them and never computes with them. -/
abbrev float := Nat

/-- A vector of two floats. -/
structure Vector2 where
  x : float
  y : float
  deriving DecidableEq, Repr, Inhabited

/-- A vector of three floats. -/
structure Vector3 where
  x : float
  y : float
  z : float
  deriving DecidableEq, Repr, Inhabited

/-- A vector of four floats. -/
structure Vector4 where
  x : float
  y : float
  z : float
  w : float
  deriving DecidableEq, Repr, Inhabited

/-- A matrix of three rows and columns, row by row. -/
structure Matrix3 where
  m : List float
  deriving DecidableEq, Repr, Inhabited

/-- A matrix of four rows and columns, row by row. -/
structure Matrix4 where
  m : List float
  deriving DecidableEq, Repr, Inhabited

/-- The nested type `Material::StructData`: a copy of the bytes and their number. -/
structure StructData where
  data : List Nat
  size : Nat
  deriving DecidableEq, Repr, Inhabited

/-- A texture handle; `none` is the empty handle `HTexture()`. -/
structure HTexture where
  handle : Option Nat
  deriving DecidableEq, Repr, Inhabited

/-- A sampler state handle; `none` is the empty handle `HSamplerState()`. -/
structure HSamplerState where
  handle : Option Nat
  deriving DecidableEq, Repr, Inhabited

/-- The call `v.resize(n)` on a vector: keeps the first `n` elements and fills up with
default elements. -/
def resize {T : Type} [Inhabited T] (v : List T) (n : Nat) : List T :=
  v.take n ++ List.replicate (n - v.length) default

/-- The statement `cache[key].resize(n)` on a map of vectors: the entry is created empty when
it is missing. -/
def resizeEntry {T : Type} [Inhabited T] (cache : StrMap (List T)) (key : String) (n : Nat) :
    StrMap (List T) :=
  StrMap.insert key (resize ((StrMap.find cache key).getD []) n) cache

/-- A colour with its four channels (`Color`). -/
structure Color where
  r : float
  g : float
  b : float
  a : float
  deriving DecidableEq, Repr, Inhabited

/-- A value as a typed setter hands it to a bound-parameter object. -/
inductive ParamValue where
  | float (value : float)
  | color (value : Color)
  | vec2 (value : Vector2)
  | vec3 (value : Vector3)
  | vec4 (value : Vector4)
  | mat3 (value : Matrix3)
  | mat4 (value : Matrix4)
  | struct (value : List Nat) (size : Nat)
  deriving DecidableEq, Repr

/-! ## Bound-parameter objects -/

/-- Modelled from the spec: the bound-parameter object of one stage of one pass (`GpuParams`),
holding the descriptor of its program and its bindings of parameter blocks to buffers, by
block name, next to the textures, the sampler states and the data values written to it; a
data value is recorded with the variable and the array index it was written at, the latest
write first. -/
structure GpuParams where
  paramDesc : GpuParamDesc
  paramBlockBuffers : StrMap GpuParamBlockBufferPtr
  textures : StrMap HTexture
  samplerStates : StrMap HSamplerState
  dataValues : List ((String × Nat) × ParamValue)
  deriving DecidableEq, Repr

/-- A `GpuParamsPtr`; `none` is the null pointer. -/
abbrev GpuParamsPtr := Option GpuParams

/-- Modelled from the spec: `GpuProgram::createParameters`, the factory of a bound-parameter
object with nothing bound. -/
def GpuProgram.createParameters (program : GpuProgram) : GpuParams :=
  { paramDesc := program.paramDesc, paramBlockBuffers := [], textures := [],
    samplerStates := [], dataValues := [] }

/-- Modelled from the spec: `GpuParams::getParamDesc`. -/
def GpuParams.getParamDesc (params : GpuParams) : GpuParamDesc := params.paramDesc

/-- Modelled from the spec: `GpuParams::hasParamBlock`, whether the descriptor declares a
block of that name. -/
def GpuParams.hasParamBlock (params : GpuParams) (name : String) : Bool :=
  (StrMap.find params.paramDesc.paramBlocks name).isSome

/-- Modelled from the spec: `GpuParams::setParamBlockBuffer`, which binds the block of that
name to the buffer. -/
def GpuParams.setParamBlockBuffer (params : GpuParams) (name : String)
    (paramBlockBuffer : GpuParamBlockBufferPtr) : GpuParams :=
  { params with paramBlockBuffers := StrMap.insert name paramBlockBuffer params.paramBlockBuffers }

/-- The bound-parameter objects of one pass (`PassParameters`), one optional object for each
of the six stages. -/
structure PassParameters where
  mVertParams : GpuParamsPtr
  mFragParams : GpuParamsPtr
  mGeomParams : GpuParamsPtr
  mHullParams : GpuParamsPtr
  mDomainParams : GpuParamsPtr
  mComputeParams : GpuParamsPtr
  deriving DecidableEq, Repr

/-- Modelled from the spec: the six members in the order of
`PassParameters::getParamByIdx` (vertex, fragment, geometry, hull, domain, compute);
`getNumParams` is their number. -/
def PassParameters.toList (params : PassParameters) : List GpuParamsPtr :=
  [params.mVertParams, params.mFragParams, params.mGeomParams, params.mHullParams,
    params.mDomainParams, params.mComputeParams]

/-! ## The material -/

/-- The validated-parameter map and the value caches of a material. -/
structure MaterialValues where
  mValidParams : StrMap String
  mFloatValues : StrMap (List float)
  mVec2Values : StrMap (List Vector2)
  mVec3Values : StrMap (List Vector3)
  mVec4Values : StrMap (List Vector4)
  mMat3Values : StrMap (List Matrix3)
  mMat4Values : StrMap (List Matrix4)
  mStructValues : StrMap (List StructData)
  mTextureValues : StrMap HTexture
  mSamplerValues : StrMap HSamplerState
  deriving DecidableEq, Repr

/-- The state of a `Material`. -/
structure Material extends MaterialValues where
  mShader : Option Shader
  mBestTechnique : Option Technique
  mRenderQueue : Int
  mValidShareableParamBlocks : StrSet
  mParametersPerPass : List PassParameters
  mParamBuffers : List GpuParamBlockBuffer
  deriving DecidableEq, Repr

/-- The exceptions `CM_EXCEPT` raises in `CmMaterial.cpp`, and the exception
`std::out_of_range` that `vector::at` raises in the getters. -/
inductive CmException where
  | InternalErrorException (description : String)
  | NotImplementedException (description : String)
  | InvalidParametersException (description : String)
  | OutOfRange
  deriving DecidableEq, Repr

/-- The validated-parameter map and the caches with nothing in them. -/
def MaterialValues.empty : MaterialValues :=
  { mValidParams := [], mFloatValues := [], mVec2Values := [], mVec3Values := [],
    mVec4Values := [], mMat3Values := [], mMat4Values := [], mStructValues := [],
    mTextureValues := [], mSamplerValues := [] }

/-- The constructor `Material::Material`. -/
def Material.new : Material :=
  { toMaterialValues := MaterialValues.empty, mShader := none, mBestTechnique := none,
    mRenderQueue := 0, mValidShareableParamBlocks := [], mParametersPerPass := [],
    mParamBuffers := [] }

/-- The function `Material::freeParamBuffers`. -/
def freeParamBuffers (hbm : HardwareBufferManager) (m : Material) :
    Material × HardwareBufferManager :=
  ({ m with mParamBuffers := [] },
    m.mParamBuffers.foldl (fun (h : HardwareBufferManager) buffer => h.destroy buffer) hbm)

/-- The function `Material::destroy_internal`; the call of the base class is outside the
material. -/
def destroy_internal (hbm : HardwareBufferManager) (m : Material) :
    Material × HardwareBufferManager :=
  freeParamBuffers hbm m

/-- The descriptors one pass contributes to `allParamDescs`, in the order of the six tests. -/
def passParamDescs (curPass : Pass) : List GpuParamDesc :=
  [curPass.vertexProgram, curPass.fragmentProgram, curPass.geometryProgram,
    curPass.hullProgram, curPass.domainProgram, curPass.computeProgram].filterMap
    (fun program => program.map (fun p => p.paramDesc))

/-- The first loop of `initBestTechnique`: `allParamDescs`. -/
def collectParamDescs (technique : Technique) : List GpuParamDesc :=
  technique.passes.flatMap passParamDescs

/-- The lookup loop of the block descriptor in `initBestTechnique`: the entry of the first
descriptor that has a block under `name`. The variable `blockDesc` is declared without an
initial value; the size 0 stands for it when no descriptor has the block. -/
def findBlockDesc (name : String) : List GpuParamDesc → GpuParamBlockDesc
  | [] => { name := "", slot := 0, blockSize := 0, isShareable := false }
  | d :: rest =>
    match StrMap.find d.paramBlocks name with
    | some blockDesc => blockDesc
    | none => findBlockDesc name rest

/-- The buffers under construction in `initBestTechnique`: the buffer manager, the ownership
list `mParamBuffers`, the local map `paramBlockBuffers` and the set
`mValidShareableParamBlocks`. -/
structure BlockBuffers where
  hbm : HardwareBufferManager
  mParamBuffers : List GpuParamBlockBuffer
  paramBlockBuffers : StrMap GpuParamBlockBufferPtr
  mValidShareableParamBlocks : StrSet
  deriving Repr

/-- Body of the loop "Create param blocks" for the valid shareable block `name`. The product
`blockDesc.blockSize * sizeof(UINT32)` is the argument of the size parameter of
`createGpuParamBlockBuffer`, a `UINT32`, which keeps it modulo `2 ^ 32`. -/
def createParamBlock (shaderDesc : StrMap SHADER_PARAM_BLOCK_DESC)
    (allParamDescs : List GpuParamDesc) (st : BlockBuffers) (name : String) : BlockBuffers :=
  let isShared := match StrMap.find shaderDesc name with
    | some d => d.shared
    | none => false
  let usage := match StrMap.find shaderDesc name with
    | some d => d.usage
    | none => GpuParamBlockUsage.GPBU_STATIC
  let blockDesc := findBlockDesc name allParamDescs
  if !isShared then
    let created := st.hbm.createGpuParamBlockBuffer
      ((blockDesc.blockSize * sizeofUINT32) % 2 ^ 32) (some usage)
    { hbm := created.2
      mParamBuffers := st.mParamBuffers ++ [created.1]
      paramBlockBuffers := StrMap.insert name (some created.1) st.paramBlockBuffers
      mValidShareableParamBlocks := StrSet.insert name st.mValidShareableParamBlocks }
  else
    { st with
      paramBlockBuffers := StrMap.insert name none st.paramBlockBuffers
      mValidShareableParamBlocks := StrSet.insert name st.mValidShareableParamBlocks }

/-- The loop "Create param blocks". -/
def createParamBlocks (shaderDesc : StrMap SHADER_PARAM_BLOCK_DESC)
    (allParamDescs : List GpuParamDesc) (validShareableParamBlocks : StrSet)
    (st : BlockBuffers) : BlockBuffers :=
  validShareableParamBlocks.foldl (createParamBlock shaderDesc allParamDescs) st

/-- The loop "Create data param mappings" over the entries of `mShader->getDataParams()`.
It stops at the first exception and returns the values as they are at that point. -/
def createDataParamMappings (validDataParameters : StrMap GpuParamDataDesc)
    (paramToParamBlockMap : StrMap String) :
    StrMap SHADER_DATA_PARAM_DESC → MaterialValues → MaterialValues × Option CmException
  | [], v => (v, none)
  | (key, desc) :: rest, v =>
    match StrMap.find validDataParameters desc.gpuVariableName with
    | none => createDataParamMappings validDataParameters paramToParamBlockMap rest v
    | some found =>
      if found.type ≠ desc.type then
        createDataParamMappings validDataParameters paramToParamBlockMap rest v
      else if found.arraySize ≠ desc.arraySize then
        createDataParamMappings validDataParameters paramToParamBlockMap rest v
      else
        match StrMap.find paramToParamBlockMap desc.gpuVariableName with
        | none =>
          (v, some (CmException.InternalErrorException
            "Parameter doesn't exist in param to param block map but exists in valid param map."))
        | some _ =>
          let v1 := { v with mValidParams := StrMap.insert key desc.gpuVariableName v.mValidParams }
          match desc.type with
          | GpuParamDataType.GPDT_FLOAT1 =>
            createDataParamMappings validDataParameters paramToParamBlockMap rest
              { v1 with mFloatValues := resizeEntry v1.mFloatValues key desc.arraySize }
          | GpuParamDataType.GPDT_FLOAT2 =>
            createDataParamMappings validDataParameters paramToParamBlockMap rest
              { v1 with mVec2Values := resizeEntry v1.mVec2Values key desc.arraySize }
          | GpuParamDataType.GPDT_FLOAT3 =>
            createDataParamMappings validDataParameters paramToParamBlockMap rest
              { v1 with mVec3Values := resizeEntry v1.mVec3Values key desc.arraySize }
          | GpuParamDataType.GPDT_FLOAT4 =>
            createDataParamMappings validDataParameters paramToParamBlockMap rest
              { v1 with mVec4Values := resizeEntry v1.mVec4Values key desc.arraySize }
          | GpuParamDataType.GPDT_MATRIX_3X3 =>
            createDataParamMappings validDataParameters paramToParamBlockMap rest
              { v1 with mMat3Values := resizeEntry v1.mMat3Values key desc.arraySize }
          | GpuParamDataType.GPDT_MATRIX_4X4 =>
            createDataParamMappings validDataParameters paramToParamBlockMap rest
              { v1 with mMat4Values := resizeEntry v1.mMat4Values key desc.arraySize }
          | GpuParamDataType.GPDT_STRUCT =>
            createDataParamMappings validDataParameters paramToParamBlockMap rest
              { v1 with mStructValues := resizeEntry v1.mStructValues key desc.arraySize }
          | GpuParamDataType.GPDT_OTHER _ =>
            (v1, some (CmException.InternalErrorException "Unsupported data type."))

/-- The loop "Create object param mappings" over the entries of
`mShader->getObjectParams()`. It stops at the first exception and returns the values as they
are at that point. -/
def createObjectParamMappings (validObjectParameters : StrSet) :
    StrMap SHADER_OBJECT_PARAM_DESC → MaterialValues → MaterialValues × Option CmException
  | [], v => (v, none)
  | (key, desc) :: rest, v =>
    if desc.gpuVariableName ∉ validObjectParameters then
      createObjectParamMappings validObjectParameters rest v
    else
      let v1 := { v with mValidParams := StrMap.insert key desc.gpuVariableName v.mValidParams }
      if Shader.isSampler desc.type then
        createObjectParamMappings validObjectParameters rest
          { v1 with mSamplerValues := StrMap.insert key { handle := none } v1.mSamplerValues }
      else if Shader.isTexture desc.type then
        createObjectParamMappings validObjectParameters rest
          { v1 with mTextureValues := StrMap.insert key { handle := none } v1.mTextureValues }
      else if Shader.isBuffer desc.type then
        (v1, some (CmException.NotImplementedException "Buffers not implemented."))
      else
        (v1, some (CmException.InternalErrorException "Invalid object param type."))

/-- The bound-parameter objects one pass gets in the loop that fills `mParametersPerPass`. -/
def createPassParameters (curPass : Pass) : PassParameters :=
  { mVertParams := curPass.vertexProgram.map GpuProgram.createParameters
    mFragParams := curPass.fragmentProgram.map GpuProgram.createParameters
    mGeomParams := curPass.geometryProgram.map GpuProgram.createParameters
    mHullParams := curPass.hullProgram.map GpuProgram.createParameters
    mDomainParams := curPass.domainProgram.map GpuProgram.createParameters
    mComputeParams := curPass.computeProgram.map GpuProgram.createParameters }

/-- The buffer manager and the ownership list while buffers are assigned. -/
structure BufferAlloc where
  hbm : HardwareBufferManager
  mParamBuffers : List GpuParamBlockBuffer
  deriving Repr

/-- The loop "Assign shareable buffers" for one bound-parameter object. -/
def assignShareableBuffers (mValidShareableParamBlocks : StrSet)
    (paramBlockBuffers : StrMap GpuParamBlockBufferPtr) (paramPtr : GpuParams) : GpuParams :=
  mValidShareableParamBlocks.foldl
    (fun (p : GpuParams) (paramBlockName : String) =>
      if p.hasParamBlock paramBlockName then
        p.setParamBlockBuffer paramBlockName
          ((StrMap.find paramBlockBuffers paramBlockName).getD none)
      else p)
    paramPtr

/-- Body of the loop "Create non-shareable ones" for the entry `(key, block)` of the
descriptor of a bound-parameter object. The product `blockSize * sizeof(UINT32)` is the
argument of the size parameter of `createGpuParamBlockBuffer`, a `UINT32`, which keeps it
modulo `2 ^ 32`. -/
def createNonShareable (st : GpuParams × BufferAlloc) (e : String × GpuParamBlockDesc) :
    GpuParams × BufferAlloc :=
  if !e.2.isShareable then
    let created := st.2.hbm.createGpuParamBlockBuffer
      ((e.2.blockSize * sizeofUINT32) % 2 ^ 32) none
    (st.1.setParamBlockBuffer e.1 (some created.1),
      { hbm := created.2, mParamBuffers := st.2.mParamBuffers ++ [created.1] })
  else st

/-- Body of the loop over `getParamByIdx` for a bound-parameter object that is present. -/
def assignParamBlockBuffers (mValidShareableParamBlocks : StrSet)
    (paramBlockBuffers : StrMap GpuParamBlockBufferPtr) (paramPtr : GpuParams)
    (alloc : BufferAlloc) : GpuParams × BufferAlloc :=
  paramPtr.getParamDesc.paramBlocks.foldl createNonShareable
    (assignShareableBuffers mValidShareableParamBlocks paramBlockBuffers paramPtr, alloc)

/-- Body of the loop over `getParamByIdx`: a null pointer is skipped. -/
def assignParam (mValidShareableParamBlocks : StrSet)
    (paramBlockBuffers : StrMap GpuParamBlockBufferPtr) (paramPtr : GpuParamsPtr)
    (alloc : BufferAlloc) : GpuParamsPtr × BufferAlloc :=
  match paramPtr with
  | none => (none, alloc)
  | some p =>
    let r := assignParamBlockBuffers mValidShareableParamBlocks paramBlockBuffers p alloc
    (some r.1, r.2)

/-- The loop over `getParamByIdx(0)` to `getParamByIdx(5)` for one pass. -/
def assignPass (mValidShareableParamBlocks : StrSet)
    (paramBlockBuffers : StrMap GpuParamBlockBufferPtr) (params : PassParameters)
    (alloc : BufferAlloc) : PassParameters × BufferAlloc :=
  let r0 := assignParam mValidShareableParamBlocks paramBlockBuffers params.mVertParams alloc
  let r1 := assignParam mValidShareableParamBlocks paramBlockBuffers params.mFragParams r0.2
  let r2 := assignParam mValidShareableParamBlocks paramBlockBuffers params.mGeomParams r1.2
  let r3 := assignParam mValidShareableParamBlocks paramBlockBuffers params.mHullParams r2.2
  let r4 := assignParam mValidShareableParamBlocks paramBlockBuffers params.mDomainParams r3.2
  let r5 := assignParam mValidShareableParamBlocks paramBlockBuffers params.mComputeParams r4.2
  ({ mVertParams := r0.1, mFragParams := r1.1, mGeomParams := r2.1, mHullParams := r3.1,
     mDomainParams := r4.1, mComputeParams := r5.1 }, r5.2)

/-- The loop "Assign param block buffers" over `mParametersPerPass`. -/
def assignAllPasses (mValidShareableParamBlocks : StrSet)
    (paramBlockBuffers : StrMap GpuParamBlockBufferPtr) :
    List PassParameters → BufferAlloc → List PassParameters × BufferAlloc
  | [], alloc => ([], alloc)
  | params :: rest, alloc =>
    let r := assignPass mValidShareableParamBlocks paramBlockBuffers params alloc
    let rs := assignAllPasses mValidShareableParamBlocks paramBlockBuffers rest r.2
    (r.1 :: rs.1, rs.2)

/-- What a call leaves behind: the material, the buffer manager, and the exception that
ended the call, if one did. -/
structure CallResult where
  m : Material
  hbm : HardwareBufferManager
  exception : Option CmException
  deriving Repr

/-- The part of `initBestTechnique` that runs once a best technique is found. The flag
`ignoreBufferOffsets` is the default argument of `areParamsEqual`, declared in the header. -/
def resolveTechnique (ignoreBufferOffsets : Bool) (shader : Shader) (technique : Technique)
    (hbm : HardwareBufferManager) (m : Material) : CallResult :=
  let allParamDescs := collectParamDescs technique
  let validDataParameters := determineValidDataParameters allParamDescs
  let validObjectParameters := determineValidObjectParameters allParamDescs
  let validShareableParamBlocks :=
    determineValidShareableParamBlocks ignoreBufferOffsets allParamDescs
  let paramToParamBlockMap := determineParameterToBlockMapping allParamDescs
  let blocks := createParamBlocks shader.paramBlocks allParamDescs validShareableParamBlocks
    { hbm := hbm, mParamBuffers := m.mParamBuffers, paramBlockBuffers := [],
      mValidShareableParamBlocks := m.mValidShareableParamBlocks }
  let m1 : Material :=
    { m with mParamBuffers := blocks.mParamBuffers
             mValidShareableParamBlocks := blocks.mValidShareableParamBlocks }
  let dataResult := createDataParamMappings validDataParameters paramToParamBlockMap
    shader.dataParams m1.toMaterialValues
  match dataResult.2 with
  | some e => { m := { m1 with toMaterialValues := dataResult.1 }, hbm := blocks.hbm,
                exception := some e }
  | none =>
    let objectResult := createObjectParamMappings validObjectParameters shader.objectParams
      dataResult.1
    match objectResult.2 with
    | some e => { m := { m1 with toMaterialValues := objectResult.1 }, hbm := blocks.hbm,
                  exception := some e }
    | none =>
      let created := m1.mParametersPerPass ++ technique.passes.map createPassParameters
      let assigned := assignAllPasses blocks.mValidShareableParamBlocks
        blocks.paramBlockBuffers created
        { hbm := blocks.hbm, mParamBuffers := blocks.mParamBuffers }
      { m := { m1 with toMaterialValues := objectResult.1
                       mParametersPerPass := assigned.1
                       mParamBuffers := assigned.2.mParamBuffers }
        hbm := assigned.2.hbm
        exception := none }

/-- The function `Material::initBestTechnique`. -/
def initBestTechnique (ignoreBufferOffsets : Bool) (hbm : HardwareBufferManager)
    (m : Material) : CallResult :=
  let cleared : Material :=
    { m with mBestTechnique := none
             mParametersPerPass := []
             mFloatValues := []
             mVec2Values := []
             mVec3Values := []
             mVec4Values := []
             mMat3Values := []
             mMat4Values := []
             mStructValues := []
             mTextureValues := []
             mSamplerValues := [] }
  let freed := freeParamBuffers hbm cleared
  match freed.1.mShader with
  | none => { m := freed.1, hbm := freed.2, exception := none }
  | some shader =>
    match shader.getBestTechnique with
    | none => { m := freed.1, hbm := freed.2, exception := none }
    | some technique =>
      resolveTechnique ignoreBufferOffsets shader technique freed.2
        { freed.1 with mBestTechnique := some technique
                       mValidShareableParamBlocks := []
                       mValidParams := [] }

/-- The function `Material::setShader`. -/
def setShader (ignoreBufferOffsets : Bool) (hbm : HardwareBufferManager) (m : Material)
    (shader : Option Shader) : CallResult :=
  initBestTechnique ignoreBufferOffsets hbm { m with mShader := shader }

/-! ## Example shaders -/

/-- A pass with the example vertex and fragment stages. -/
def examplePass : Pass :=
  { vertexProgram := some { paramDesc := exampleVertexStage },
    fragmentProgram := some { paramDesc := exampleFragmentStage },
    geometryProgram := none, hullProgram := none, domainProgram := none,
    computeProgram := none }

/-- The declaration of the material parameter `tint` for the GPU variable `tintColor`. -/
def exampleTintDecl : SHADER_DATA_PARAM_DESC :=
  { name := "tint", gpuVariableName := "tintColor", type := GpuParamDataType.GPDT_FLOAT4,
    arraySize := 1, elementSize := 4 }

/-- A shader with one pass that declares the material parameter `tint` and says nothing about
the block `PerMaterial`. -/
def exampleShader : Shader :=
  { bestTechnique := some { passes := [examplePass] },
    paramBlocks := [],
    dataParams := [("tint", exampleTintDecl)],
    objectParams := [] }

/-- The declaration of the block `PerMaterial` as shared. -/
def exampleSharedBlockDecl : SHADER_PARAM_BLOCK_DESC :=
  { name := "PerMaterial", shared := true, usage := GpuParamBlockUsage.GPBU_DYNAMIC }

/-- The example shader with the block `PerMaterial` declared as shared. -/
def exampleSharedShader : Shader :=
  { exampleShader with paramBlocks := [("PerMaterial", exampleSharedBlockDecl)] }

/-- A buffer manager that has handed out nothing. -/
def HardwareBufferManager.new : HardwareBufferManager := { nextId := 0, log := [] }

/-! ## Vocabulary of the statements on buffers -/

/-- Between two points of a call exactly the buffers `new` were allocated, in this order:
they were appended to the ownership list and to the record of the buffer manager, with
consecutive fresh identities. -/
def Allocated (hbm : HardwareBufferManager) (bufs : List GpuParamBlockBuffer)
    (hbm2 : HardwareBufferManager) (bufs2 : List GpuParamBlockBuffer)
    (new : List GpuParamBlockBuffer) : Prop :=
  bufs2 = bufs ++ new ∧ hbm2.log = hbm.log ++ new.map BufferEvent.created
    ∧ hbm2.nextId = hbm.nextId + new.length
    ∧ new.map (fun b => b.id) = List.range' hbm.nextId new.length

/-- Whether the shader declares the block `name` with its `shared` flag set, the test that
makes "Create param blocks" allocate no buffer for it. -/
def shaderMarksShared (shaderDesc : StrMap SHADER_PARAM_BLOCK_DESC) (name : String) : Bool :=
  match StrMap.find shaderDesc name with
  | some d => d.shared
  | none => false

/-- Number of entries a descriptor declares as non-shareable blocks. -/
def nonShareableCount (desc : GpuParamDesc) : Nat :=
  (desc.paramBlocks.filter (fun e => !e.2.isShareable)).length

/-- The bound-parameter objects that are present, pass by pass in the order of
`getParamByIdx`. -/
def stageObjects (passes : List PassParameters) : List GpuParams :=
  (passes.flatMap PassParameters.toList).filterMap id

/-- The loop over `getParamByIdx` on a list of pointers. -/
def assignPtrs (mValidShareableParamBlocks : StrSet)
    (paramBlockBuffers : StrMap GpuParamBlockBufferPtr) :
    List GpuParamsPtr → BufferAlloc → List GpuParamsPtr × BufferAlloc
  | [], alloc => ([], alloc)
  | ptr :: rest, alloc =>
    let r := assignParam mValidShareableParamBlocks paramBlockBuffers ptr alloc
    let rs := assignPtrs mValidShareableParamBlocks paramBlockBuffers rest r.2
    (r.1 :: rs.1, rs.2)

/-- The assignment of buffers to the bound-parameter objects that are present, one after
the other. -/
def assignObjects (mValidShareableParamBlocks : StrSet)
    (paramBlockBuffers : StrMap GpuParamBlockBufferPtr) :
    List GpuParams → BufferAlloc → List GpuParams × BufferAlloc
  | [], alloc => ([], alloc)
  | p :: rest, alloc =>
    let r := assignParamBlockBuffers mValidShareableParamBlocks paramBlockBuffers p alloc
    let rs := assignObjects mValidShareableParamBlocks paramBlockBuffers rest r.2
    (r.1 :: rs.1, rs.2)

/-- Whether an event of the buffer manager is about the buffer of identity `id`. -/
def BufferEvent.concerns (id : Nat) : BufferEvent → Bool
  | BufferEvent.created b => decide (b.id = id)
  | BufferEvent.destroyed b => decide (b.id = id)

/-- A buffer is live when the last event about it is its creation. -/
def isLive (log : List BufferEvent) (id : Nat) : Bool :=
  match (log.filter (BufferEvent.concerns id)).getLast? with
  | some (BufferEvent.created _) => true
  | _ => false

/-- The buffers of the ownership list that are live after a call. -/
def liveOwned (r : CallResult) : List GpuParamBlockBuffer :=
  r.m.mParamBuffers.filter (fun b => isLive r.hbm.log b.id)

/-- The validated-parameter map and the caches that the two mapping loops build from
nothing, with the exception that ended them, if one did. -/
def resolvedValues (shader : Shader) (technique : Technique) :
    MaterialValues × Option CmException :=
  let dataResult := createDataParamMappings
    (determineValidDataParameters (collectParamDescs technique))
    (determineParameterToBlockMapping (collectParamDescs technique))
    shader.dataParams MaterialValues.empty
  match dataResult.2 with
  | some e => (dataResult.1, some e)
  | none =>
    createObjectParamMappings (determineValidObjectParameters (collectParamDescs technique))
      shader.objectParams dataResult.1

/-- The material as `initBestTechnique` hands it to the resolution of the technique: nothing
is left of the previous resolution. -/
def resolutionStart (m : Material) (shader : Shader) (technique : Technique) : Material :=
  { toMaterialValues := MaterialValues.empty, mShader := some shader,
    mBestTechnique := some technique, mRenderQueue := m.mRenderQueue,
    mValidShareableParamBlocks := [], mParametersPerPass := [], mParamBuffers := [] }

/-- The loop "Create param blocks" as `initBestTechnique` runs it for a technique: from an
empty ownership list and an empty set of valid shareable blocks. -/
def sharedBlocks (ignoreBufferOffsets : Bool) (shader : Shader) (technique : Technique)
    (hbm : HardwareBufferManager) : BlockBuffers :=
  createParamBlocks shader.paramBlocks (collectParamDescs technique)
    (determineValidShareableParamBlocks ignoreBufferOffsets (collectParamDescs technique))
    { hbm := hbm, mParamBuffers := [], paramBlockBuffers := [],
      mValidShareableParamBlocks := [] }

/-- The loop "Assign param block buffers" as `initBestTechnique` runs it for a technique. -/
def assignedPasses (ignoreBufferOffsets : Bool) (shader : Shader) (technique : Technique)
    (hbm : HardwareBufferManager) : List PassParameters × BufferAlloc :=
  assignAllPasses (sharedBlocks ignoreBufferOffsets shader technique hbm).mValidShareableParamBlocks
    (sharedBlocks ignoreBufferOffsets shader technique hbm).paramBlockBuffers
    (technique.passes.map createPassParameters)
    { hbm := (sharedBlocks ignoreBufferOffsets shader technique hbm).hbm,
      mParamBuffers := (sharedBlocks ignoreBufferOffsets shader technique hbm).mParamBuffers }

/-- Number of buffers the loop "Create param blocks" allocates for a technique: one for each
valid shareable block that the shader does not declare as shared. -/
def sharedBufferCount (ignoreBufferOffsets : Bool) (shader : Shader) (technique : Technique) :
    Nat :=
  ((determineValidShareableParamBlocks ignoreBufferOffsets
    (collectParamDescs technique)).filter
      (fun X => !shaderMarksShared shader.paramBlocks X)).length

/-- Number of buffers the loop "Create non-shareable ones" allocates for a technique: one
for each block a program of a pass declares as non-shareable. -/
def privateBufferCount (technique : Technique) : Nat :=
  ((stageObjects (technique.passes.map createPassParameters)).map
    (fun p => nonShareableCount p.paramDesc)).sum

/-- Number of buffers a call of `setShader` allocates. -/
def allocatedCount (ignoreBufferOffsets : Bool) (shader : Option Shader) : Nat :=
  match shader with
  | none => 0
  | some s =>
    match s.getBestTechnique with
    | none => 0
    | some t =>
      match (resolvedValues s t).2 with
      | some _ => sharedBufferCount ignoreBufferOffsets s t
      | none => sharedBufferCount ignoreBufferOffsets s t + privateBufferCount t

/-- The descriptor declares a block under `X` and declares it as shareable. -/
def DeclaresShareable (desc : GpuParamDesc) (X : String) : Prop :=
  X ∈ StrMap.keys desc.paramBlocks ∧ ∀ b, (X, b) ∈ desc.paramBlocks → b.isShareable = true

/-- Elements in strictly ascending order, the shape of every `std::set`. -/
def StrSet.Sorted (s : StrSet) : Prop :=
  List.Pairwise (fun a b : String => a.toList < b.toList) s

/-- The shared buffer of the block `X` is recorded in the state of "Create param blocks":
the local map holds for `X` a buffer of the ownership list with the size of the block
descriptor the lookup loop finds. -/
def HasSharedBuffer (descs : List GpuParamDesc) (st : BlockBuffers) (X : String)
    (buf : GpuParamBlockBuffer) : Prop :=
  buf ∈ st.mParamBuffers ∧ StrMap.find st.paramBlockBuffers X = some (some buf)
    ∧ buf.size = ((findBlockDesc X descs).blockSize * sizeofUINT32) % 2 ^ 32

/-- A fragment stage that declares the block `PerMaterial` as non-shareable. -/
def examplePrivateFragmentStage : GpuParamDesc :=
  { paramBlocks :=
      [("PerMaterial", { name := "PerMaterial", slot := 0, blockSize := 4, isShareable := false })],
    params := [("tintColor", exampleColorParam)],
    samplers := [], textures := [], buffers := [] }

/-- A pass with the example vertex stage and the fragment stage with its private block. -/
def exampleMixedPass : Pass :=
  { vertexProgram := some { paramDesc := exampleVertexStage },
    fragmentProgram := some { paramDesc := examplePrivateFragmentStage },
    geometryProgram := none, hullProgram := none, domainProgram := none,
    computeProgram := none }

/-- The example shader over the pass with the private fragment block. -/
def exampleMixedShader : Shader :=
  { exampleShader with bestTechnique := some { passes := [exampleMixedPass] } }

/-- What an accessor yields: a value, an exception, or nothing that the language defines,
when the accessor dereferences a null pointer. -/
inductive Result (α : Type) where
  | ok (value : α)
  | raised (e : CmException)
  | undefined
  deriving DecidableEq, Repr

/-- What a setter leaves behind: the material, the exception that ended the call, if one did,
and whether the call did something the language leaves undefined (a write outside a
vector). -/
structure SetterResult where
  m : Material
  exception : Option CmException
  undefined : Bool
  deriving DecidableEq, Repr

/-- Modelled from the spec: `GpuParams::hasTexture`, whether the descriptor declares a
texture of that name. -/
def GpuParams.hasTexture (params : GpuParams) (name : String) : Bool :=
  (StrMap.find params.paramDesc.textures name).isSome

/-- Modelled from the spec: `GpuParams::setTexture`. -/
def GpuParams.setTexture (params : GpuParams) (name : String) (value : HTexture) : GpuParams :=
  { params with textures := StrMap.insert name value params.textures }

/-- Modelled from the spec: `GpuParams::hasSamplerState`, whether the descriptor declares a
sampler of that name. -/
def GpuParams.hasSamplerState (params : GpuParams) (name : String) : Bool :=
  (StrMap.find params.paramDesc.samplers name).isSome

/-- Modelled from the spec: `GpuParams::setSamplerState`. -/
def GpuParams.setSamplerState (params : GpuParams) (name : String) (value : HSamplerState) :
    GpuParams :=
  { params with samplerStates := StrMap.insert name value params.samplerStates }

/-- Modelled from the spec: `GpuParams::hasParam`, whether the descriptor declares a data
parameter of that name. -/
def GpuParams.hasParam (params : GpuParams) (name : String) : Bool :=
  (StrMap.find params.paramDesc.params name).isSome

/-- Modelled from the spec: `GpuParams::setParam`, which writes a value for the variable at
the array index. -/
def GpuParams.setParam (params : GpuParams) (name : String) (value : ParamValue)
    (arrayIdx : Nat) : GpuParams :=
  { params with dataValues := ((name, arrayIdx), value) :: params.dataValues }

/-- The value a bound-parameter object holds for a variable at an array index: the latest
one written there. -/
def GpuParams.getParam (params : GpuParams) (name : String) (arrayIdx : Nat) :
    Option ParamValue :=
  (params.dataValues.find? (fun e => decide (e.1 = (name, arrayIdx)))).map (fun e => e.2)

/-- The body of a loop over `getParamByIdx` applied to the objects of one pass that are
present. -/
def PassParameters.update (f : GpuParams → GpuParams) (params : PassParameters) :
    PassParameters :=
  { mVertParams := params.mVertParams.map f
    mFragParams := params.mFragParams.map f
    mGeomParams := params.mGeomParams.map f
    mHullParams := params.mHullParams.map f
    mDomainParams := params.mDomainParams.map f
    mComputeParams := params.mComputeParams.map f }

/-- The two nested loops of the setters, over `mParametersPerPass` and over
`getParamByIdx`, with the body `f` for each pointer that is not null. -/
def forEachParam (f : GpuParams → GpuParams) (passes : List PassParameters) :
    List PassParameters :=
  passes.map (PassParameters.update f)

/-- Modelled from the spec: the private template `Material::setParam` of the header, which
writes the value into every per-pass bound-parameter object that declares the variable. -/
def setParam (m : Material) (name : String) (value : ParamValue) (arrayIdx : Nat) : Material :=
  { m with mParametersPerPass :=
      (forEachParam (fun p => if p.hasParam name then p.setParam name value arrayIdx else p)
        m.mParametersPerPass) }

/-- Modelled from the spec: `Shader::getDataParamDesc`, the declaration of the data parameter
of that name; the shader raises an internal error when it has none. -/
def Shader.getDataParamDesc (shader : Shader) (name : String) : Result SHADER_DATA_PARAM_DESC :=
  match StrMap.find shader.dataParams name with
  | some desc => Result.ok desc
  | none => Result.raised (CmException.InternalErrorException
      ("Cannot find the parameter with the name: " ++ name))

/-- The function `Material::throwIfNotInitialized`: the exception it raises, if any. -/
def throwIfNotInitialized (m : Material) : Option CmException :=
  match m.mShader with
  | none => some (CmException.InternalErrorException "Material does not have shader set.")
  | some _ =>
    match m.mBestTechnique with
    | none => some (CmException.InternalErrorException
        "Shader does not contain a supported technique.")
    | some _ => none

/-- The two statements `auto& savedValue = cache[name]; savedValue[arrayIdx] = value;` of
the typed setters. The subscript of the map creates an empty vector for a name it does not
have. The subscript of the vector is not checked: when the index is not below the length the
write is outside the vector, the flag is set and the vector is left as it is. -/
def writeCache {T : Type} (cache : StrMap (List T)) (name : String) (arrayIdx : Nat)
    (value : T) : StrMap (List T) × Bool :=
  let savedValue := (StrMap.find cache name).getD []
  if arrayIdx < savedValue.length then
    (StrMap.insert name (savedValue.set arrayIdx value) cache, false)
  else (StrMap.insert name savedValue cache, true)

/-- The function `Material::setTexture`. -/
def setTexture (m : Material) (name : String) (value : HTexture) : SetterResult :=
  match throwIfNotInitialized m with
  | some e => { m := m, exception := some e, undefined := false }
  | none =>
    match StrMap.find m.mValidParams name with
    | none => { m := m, exception := none, undefined := false }
    | some gpuVarName =>
      { m := { m with
            mParametersPerPass := (forEachParam
              (fun p => if p.hasTexture gpuVarName then p.setTexture gpuVarName value else p)
              m.mParametersPerPass)
            mTextureValues := StrMap.insert name value m.mTextureValues }
        exception := none
        undefined := false }

/-- The function `Material::setSamplerState`. -/
def setSamplerState (m : Material) (name : String) (samplerState : HSamplerState) :
    SetterResult :=
  match throwIfNotInitialized m with
  | some e => { m := m, exception := some e, undefined := false }
  | none =>
    match StrMap.find m.mValidParams name with
    | none => { m := m, exception := none, undefined := false }
    | some gpuVarName =>
      { m := { m with
            mParametersPerPass := (forEachParam
              (fun p => if p.hasSamplerState gpuVarName
                then p.setSamplerState gpuVarName samplerState else p)
              m.mParametersPerPass)
            mSamplerValues := StrMap.insert name samplerState m.mSamplerValues }
        exception := none
        undefined := false }

/-- The function `Material::setFloat`. -/
def setFloat (m : Material) (name : String) (value : float) (arrayIdx : Nat) : SetterResult :=
  match throwIfNotInitialized m with
  | some e => { m := m, exception := some e, undefined := false }
  | none =>
    match StrMap.find m.mValidParams name with
    | none => { m := m, exception := none, undefined := false }
    | some gpuVarName =>
      { m := { setParam m gpuVarName (ParamValue.float value) arrayIdx with
            mFloatValues := (writeCache m.mFloatValues name arrayIdx value).1 }
        exception := none
        undefined := (writeCache m.mFloatValues name arrayIdx value).2 }

/-- The function `Material::setColor`. -/
def setColor (m : Material) (name : String) (value : Color) (arrayIdx : Nat) : SetterResult :=
  match throwIfNotInitialized m with
  | some e => { m := m, exception := some e, undefined := false }
  | none =>
    match StrMap.find m.mValidParams name with
    | none => { m := m, exception := none, undefined := false }
    | some gpuVarName =>
      { m := { setParam m gpuVarName (ParamValue.color value) arrayIdx with
            mVec4Values := (writeCache m.mVec4Values name arrayIdx
              { x := value.r, y := value.g, z := value.b, w := value.a }).1 }
        exception := none
        undefined := (writeCache m.mVec4Values name arrayIdx
          { x := value.r, y := value.g, z := value.b, w := value.a }).2 }

/-- The function `Material::setVec2`. -/
def setVec2 (m : Material) (name : String) (value : Vector2) (arrayIdx : Nat) : SetterResult :=
  match throwIfNotInitialized m with
  | some e => { m := m, exception := some e, undefined := false }
  | none =>
    match StrMap.find m.mValidParams name with
    | none => { m := m, exception := none, undefined := false }
    | some gpuVarName =>
      { m := { setParam m gpuVarName (ParamValue.vec2 value) arrayIdx with
            mVec2Values := (writeCache m.mVec2Values name arrayIdx value).1 }
        exception := none
        undefined := (writeCache m.mVec2Values name arrayIdx value).2 }

/-- The function `Material::setVec3`. -/
def setVec3 (m : Material) (name : String) (value : Vector3) (arrayIdx : Nat) : SetterResult :=
  match throwIfNotInitialized m with
  | some e => { m := m, exception := some e, undefined := false }
  | none =>
    match StrMap.find m.mValidParams name with
    | none => { m := m, exception := none, undefined := false }
    | some gpuVarName =>
      { m := { setParam m gpuVarName (ParamValue.vec3 value) arrayIdx with
            mVec3Values := (writeCache m.mVec3Values name arrayIdx value).1 }
        exception := none
        undefined := (writeCache m.mVec3Values name arrayIdx value).2 }

/-- The function `Material::setVec4`. -/
def setVec4 (m : Material) (name : String) (value : Vector4) (arrayIdx : Nat) : SetterResult :=
  match throwIfNotInitialized m with
  | some e => { m := m, exception := some e, undefined := false }
  | none =>
    match StrMap.find m.mValidParams name with
    | none => { m := m, exception := none, undefined := false }
    | some gpuVarName =>
      { m := { setParam m gpuVarName (ParamValue.vec4 value) arrayIdx with
            mVec4Values := (writeCache m.mVec4Values name arrayIdx value).1 }
        exception := none
        undefined := (writeCache m.mVec4Values name arrayIdx value).2 }

/-- The function `Material::setMat3`. -/
def setMat3 (m : Material) (name : String) (value : Matrix3) (arrayIdx : Nat) : SetterResult :=
  match throwIfNotInitialized m with
  | some e => { m := m, exception := some e, undefined := false }
  | none =>
    match StrMap.find m.mValidParams name with
    | none => { m := m, exception := none, undefined := false }
    | some gpuVarName =>
      { m := { setParam m gpuVarName (ParamValue.mat3 value) arrayIdx with
            mMat3Values := (writeCache m.mMat3Values name arrayIdx value).1 }
        exception := none
        undefined := (writeCache m.mMat3Values name arrayIdx value).2 }

/-- The function `Material::setMat4`. -/
def setMat4 (m : Material) (name : String) (value : Matrix4) (arrayIdx : Nat) : SetterResult :=
  match throwIfNotInitialized m with
  | some e => { m := m, exception := some e, undefined := false }
  | none =>
    match StrMap.find m.mValidParams name with
    | none => { m := m, exception := none, undefined := false }
    | some gpuVarName =>
      { m := { setParam m gpuVarName (ParamValue.mat4 value) arrayIdx with
            mMat4Values := (writeCache m.mMat4Values name arrayIdx value).1 }
        exception := none
        undefined := (writeCache m.mMat4Values name arrayIdx value).2 }

/-- The function `Material::setStructData`; `value` are the bytes the pointer refers to.
The shader is present once `throwIfNotInitialized` has passed; the branch for a null shader
stands for the dereference of the null pointer. -/
def setStructData (m : Material) (name : String) (value : List Nat) (size : Nat)
    (arrayIdx : Nat) : SetterResult :=
  match throwIfNotInitialized m with
  | some e => { m := m, exception := some e, undefined := false }
  | none =>
    match StrMap.find m.mValidParams name with
    | none => { m := m, exception := none, undefined := false }
    | some gpuVarName =>
      match m.mShader with
      | none => { m := m, exception := none, undefined := true }
      | some shader =>
        match shader.getDataParamDesc name with
        | Result.undefined => { m := m, exception := none, undefined := true }
        | Result.raised e => { m := m, exception := some e, undefined := false }
        | Result.ok desc =>
          if desc.elementSize ≠ size then
            { m := m
              exception := some (CmException.InvalidParametersException
                ("Invalid size when writing a struct. Expected: " ++ toString desc.elementSize
                  ++ ". Got: " ++ toString size))
              undefined := false }
          else
            { m := { m with
                  mParametersPerPass := (forEachParam
                    (fun p => if p.hasParam gpuVarName
                      then p.setParam gpuVarName (ParamValue.struct value size) arrayIdx else p)
                    m.mParametersPerPass)
                  mStructValues := (writeCache m.mStructValues name arrayIdx
                    { data := value, size := size }).1 }
              exception := none
              undefined := (writeCache m.mStructValues name arrayIdx
                { data := value, size := size }).2 }

/-- The function `Material::getNumPasses`. After the state check the shader is present; a
shader whose `getBestTechnique` returns null would be dereferenced. -/
def getNumPasses (m : Material) : Result Nat :=
  match throwIfNotInitialized m with
  | some e => Result.raised e
  | none =>
    match m.mShader with
    | none => Result.undefined
    | some shader =>
      match shader.getBestTechnique with
      | none => Result.undefined
      | some technique => Result.ok technique.getNumPasses

/-- The function `Material::getPass`: it dereferences `mShader` and the technique
`getBestTechnique` returns without a check of either. -/
def getPass (m : Material) (passIdx : Nat) : Result Pass :=
  match m.mShader with
  | none => Result.undefined
  | some shader =>
    match shader.getBestTechnique with
    | none => Result.undefined
    | some technique =>
      if passIdx ≥ technique.getNumPasses then
        Result.raised (CmException.InvalidParametersException "Invalid pass index.")
      else
        match technique.passes[passIdx]? with
        | some pass => Result.ok pass
        | none => Result.undefined

/-- The function `Material::getPassParameters`. -/
def getPassParameters (m : Material) (passIdx : Nat) : Result PassParameters :=
  if passIdx ≥ m.mParametersPerPass.length then
    Result.raised (CmException.InvalidParametersException "Invalid pass index.")
  else
    match m.mParametersPerPass[passIdx]? with
    | some params => Result.ok params
    | none => Result.undefined

/-- The function `Material::getTexture`. -/
def getTexture (m : Material) (name : String) : Result HTexture :=
  match StrMap.find m.mTextureValues name with
  | none => Result.raised (CmException.InternalErrorException
      ("No texture parameter with the name: " ++ name))
  | some value => Result.ok value

/-- The function `Material::getSamplerState`. -/
def getSamplerState (m : Material) (name : String) : Result HSamplerState :=
  match StrMap.find m.mSamplerValues name with
  | none => Result.raised (CmException.InternalErrorException
      ("No sampler state parameter with the name: " ++ name))
  | some value => Result.ok value

/-- The body the seven getters of data values share: the lookup of the name in the cache
of the kind, and `at(arrayIdx)` on the vector found. -/
def getCached {T : Type} (cache : StrMap (List T)) (name : String) (arrayIdx : Nat) :
    Result T :=
  match StrMap.find cache name with
  | none => Result.raised (CmException.InternalErrorException
      ("No float parameter with the name: " ++ name))
  | some values =>
    match values[arrayIdx]? with
    | some value => Result.ok value
    | none => Result.raised CmException.OutOfRange

/-- The function `Material::getFloat`. -/
def getFloat (m : Material) (name : String) (arrayIdx : Nat) : Result float :=
  getCached m.mFloatValues name arrayIdx

/-- The function `Material::getVec2`. -/
def getVec2 (m : Material) (name : String) (arrayIdx : Nat) : Result Vector2 :=
  getCached m.mVec2Values name arrayIdx

/-- The function `Material::getVec3`. -/
def getVec3 (m : Material) (name : String) (arrayIdx : Nat) : Result Vector3 :=
  getCached m.mVec3Values name arrayIdx

/-- The function `Material::getVec4`. -/
def getVec4 (m : Material) (name : String) (arrayIdx : Nat) : Result Vector4 :=
  getCached m.mVec4Values name arrayIdx

/-- The function `Material::getMat3`. -/
def getMat3 (m : Material) (name : String) (arrayIdx : Nat) : Result Matrix3 :=
  getCached m.mMat3Values name arrayIdx

/-- The function `Material::getMat4`. -/
def getMat4 (m : Material) (name : String) (arrayIdx : Nat) : Result Matrix4 :=
  getCached m.mMat4Values name arrayIdx

/-- The function `Material::getStructData`. -/
def getStructData (m : Material) (name : String) (arrayIdx : Nat) : Result StructData :=
  getCached m.mStructValues name arrayIdx

/-- A call of one of the ten setters with its arguments. -/
inductive SetterCall where
  | setTexture (name : String) (value : HTexture)
  | setSamplerState (name : String) (samplerState : HSamplerState)
  | setFloat (name : String) (value : float) (arrayIdx : Nat)
  | setColor (name : String) (value : Color) (arrayIdx : Nat)
  | setVec2 (name : String) (value : Vector2) (arrayIdx : Nat)
  | setVec3 (name : String) (value : Vector3) (arrayIdx : Nat)
  | setVec4 (name : String) (value : Vector4) (arrayIdx : Nat)
  | setMat3 (name : String) (value : Matrix3) (arrayIdx : Nat)
  | setMat4 (name : String) (value : Matrix4) (arrayIdx : Nat)
  | setStructData (name : String) (value : List Nat) (size : Nat) (arrayIdx : Nat)
  deriving DecidableEq, Repr

/-- The material-level name a setter call is made for. -/
def SetterCall.name : SetterCall → String
  | SetterCall.setTexture name _ => name
  | SetterCall.setSamplerState name _ => name
  | SetterCall.setFloat name _ _ => name
  | SetterCall.setColor name _ _ => name
  | SetterCall.setVec2 name _ _ => name
  | SetterCall.setVec3 name _ _ => name
  | SetterCall.setVec4 name _ _ => name
  | SetterCall.setMat3 name _ _ => name
  | SetterCall.setMat4 name _ _ => name
  | SetterCall.setStructData name _ _ _ => name

/-- The setter call made on a material. -/
def applySetter (m : Material) : SetterCall → SetterResult
  | SetterCall.setTexture name value => setTexture m name value
  | SetterCall.setSamplerState name samplerState => setSamplerState m name samplerState
  | SetterCall.setFloat name value arrayIdx => setFloat m name value arrayIdx
  | SetterCall.setColor name value arrayIdx => setColor m name value arrayIdx
  | SetterCall.setVec2 name value arrayIdx => setVec2 m name value arrayIdx
  | SetterCall.setVec3 name value arrayIdx => setVec3 m name value arrayIdx
  | SetterCall.setVec4 name value arrayIdx => setVec4 m name value arrayIdx
  | SetterCall.setMat3 name value arrayIdx => setMat3 m name value arrayIdx
  | SetterCall.setMat4 name value arrayIdx => setMat4 m name value arrayIdx
  | SetterCall.setStructData name value size arrayIdx =>
    setStructData m name value size arrayIdx

/-- The state check of the setters passes: a shader is set and a best technique is
recorded. -/
def Resolved (m : Material) : Prop := m.mShader ≠ none ∧ m.mBestTechnique ≠ none

instance (m : Material) : Decidable (Resolved m) := by
  unfold Resolved
  infer_instance

/-- The states a material goes through from its construction by calls of `setShader` and of
the setters, whatever their outcome. -/
inductive Reachable (ignoreBufferOffsets : Bool) : Material → Prop where
  | new : Reachable ignoreBufferOffsets Material.new
  | setShader (hbm : HardwareBufferManager) (m : Material) (shader : Option Shader) :
      Reachable ignoreBufferOffsets m →
      Reachable ignoreBufferOffsets (setShader ignoreBufferOffsets hbm m shader).m
  | setter (m : Material) (call : SetterCall) :
      Reachable ignoreBufferOffsets m → Reachable ignoreBufferOffsets (applySetter m call).m

/-- The names that have an entry in one of the nine value caches. -/
def cachedNames (v : MaterialValues) : List String :=
  StrMap.keys v.mFloatValues ++ StrMap.keys v.mVec2Values ++ StrMap.keys v.mVec3Values
    ++ StrMap.keys v.mVec4Values ++ StrMap.keys v.mMat3Values ++ StrMap.keys v.mMat4Values
    ++ StrMap.keys v.mStructValues ++ StrMap.keys v.mTextureValues
    ++ StrMap.keys v.mSamplerValues

/-- The bit pattern of the float `1.0f`. -/
def floatOne : float := 1065353216

/-- The declaration of the material parameter `tintColor` for the GPU variable of the same
name. -/
def exampleTintColorDecl : SHADER_DATA_PARAM_DESC :=
  { name := "tintColor", gpuVariableName := "tintColor",
    type := GpuParamDataType.GPDT_FLOAT4, arraySize := 1, elementSize := 4 }

/-- The declaration of the material parameter `gloss`. -/
def exampleGlossDecl : SHADER_DATA_PARAM_DESC :=
  { name := "gloss", gpuVariableName := "gloss",
    type := GpuParamDataType.GPDT_FLOAT1, arraySize := 1, elementSize := 1 }

/-- A shader over the example pass that declares `gloss` and `tintColor`. -/
def exampleTintShader : Shader :=
  { bestTechnique := some { passes := [examplePass] },
    paramBlocks := [],
    dataParams := [("gloss", exampleGlossDecl), ("tintColor", exampleTintColorDecl)],
    objectParams := [] }

/-- The material after `setShader` with the shader of `gloss` and `tintColor` on a new
material. -/
def exampleResolved : Material :=
  (setShader false HardwareBufferManager.new Material.new (some exampleTintShader)).m

/-- A shader that has no supported technique. -/
def exampleUnsupportedShader : Shader :=
  { exampleTintShader with bestTechnique := none }

/-- The material after `setShader` with the shader that has no supported technique. -/
def exampleUnsupported : Material :=
  (setShader false HardwareBufferManager.new Material.new (some exampleUnsupportedShader)).m

/-- The struct `light` of eight bytes as a stage declares it. -/
def exampleLightParam : GpuParamDataDesc :=
  { name := "light", elementSize := 8, arraySize := 1, arrayElementStride := 8,
    type := GpuParamDataType.GPDT_STRUCT, paramBlockSlot := 0, gpuMemOffset := 0,
    cpuMemOffset := 0 }

/-- A stage that declares the struct `light` of eight bytes in the block `Lights`. -/
def exampleLightStage : GpuParamDesc :=
  { paramBlocks :=
      [("Lights", { name := "Lights", slot := 0, blockSize := 8, isShareable := false })],
    params := [("light", exampleLightParam)],
    samplers := [], textures := [], buffers := [] }

/-- The pass whose vertex stage declares `light`. -/
def exampleLightPass : Pass :=
  { vertexProgram := some { paramDesc := exampleLightStage },
    fragmentProgram := none, geometryProgram := none, hullProgram := none,
    domainProgram := none, computeProgram := none }

/-- The declaration of the material parameter `light`, a struct of eight bytes. -/
def exampleLightDecl : SHADER_DATA_PARAM_DESC :=
  { name := "light", gpuVariableName := "light",
    type := GpuParamDataType.GPDT_STRUCT, arraySize := 1, elementSize := 8 }

/-- A shader of one pass with the vertex stage of `light`. -/
def exampleStructShader : Shader :=
  { bestTechnique := some { passes := [exampleLightPass] },
    paramBlocks := [],
    dataParams := [("light", exampleLightDecl)],
    objectParams := [] }

/-- The material after `setShader` with the shader of `light` on a new material. -/
def exampleStructResolved : Material :=
  (setShader false HardwareBufferManager.new Material.new (some exampleStructShader)).m

/-- Every name with an entry in a value cache has an entry in the validated-parameter
map. -/
def CachesValidated (v : MaterialValues) : Prop :=
  ∀ name, name ∈ cachedNames v → name ∈ StrMap.keys v.mValidParams

/-- A compute stage that declares the buffer `data`. -/
def exampleBufferStage : GpuParamDesc :=
  { paramBlocks := [], params := [], samplers := [], textures := [],
    buffers := [("data", { name := "data", slot := 0 })] }

/-- The example pass with the compute stage of the buffer `data`. -/
def exampleBufferPass : Pass :=
  { examplePass with computeProgram := some { paramDesc := exampleBufferStage } }

/-- A shader that declares `gloss`, `tintColor` and the buffer `data`. -/
def exampleBufferShader : Shader :=
  { bestTechnique := some { passes := [exampleBufferPass] },
    paramBlocks := [],
    dataParams := [("gloss", exampleGlossDecl), ("tintColor", exampleTintColorDecl)],
    objectParams :=
      [("data", { name := "data", gpuVariableName := "data",
                  type := GpuParamObjectType.buffer 0 })] }

/-- The call of `setShader` with the shader of the buffer `data` on a new material; it ends
with the exception for buffers. -/
def exampleFailed : CallResult :=
  setShader false HardwareBufferManager.new Material.new (some exampleBufferShader)

/-- The length of the array a name has in the cache of a kind of data, if it has one there;
there is no cache for a kind outside the seven supported ones. -/
def cachedLength (v : MaterialValues) : GpuParamDataType → String → Option Nat
  | GpuParamDataType.GPDT_FLOAT1, name => (StrMap.find v.mFloatValues name).map List.length
  | GpuParamDataType.GPDT_FLOAT2, name => (StrMap.find v.mVec2Values name).map List.length
  | GpuParamDataType.GPDT_FLOAT3, name => (StrMap.find v.mVec3Values name).map List.length
  | GpuParamDataType.GPDT_FLOAT4, name => (StrMap.find v.mVec4Values name).map List.length
  | GpuParamDataType.GPDT_MATRIX_3X3, name => (StrMap.find v.mMat3Values name).map List.length
  | GpuParamDataType.GPDT_MATRIX_4X4, name => (StrMap.find v.mMat4Values name).map List.length
  | GpuParamDataType.GPDT_STRUCT, name => (StrMap.find v.mStructValues name).map List.length
  | GpuParamDataType.GPDT_OTHER _, _ => none

/-- The test the loop "Create data param mappings" makes on a declaration of the shader: its
GPU variable is a valid data parameter of the technique with the declared type and array
size. -/
def acceptedDataParam (validDataParameters : StrMap GpuParamDataDesc)
    (desc : SHADER_DATA_PARAM_DESC) : Bool :=
  match StrMap.find validDataParameters desc.gpuVariableName with
  | none => false
  | some found => decide (found.type = desc.type) && decide (found.arraySize = desc.arraySize)

/-- The array size the shader declares for a name, when it declares the name as a data
parameter of the kind and the declaration passes the test of the mapping loop. -/
def declaredLength (validDataParameters : StrMap GpuParamDataDesc)
    (dataParams : StrMap SHADER_DATA_PARAM_DESC) (type : GpuParamDataType) (name : String) :
    Option Nat :=
  match StrMap.find dataParams name with
  | none => none
  | some desc =>
    if acceptedDataParam validDataParameters desc = true ∧ desc.type = type then
      some desc.arraySize
    else none

/-- The contract of a getter of data values, in the words of the specification, over the
cache of its kind and the array length `len` gives for a name: a not-found error for a name
without a length, an out-of-range error for an index that is not below the length, and the
cached value otherwise. -/
def GetterContract {T : Type} (cache : StrMap (List T)) (len : String → Option Nat)
    (get : String → Nat → Result T) : Prop :=
  ∀ (name : String) (arrayIdx : Nat),
    (len name = none → get name arrayIdx = Result.raised
      (CmException.InternalErrorException ("No float parameter with the name: " ++ name))) ∧
    (∀ n, len name = some n → n ≤ arrayIdx →
      get name arrayIdx = Result.raised CmException.OutOfRange) ∧
    (∀ n, len name = some n → arrayIdx < n →
      ∃ arr value, StrMap.find cache name = some arr ∧ arr[arrayIdx]? = some value ∧
        get name arrayIdx = Result.ok value)

/-- The struct `light` of sixteen bytes as another stage declares it: the type and the array
size of `exampleLightParam`, another element size and stride. -/
def exampleWideLightParam : GpuParamDataDesc :=
  { exampleLightParam with elementSize := 16, arrayElementStride := 16 }

/-- A stage that declares the struct `light` of sixteen bytes in the block `Lights`. -/
def exampleWideLightStage : GpuParamDesc :=
  { paramBlocks :=
      [("Lights", { name := "Lights", slot := 0, blockSize := 16, isShareable := false })],
    params := [("light", exampleWideLightParam)],
    samplers := [], textures := [], buffers := [] }

/-- A descriptor without the blocks it declares as non-shareable. -/
def shareableOnly (d : GpuParamDesc) : GpuParamDesc :=
  { d with paramBlocks := d.paramBlocks.filter (fun e => e.2.isShareable) }

/-! ## Lemmas on the containers -/

namespace StrMap

variable {V : Type}

theorem find_eq_none_iff (m : StrMap V) (k : String) : find m k = none ↔ k ∉ keys m := by
  induction m with
  | nil => simp [find, keys]
  | cons e rest ih =>
    obtain ⟨k', v⟩ := e
    by_cases h : k' = k
    · simp [find, keys, h]
    · have h2 : ¬ k = k' := fun h3 => h h3.symm
      simp only [find, h, if_false, ih, keys, List.map_cons, List.mem_cons, h2, false_or]

theorem mem_keys_iff_find (m : StrMap V) (k : String) : k ∈ keys m ↔ ∃ v, find m k = some v := by
  rw [← Option.isSome_iff_exists, ← not_iff_not, ← find_eq_none_iff]
  cases find m k <;> simp

theorem find_mem (m : StrMap V) (k : String) (v : V) (h : find m k = some v) : (k, v) ∈ m := by
  induction m with
  | nil => simp [find] at h
  | cons e rest ih =>
    obtain ⟨k', v'⟩ := e
    by_cases hk : k' = k
    · simp [find, hk] at h
      simp [hk, h]
    · simp only [find, hk, if_false] at h
      exact List.mem_cons_of_mem _ (ih h)

theorem find_insert_self (m : StrMap V) (k : String) (v : V) : find (insert k v m) k = some v := by
  induction m with
  | nil => simp [insert, find]
  | cons e rest ih =>
    obtain ⟨k', v'⟩ := e
    simp only [insert]
    split
    · simp [find]
    · split
      · simp [find]
      · rename_i h1 h2
        have h3 : ¬ k' = k := fun h => h2 h.symm
        simp [find, h3, ih]

theorem find_insert_ne (m : StrMap V) (k k2 : String) (v : V) (h : k2 ≠ k) :
    find (insert k v m) k2 = find m k2 := by
  have hk : ¬ k = k2 := fun h3 => h h3.symm
  induction m with
  | nil => simp [insert, find, hk]
  | cons e rest ih =>
    obtain ⟨k', v'⟩ := e
    simp only [insert]
    split
    · simp [find, hk]
    · split
      · rename_i h1 h2
        subst h2
        simp [find, hk]
      · by_cases h4 : k' = k2
        · simp [find, h4]
        · simp [find, h4, ih]

theorem find_erase_self (m : StrMap V) (k : String) : find (erase k m) k = none := by
  induction m with
  | nil => simp [erase, find]
  | cons e rest ih =>
    obtain ⟨k', v'⟩ := e
    by_cases h : k' = k
    · simp [erase, h, ih]
    · simp [erase, h, find, ih]

theorem find_erase_ne (m : StrMap V) (k k2 : String) (h : k2 ≠ k) :
    find (erase k m) k2 = find m k2 := by
  induction m with
  | nil => simp [erase, find]
  | cons e rest ih =>
    obtain ⟨k', v'⟩ := e
    by_cases h1 : k' = k
    · have h2 : ¬ k' = k2 := fun h3 => h (h3.symm.trans h1)
      simp only [erase, h1, if_true, find, ih]
      rw [if_neg (fun h3 => h2 (h1.trans h3))]
    · by_cases h4 : k' = k2
      · subst h4
        simp only [erase, h1, if_false, find, if_true]
      · simp only [erase, h1, if_false, find, h4, ih]

/-- A list of entries either has no entry under `n` or splits at the first one. -/
theorem split_first (m : StrMap V) (n : String) :
    n ∉ keys m ∨ ∃ pre v rest, m = pre ++ (n, v) :: rest ∧ n ∉ keys pre := by
  induction m with
  | nil => left; simp [keys]
  | cons e rest ih =>
    obtain ⟨k', v'⟩ := e
    by_cases h : k' = n
    · right
      exact ⟨[], v', rest, by simp [h], by simp [keys]⟩
    · rcases ih with h1 | ⟨pre, v, rest2, h2, h3⟩
      · left
        simp only [keys, List.map_cons, List.mem_cons, not_or]
        exact ⟨fun h4 => h h4.symm, h1⟩
      · right
        refine ⟨(k', v') :: pre, v, rest2, by simp [h2], ?_⟩
        simp only [keys, List.map_cons, List.mem_cons, not_or]
        exact ⟨fun h4 => h h4.symm, h3⟩

/-- The split at the first entry under `n` is unique. -/
theorem split_first_unique (n : String) (pre pre2 : StrMap V) (v v2 : V) (rest rest2 : StrMap V)
    (h : pre ++ (n, v) :: rest = pre2 ++ (n, v2) :: rest2) (hpre : n ∉ keys pre)
    (hpre2 : n ∉ keys pre2) : pre = pre2 ∧ v = v2 ∧ rest = rest2 := by
  induction pre generalizing pre2 with
  | nil =>
    cases pre2 with
    | nil =>
      simp only [List.nil_append, List.cons.injEq, Prod.mk.injEq, true_and] at h
      exact ⟨rfl, h.1, h.2⟩
    | cons e2 t2 =>
      exfalso
      apply hpre2
      simp only [List.nil_append, List.cons_append, List.cons.injEq] at h
      rw [← h.1]
      simp [keys]
  | cons e t ih =>
    cases pre2 with
    | nil =>
      exfalso
      apply hpre
      simp only [List.nil_append, List.cons_append, List.cons.injEq] at h
      rw [h.1]
      simp [keys]
    | cons e2 t2 =>
      simp only [List.cons_append, List.cons.injEq] at h
      simp only [keys, List.map_cons, List.mem_cons, not_or] at hpre hpre2
      obtain ⟨h1, h2, h3⟩ := ih t2 h.2 hpre.2 hpre2.2
      exact ⟨by rw [h.1, h1], h2, h3⟩

end StrMap

theorem keyLt_irrefl (a : String) : ¬ a.toList < a.toList := by
  rw [← String.lt_iff_toList_lt]
  exact lt_irrefl a

theorem keyLt_trans {a b c : String} (h : a.toList < b.toList) (h2 : b.toList < c.toList) :
    a.toList < c.toList := by
  rw [← String.lt_iff_toList_lt] at *
  exact lt_trans h h2

theorem keyLt_of_not {a b : String} (h : ¬ a.toList < b.toList) (h2 : a ≠ b) :
    b.toList < a.toList := by
  rw [← String.lt_iff_toList_lt] at *
  rcases lt_trichotomy a b with h3 | h3 | h3
  · exact absurd h3 h
  · exact absurd h3 h2
  · exact h3

namespace StrMap

variable {V : Type}

theorem mem_keys_insert (m : StrMap V) (k x : String) (v : V) :
    x ∈ keys (insert k v m) ↔ x = k ∨ x ∈ keys m := by
  by_cases h : x = k
  · subst h
    simp only [true_or, iff_true]
    exact (mem_keys_iff_find _ _).2 ⟨v, find_insert_self _ _ _⟩
  · rw [mem_keys_iff_find, find_insert_ne _ _ _ _ h, ← mem_keys_iff_find]
    simp [h]

theorem sorted_insert (m : StrMap V) (k : String) (v : V) (h : Sorted m) :
    Sorted (insert k v m) := by
  induction m with
  | nil => simp [insert, Sorted, keys]
  | cons e rest ih =>
    obtain ⟨k', v'⟩ := e
    have hs : Sorted rest := (List.pairwise_cons.1 h).2
    have hhead : ∀ x ∈ keys rest, k'.toList < x.toList := (List.pairwise_cons.1 h).1
    simp only [insert]
    split
    · rename_i hlt
      refine List.pairwise_cons.2 ⟨?_, h⟩
      intro x hx
      rcases List.mem_cons.1 hx with h1 | h1
      · rw [h1]
        exact hlt
      · exact keyLt_trans hlt (hhead x h1)
    · split
      · rename_i hlt heq
        subst heq
        exact h
      · rename_i hlt hne
        refine List.pairwise_cons.2 ⟨?_, ih hs⟩
        intro x hx
        rcases (mem_keys_insert rest k x v).1 hx with h1 | h1
        · rw [h1]
          exact keyLt_of_not hlt hne
        · exact hhead x h1

theorem mem_iff_find_of_sorted (m : StrMap V) (h : Sorted m) (k : String) (v : V) :
    (k, v) ∈ m ↔ find m k = some v := by
  constructor
  · intro hmem
    induction m with
    | nil => cases hmem
    | cons e rest ih =>
      obtain ⟨k', v'⟩ := e
      have hs : Sorted rest := (List.pairwise_cons.1 h).2
      have hhead : ∀ x ∈ keys rest, k'.toList < x.toList := (List.pairwise_cons.1 h).1
      rcases List.mem_cons.1 hmem with h1 | h1
      · cases h1
        simp [find]
      · have hk : k ∈ keys rest := List.mem_map.2 ⟨(k, v), h1, rfl⟩
        have hne : ¬ k' = k := by
          intro h2
          subst h2
          exact keyLt_irrefl _ (hhead _ hk)
        simp only [find, hne, if_false]
        exact ih hs h1
  · exact find_mem m k v

end StrMap

/-! ## Lemmas on `determineValidDataParameters` -/

theorem areParamsEqual_ignoring_iff (a b : GpuParamDataDesc) :
    areParamsEqual a b true = true ↔ sameLayout a b := by
  simp only [areParamsEqual, sameLayout, Bool.not_true, Bool.false_eq_true, if_false,
    Bool.and_eq_true, decide_eq_true_eq]
  tauto

theorem sameLayout_symm {a b : GpuParamDataDesc} (h : sameLayout a b) : sameLayout b a :=
  ⟨h.1.symm, h.2.1.symm, h.2.2.1.symm, h.2.2.2.symm⟩

theorem sameLayout_trans {a b c : GpuParamDataDesc} (h : sameLayout a b) (h2 : sameLayout b c) :
    sameLayout a c :=
  ⟨h.1.trans h2.1, h.2.1.trans h2.2.1, h.2.2.1.trans h2.2.2.1, h.2.2.2.trans h2.2.2.2⟩

theorem dataScan_eq_foldl (paramDescs : List GpuParamDesc) (st : DataParamScan) :
    paramDescs.foldl
      (fun (st : DataParamScan) (curDesc : GpuParamDesc) => curDesc.params.foldl dataParamStep st)
      st = (allDataParams paramDescs).foldl dataParamStep st := by
  induction paramDescs generalizing st with
  | nil => rfl
  | cons d rest ih =>
    simp only [List.foldl_cons, allDataParams, List.flatMap_cons, List.foldl_append]
    exact ih _

theorem dataParamStep_other (n : String) (st : DataParamScan) (e : String × GpuParamDataDesc)
    (h : e.1 ≠ n) :
    StrMap.find (dataParamStep st e).validParams n = StrMap.find st.validParams n ∧
    StrMap.find (dataParamStep st e).foundDataParams n = StrMap.find st.foundDataParams n := by
  have hn : n ≠ e.1 := fun h2 => h h2.symm
  unfold dataParamStep
  split
  · simp [StrMap.find_insert_ne _ _ _ _ hn]
  · split
    · split
      · simp [StrMap.find_insert_ne _ _ _ _ hn, StrMap.find_erase_ne _ _ _ hn]
      · simp
    · simp
  · simp

theorem dataParamStep_fresh (n : String) (p : GpuParamDataDesc) (st : DataParamScan)
    (h : DataFresh n st) : DataLive n p (dataParamStep st (n, p)) := by
  unfold dataParamStep
  simp only [h.1]
  exact ⟨StrMap.find_insert_self _ _ _, StrMap.find_insert_self _ _ _⟩

theorem dataParamStep_live (n : String) (p p0 : GpuParamDataDesc) (st : DataParamScan)
    (h : DataLive n p0 st) :
    (sameLayout p p0 → DataLive n p0 (dataParamStep st (n, p))) ∧
    (¬ sameLayout p p0 → DataDead n (dataParamStep st (n, p))) := by
  unfold dataParamStep
  simp only [h.1, h.2]
  constructor
  · intro hs
    have := (areParamsEqual_ignoring_iff p p0).2 hs
    simp only [this, Bool.not_true, Bool.false_eq_true, if_false]
    exact h
  · intro hs
    have : areParamsEqual p p0 true = false := by
      rw [← Bool.not_eq_true, areParamsEqual_ignoring_iff]
      exact hs
    simp only [this, Bool.not_false, if_true]
    exact ⟨StrMap.find_insert_self _ _ _, StrMap.find_erase_self _ _⟩

theorem dataParamStep_dead (n : String) (st : DataParamScan) (e : String × GpuParamDataDesc)
    (h : DataDead n st) : DataDead n (dataParamStep st e) := by
  by_cases he : e.1 = n
  · unfold dataParamStep
    simp only [he, h.1]
    exact h
  · obtain ⟨h1, h2⟩ := dataParamStep_other n st e he
    exact ⟨h1.trans h.1, h2.trans h.2⟩

theorem dataFold_fresh (n : String) (xs : StrMap GpuParamDataDesc) (st : DataParamScan)
    (h : DataFresh n st) (hn : n ∉ StrMap.keys xs) : DataFresh n (xs.foldl dataParamStep st) := by
  induction xs generalizing st with
  | nil => exact h
  | cons e rest ih =>
    simp only [StrMap.keys, List.map_cons, List.mem_cons, not_or] at hn
    simp only [List.foldl_cons]
    apply ih
    · obtain ⟨h1, h2⟩ := dataParamStep_other n st e (fun h3 => hn.1 h3.symm)
      exact ⟨h1.trans h.1, h2.trans h.2⟩
    · exact hn.2

theorem dataFold_dead (n : String) (xs : StrMap GpuParamDataDesc) (st : DataParamScan)
    (h : DataDead n st) : DataDead n (xs.foldl dataParamStep st) := by
  induction xs generalizing st with
  | nil => exact h
  | cons e rest ih => exact ih _ (dataParamStep_dead n st e h)

theorem dataFold_live (n : String) (p0 : GpuParamDataDesc) (xs : StrMap GpuParamDataDesc)
    (st : DataParamScan) (h : DataLive n p0 st) :
    ((∀ p, (n, p) ∈ xs → sameLayout p p0) → DataLive n p0 (xs.foldl dataParamStep st)) ∧
    (¬ (∀ p, (n, p) ∈ xs → sameLayout p p0) → DataDead n (xs.foldl dataParamStep st)) := by
  induction xs generalizing st with
  | nil =>
    refine ⟨fun _ => h, fun hc => absurd ?_ hc⟩
    intro p hp
    cases hp
  | cons e rest ih =>
    obtain ⟨k, p⟩ := e
    simp only [List.foldl_cons]
    by_cases hk : k = n
    · subst hk
      by_cases hs : sameLayout p p0
      · obtain ⟨ih1, ih2⟩ := ih _ ((dataParamStep_live k p p0 st h).1 hs)
        constructor
        · intro hall
          exact ih1 (fun q hq => hall q (List.mem_cons_of_mem _ hq))
        · intro hnot
          apply ih2
          intro hall
          apply hnot
          intro q hq
          rcases List.mem_cons.1 hq with h3 | h3
          · cases h3
            exact hs
          · exact hall q h3
      · have hd := dataFold_dead k rest _ ((dataParamStep_live k p p0 st h).2 hs)
        constructor
        · intro hall
          exact absurd (hall p (List.mem_cons_self _ _)) hs
        · intro _
          exact hd
    · obtain ⟨h1, h2⟩ := dataParamStep_other n st (k, p) hk
      obtain ⟨ih1, ih2⟩ := ih (dataParamStep st (k, p)) ⟨h1.trans h.1, h2.trans h.2⟩
      constructor
      · intro hall
        exact ih1 (fun q hq => hall q (List.mem_cons_of_mem _ hq))
      · intro hnot
        apply ih2
        intro hall
        apply hnot
        intro q hq
        rcases List.mem_cons.1 hq with h3 | h3
        · cases h3
          exact absurd rfl hk
        · exact hall q h3

/-- Key membership in the result of the scan, over the flattened list of declarations. -/
theorem dataScan_mem_iff (xs : StrMap GpuParamDataDesc) (n : String) :
    n ∈ StrMap.keys (xs.foldl dataParamStep DataParamScan.init).foundDataParams ↔
      n ∈ StrMap.keys xs ∧ ∀ p q, (n, p) ∈ xs → (n, q) ∈ xs → sameLayout p q := by
  have hinit : DataFresh n DataParamScan.init := ⟨rfl, rfl⟩
  rcases StrMap.split_first xs n with hno | ⟨pre, p0, rest, hsplit, hpre⟩
  · have hf := dataFold_fresh n xs _ hinit hno
    constructor
    · intro hmem
      exact absurd hmem ((StrMap.find_eq_none_iff _ _).1 hf.2)
    · intro hmem
      exact absurd hmem.1 hno
  · subst hsplit
    have hnotin : ∀ p, (n, p) ∉ pre := by
      intro p hp
      apply hpre
      exact List.mem_map.2 ⟨(n, p), hp, rfl⟩
    have hmemkeys : n ∈ StrMap.keys (pre ++ (n, p0) :: rest) := by
      simp [StrMap.keys]
    rw [List.foldl_append, List.foldl_cons]
    have hf := dataFold_fresh n pre _ hinit hpre
    have hl := dataParamStep_fresh n p0 _ hf
    obtain ⟨h1, h2⟩ := dataFold_live n p0 rest _ hl
    by_cases hall : ∀ p, (n, p) ∈ rest → sameLayout p p0
    · have hlive := h1 hall
      constructor
      · intro _
        refine ⟨hmemkeys, ?_⟩
        have hall2 : ∀ p, (n, p) ∈ pre ++ (n, p0) :: rest → sameLayout p p0 := by
          intro p hp
          rcases List.mem_append.1 hp with h3 | h3
          · exact absurd h3 (hnotin p)
          · rcases List.mem_cons.1 h3 with h4 | h4
            · cases h4
              exact ⟨rfl, rfl, rfl, rfl⟩
            · exact hall p h4
        intro p q hp hq
        exact sameLayout_trans (hall2 p hp) (sameLayout_symm (hall2 q hq))
      · intro _
        exact (StrMap.mem_keys_iff_find _ _).2 ⟨p0, hlive.2⟩
    · have hdead := h2 hall
      constructor
      · intro hmem
        exact absurd hmem ((StrMap.find_eq_none_iff _ _).1 hdead.2)
      · intro hmem
        exfalso
        apply hall
        intro p hp
        apply hmem.2 p p0
        · simp [hp]
        · simp

theorem mem_allDataParams (paramDescs : List GpuParamDesc) (n : String) (p : GpuParamDataDesc) :
    (n, p) ∈ allDataParams paramDescs ↔ ∃ d ∈ paramDescs, (n, p) ∈ d.params := by
  simp [allDataParams, List.mem_flatMap]

theorem mem_keys_allDataParams (paramDescs : List GpuParamDesc) (n : String) :
    n ∈ StrMap.keys (allDataParams paramDescs) ↔ ∃ d ∈ paramDescs, n ∈ StrMap.keys d.params := by
  simp only [StrMap.keys, List.mem_map, Prod.exists, exists_and_right, exists_eq_right]
  constructor
  · rintro ⟨p, hp⟩
    obtain ⟨d, hd, hp2⟩ := (mem_allDataParams paramDescs n p).1 hp
    exact ⟨d, hd, p, hp2⟩
  · rintro ⟨d, hd, p, hp⟩
    exact ⟨p, (mem_allDataParams paramDescs n p).2 ⟨d, hd, hp⟩⟩

/-- Validity of a data parameter, the rule shared by the theorems below. -/
theorem validData_iff (paramDescs : List GpuParamDesc) (n : String) :
    n ∈ StrMap.keys (determineValidDataParameters paramDescs) ↔
      (∃ d ∈ paramDescs, n ∈ StrMap.keys d.params) ∧
      ∀ d1 ∈ paramDescs, ∀ d2 ∈ paramDescs, ∀ p1 p2,
        (n, p1) ∈ d1.params → (n, p2) ∈ d2.params → sameLayout p1 p2 := by
  unfold determineValidDataParameters
  rw [dataScan_eq_foldl]
  have h := dataScan_mem_iff (allDataParams paramDescs) n
  unfold DataParamScan.init at h
  rw [h, mem_keys_allDataParams]
  constructor
  · rintro ⟨h1, h2⟩
    refine ⟨h1, ?_⟩
    intro d1 hd1 d2 hd2 p1 p2 hp1 hp2
    exact h2 p1 p2 ((mem_allDataParams _ _ _).2 ⟨d1, hd1, hp1⟩)
      ((mem_allDataParams _ _ _).2 ⟨d2, hd2, hp2⟩)
  · rintro ⟨h1, h2⟩
    refine ⟨h1, ?_⟩
    intro p q hp hq
    obtain ⟨d1, hd1, hp1⟩ := (mem_allDataParams _ _ _).1 hp
    obtain ⟨d2, hd2, hp2⟩ := (mem_allDataParams _ _ _).1 hq
    exact h2 d1 hd1 d2 hd2 p q hp1 hp2

theorem mem_relocateDesc (g : GpuParamDataDesc → Nat × Nat) (d : GpuParamDesc) (n : String)
    (q : GpuParamDataDesc) :
    (n, q) ∈ (relocateDesc g d).params ↔ ∃ p, (n, p) ∈ d.params ∧ q = relocateParam g p := by
  simp only [relocateDesc, List.mem_map, Prod.mk.injEq, Prod.exists]
  constructor
  · rintro ⟨k, p, hp, hk, hq⟩
    subst hk
    exact ⟨p, hp, hq.symm⟩
  · rintro ⟨p, hp, hq⟩
    exact ⟨n, p, hp, rfl, hq.symm⟩

theorem mem_keys_relocateDesc (g : GpuParamDataDesc → Nat × Nat) (d : GpuParamDesc) (n : String) :
    n ∈ StrMap.keys (relocateDesc g d).params ↔ n ∈ StrMap.keys d.params := by
  simp [relocateDesc, StrMap.keys]

/-- Replacing buffer offsets changes no key of the result. -/
theorem validData_relocate (g : GpuParamDataDesc → Nat × Nat) (paramDescs : List GpuParamDesc)
    (n : String) :
    n ∈ StrMap.keys (determineValidDataParameters (paramDescs.map (relocateDesc g))) ↔
      n ∈ StrMap.keys (determineValidDataParameters paramDescs) := by
  rw [validData_iff, validData_iff]
  constructor
  · rintro ⟨⟨d, hd, hn⟩, hall⟩
    obtain ⟨d0, hd0, rfl⟩ := List.mem_map.1 hd
    refine ⟨⟨d0, hd0, (mem_keys_relocateDesc g d0 n).1 hn⟩, ?_⟩
    intro d1 hd1 d2 hd2 p1 p2 hp1 hp2
    exact hall _ (List.mem_map_of_mem _ hd1) _ (List.mem_map_of_mem _ hd2)
      (relocateParam g p1) (relocateParam g p2)
      ((mem_relocateDesc g d1 n _).2 ⟨p1, hp1, rfl⟩)
      ((mem_relocateDesc g d2 n _).2 ⟨p2, hp2, rfl⟩)
  · rintro ⟨⟨d, hd, hn⟩, hall⟩
    refine ⟨⟨relocateDesc g d, List.mem_map_of_mem _ hd, (mem_keys_relocateDesc g d n).2 hn⟩, ?_⟩
    intro d1 hd1 d2 hd2 q1 q2 hq1 hq2
    obtain ⟨e1, he1, rfl⟩ := List.mem_map.1 hd1
    obtain ⟨e2, he2, rfl⟩ := List.mem_map.1 hd2
    obtain ⟨p1, hp1, rfl⟩ := (mem_relocateDesc g e1 n q1).1 hq1
    obtain ⟨p2, hp2, rfl⟩ := (mem_relocateDesc g e2 n q2).1 hq2
    exact hall e1 he1 e2 he2 p1 p2 hp1 hp2

/-- C1. A name is a key of the result of `determineValidDataParameters` iff some descriptor
declares it and all its declarations across the list agree on type, array size, element size
and array-element stride; replacing the cpu and gpu buffer offsets of the declarations by any
other values changes nothing. -/
theorem determineValidDataParameters_valid_iff (paramDescs : List GpuParamDesc) (n : String) :
    (n ∈ StrMap.keys (determineValidDataParameters paramDescs) ↔
      (∃ d ∈ paramDescs, n ∈ StrMap.keys d.params) ∧
      ∀ d1 ∈ paramDescs, ∀ d2 ∈ paramDescs, ∀ p1 p2,
        (n, p1) ∈ d1.params → (n, p2) ∈ d2.params →
          p1.type = p2.type ∧ p1.arraySize = p2.arraySize ∧ p1.elementSize = p2.elementSize
            ∧ p1.arrayElementStride = p2.arrayElementStride) ∧
    ∀ g : GpuParamDataDesc → Nat × Nat,
      (n ∈ StrMap.keys (determineValidDataParameters (paramDescs.map (relocateDesc g))) ↔
        n ∈ StrMap.keys (determineValidDataParameters paramDescs)) :=
  ⟨validData_iff paramDescs n, fun g => validData_relocate g paramDescs n⟩

/-- C2. Exclusion of a data parameter is order-independent and permanent: a permutation of
the descriptor list leaves the key set of `determineValidDataParameters` unchanged, and a name
that the list declares but the result lacks stays out of the result when further descriptors
follow. -/
theorem determineValidDataParameters_exclusion (paramDescs permuted more : List GpuParamDesc)
    (n : String) (hperm : paramDescs.Perm permuted) :
    (∀ m, m ∈ StrMap.keys (determineValidDataParameters paramDescs) ↔
      m ∈ StrMap.keys (determineValidDataParameters permuted)) ∧
    ((∃ d ∈ paramDescs, n ∈ StrMap.keys d.params) →
      n ∉ StrMap.keys (determineValidDataParameters paramDescs) →
      n ∉ StrMap.keys (determineValidDataParameters (paramDescs ++ more))) := by
  constructor
  · intro m
    rw [validData_iff, validData_iff]
    constructor
    · rintro ⟨⟨d, hd, hn⟩, hall⟩
      refine ⟨⟨d, hperm.mem_iff.1 hd, hn⟩, ?_⟩
      intro d1 hd1 d2 hd2
      exact hall d1 (hperm.mem_iff.2 hd1) d2 (hperm.mem_iff.2 hd2)
    · rintro ⟨⟨d, hd, hn⟩, hall⟩
      refine ⟨⟨d, hperm.mem_iff.2 hd, hn⟩, ?_⟩
      intro d1 hd1 d2 hd2
      exact hall d1 (hperm.mem_iff.1 hd1) d2 (hperm.mem_iff.1 hd2)
  · intro hdecl habs hmem
    apply habs
    rw [validData_iff] at hmem ⊢
    refine ⟨hdecl, ?_⟩
    intro d1 hd1 d2 hd2
    exact hmem.2 d1 (List.mem_append_left _ hd1) d2 (List.mem_append_left _ hd2)

/-- Witness of C2 on a vertex stage and a differing fragment stage, followed once more by a
stage that matches the first. -/
theorem determineValidDataParameters_exclusion_witness :
    [exampleStageA, exampleStageB].Perm [exampleStageB, exampleStageA] ∧
    (∃ d ∈ [exampleStageA, exampleStageB], "tintColor" ∈ StrMap.keys d.params) ∧
    "tintColor" ∉ StrMap.keys (determineValidDataParameters [exampleStageA, exampleStageB]) ∧
    (∀ m, m ∈ StrMap.keys (determineValidDataParameters [exampleStageA, exampleStageB]) ↔
      m ∈ StrMap.keys (determineValidDataParameters [exampleStageB, exampleStageA])) ∧
    "tintColor" ∉ StrMap.keys
      (determineValidDataParameters ([exampleStageA, exampleStageB] ++ [exampleStageA])) :=
  have hperm : [exampleStageA, exampleStageB].Perm [exampleStageB, exampleStageA] :=
    List.Perm.swap _ _ _
  have hdecl : ∃ d ∈ [exampleStageA, exampleStageB], "tintColor" ∈ StrMap.keys d.params :=
    ⟨exampleStageA, by decide, by decide⟩
  have habs : "tintColor" ∉
      StrMap.keys (determineValidDataParameters [exampleStageA, exampleStageB]) := by decide
  have h := determineValidDataParameters_exclusion [exampleStageA, exampleStageB]
    [exampleStageB, exampleStageA] [exampleStageA] "tintColor" hperm
  ⟨hperm, hdecl, habs, h.1, h.2 hdecl habs⟩

/-! ## Lemmas on `determineValidObjectParameters` -/

theorem StrSet.mem_insert (k x : String) (s : StrSet) :
    x ∈ StrSet.insert k s ↔ x = k ∨ x ∈ s := by
  induction s with
  | nil => simp [StrSet.insert]
  | cons a rest ih =>
    simp only [StrSet.insert]
    split
    · simp
    · split
      · rename_i h1 h2
        subst h2
        simp
      · simp only [List.mem_cons, ih]
        tauto

theorem mem_insertObjectNames (objs : StrMap GpuParamObjectDesc) (validParams : StrSet)
    (x : String) :
    x ∈ insertObjectNames validParams objs ↔ x ∈ validParams ∨ x ∈ StrMap.keys objs := by
  induction objs generalizing validParams with
  | nil => simp [insertObjectNames, StrMap.keys]
  | cons e rest ih =>
    have hstep : insertObjectNames validParams (e :: rest)
        = insertObjectNames (if e.1 ∈ validParams then validParams
            else StrSet.insert e.1 validParams) rest := rfl
    rw [hstep, ih]
    simp only [StrMap.keys, List.map_cons, List.mem_cons]
    split
    · rename_i hin
      constructor
      · rintro (h | h)
        · exact Or.inl h
        · exact Or.inr (Or.inr h)
      · rintro (h | h | h)
        · exact Or.inl h
        · exact Or.inl (h ▸ hin)
        · exact Or.inr h
    · rw [StrSet.mem_insert]
      tauto

/-- Names a single stage declares as sampler, texture or buffer. -/
theorem mem_objectStep (d : GpuParamDesc) (validParams : StrSet) (x : String) :
    x ∈ insertObjectNames
        (insertObjectNames (insertObjectNames validParams d.samplers) d.textures) d.buffers ↔
      x ∈ validParams ∨ x ∈ StrMap.keys d.samplers ∨ x ∈ StrMap.keys d.textures
        ∨ x ∈ StrMap.keys d.buffers := by
  rw [mem_insertObjectNames, mem_insertObjectNames, mem_insertObjectNames]
  tauto

theorem mem_objectFold (paramDescs : List GpuParamDesc) (validParams : StrSet) (x : String) :
    x ∈ paramDescs.foldl
        (fun (validParams : StrSet) (curDesc : GpuParamDesc) =>
          insertObjectNames
            (insertObjectNames (insertObjectNames validParams curDesc.samplers) curDesc.textures)
            curDesc.buffers)
        validParams ↔
      x ∈ validParams ∨ ∃ d ∈ paramDescs, x ∈ StrMap.keys d.samplers
        ∨ x ∈ StrMap.keys d.textures ∨ x ∈ StrMap.keys d.buffers := by
  induction paramDescs generalizing validParams with
  | nil => simp
  | cons d rest ih =>
    rw [List.foldl_cons, ih, mem_objectStep]
    constructor
    · rintro ((h | h) | ⟨d2, hd2, h⟩)
      · exact Or.inl h
      · exact Or.inr ⟨d, List.mem_cons_self _ _, h⟩
      · exact Or.inr ⟨d2, List.mem_cons_of_mem _ hd2, h⟩
    · rintro (h | ⟨d2, hd2, h⟩)
      · exact Or.inl (Or.inl h)
      · rcases List.mem_cons.1 hd2 with rfl | h2
        · exact Or.inl (Or.inr h)
        · exact Or.inr ⟨d2, h2, h⟩

/-- C3. The result of `determineValidObjectParameters` is the union, over all descriptors of
the list, of the names in their samplers, textures and buffers maps. -/
theorem determineValidObjectParameters_mem_iff (paramDescs : List GpuParamDesc) (n : String) :
    n ∈ determineValidObjectParameters paramDescs ↔
      ∃ d ∈ paramDescs, n ∈ StrMap.keys d.samplers ∨ n ∈ StrMap.keys d.textures
        ∨ n ∈ StrMap.keys d.buffers := by
  unfold determineValidObjectParameters
  rw [mem_objectFold]
  simp

/-! ## Lemmas on `determineValidShareableParamBlocks` -/

theorem blockMembersMatch_iff (flag : Bool) (b : GpuParamBlockDesc) (X : String)
    (F : GpuParamDesc) (params : StrMap GpuParamDataDesc) :
    blockMembersMatch flag b X F params = true ↔ membersFoundIn flag X F b params := by
  induction params with
  | nil =>
    simp only [blockMembersMatch, membersFoundIn, true_iff]
    intro k p hp
    cases hp
  | cons e rest ih =>
    obtain ⟨key, myParam⟩ := e
    have hcons : membersFoundIn flag X F b ((key, myParam) :: rest) ↔
        (myParam.paramBlockSlot = b.slot →
          (∃ q, StrMap.find F.params key = some q ∧ areParamsEqual myParam q flag = true)
            ∧ b.name = X) ∧ membersFoundIn flag X F b rest := by
      unfold membersFoundIn
      constructor
      · intro h
        exact ⟨h key myParam (List.mem_cons_self _ _),
          fun k p hp => h k p (List.mem_cons_of_mem _ hp)⟩
      · rintro ⟨h1, h2⟩ k p hp
        rcases List.mem_cons.1 hp with h3 | h3
        · cases h3
          exact h1
        · exact h2 k p h3
    rw [hcons, blockMembersMatch, ← ih]
    by_cases hslot : myParam.paramBlockSlot = b.slot
    · simp only [ne_eq, hslot, not_true_eq_false, if_false, true_implies]
      cases hfind : StrMap.find F.params key with
      | none => simp
      | some q =>
        by_cases heq : areParamsEqual myParam q flag = true
        · by_cases hname : b.name = X
          · simp [heq, hname]
          · simp [heq, hname]
        · simp [heq]
    · simp [hslot]

theorem blockStep_skip (flag : Bool) (d : GpuParamDesc) (st : BlockScan)
    (e : String × GpuParamBlockDesc) (h : e.2.isShareable = false) :
    blockStep flag d st e = st := by
  simp [blockStep, h]

theorem blockFold_eq (flag : Bool) (d : GpuParamDesc) (blocks : StrMap GpuParamBlockDesc)
    (st : BlockScan) :
    blocks.foldl (blockStep flag d) st =
      ((blocks.filter (fun e => e.2.isShareable)).map (fun e => (e.1, (d, e.2)))).foldl
        (shareableStep flag) st := by
  induction blocks generalizing st with
  | nil => rfl
  | cons e rest ih =>
    cases hsh : e.2.isShareable with
    | false =>
      rw [List.foldl_cons, blockStep_skip flag d st e hsh, ih, List.filter_cons_of_neg]
      simp [hsh]
    | true =>
      rw [List.foldl_cons, ih, List.filter_cons_of_pos (by simp [hsh])]
      rfl

theorem blockScan_eq_foldl (flag : Bool) (paramDescs : List GpuParamDesc) (st : BlockScan) :
    paramDescs.foldl
      (fun (st : BlockScan) (curDesc : GpuParamDesc) =>
        curDesc.paramBlocks.foldl (blockStep flag curDesc) st)
      st = (shareableDecls paramDescs).foldl (shareableStep flag) st := by
  induction paramDescs generalizing st with
  | nil => rfl
  | cons d rest ih =>
    simp only [List.foldl_cons, shareableDecls, List.flatMap_cons, List.foldl_append]
    rw [← blockFold_eq]
    exact ih _

theorem shareableStep_sorted (flag : Bool) (st : BlockScan)
    (x : String × (GpuParamDesc × GpuParamBlockDesc))
    (h : StrMap.Sorted st.validParamBlocks) :
    StrMap.Sorted (shareableStep flag st x).validParamBlocks := by
  unfold shareableStep blockStep
  split
  · exact h
  · split
    · exact StrMap.sorted_insert _ _ _ h
    · split
      · split
        · exact StrMap.sorted_insert _ _ _ h
        · exact h
      · exact h

theorem shareableFold_sorted (flag : Bool) (xs : StrMap (GpuParamDesc × GpuParamBlockDesc))
    (st : BlockScan) (h : StrMap.Sorted st.validParamBlocks) :
    StrMap.Sorted (xs.foldl (shareableStep flag) st).validParamBlocks := by
  induction xs generalizing st with
  | nil => exact h
  | cons x rest ih => exact ih _ (shareableStep_sorted flag st x h)

theorem shareableStep_other (flag : Bool) (X : String) (st : BlockScan)
    (x : String × (GpuParamDesc × GpuParamBlockDesc)) (h : x.1 ≠ X) :
    StrMap.find (shareableStep flag st x).uniqueParamBlocks X
        = StrMap.find st.uniqueParamBlocks X ∧
    StrMap.find (shareableStep flag st x).validParamBlocks X
        = StrMap.find st.validParamBlocks X := by
  have hn : X ≠ x.1 := fun h2 => h h2.symm
  unfold shareableStep blockStep
  split
  · simp
  · split
    · simp [StrMap.find_insert_ne _ _ _ _ hn]
    · split
      · split
        · simp [StrMap.find_insert_ne _ _ _ _ hn]
        · simp
      · simp

theorem shareableStep_fresh (flag : Bool) (X : String) (F : GpuParamDesc)
    (b : GpuParamBlockDesc) (st : BlockScan) (hb : b.isShareable = true)
    (h : BlockFresh X st) : BlockSeen X F true (shareableStep flag st (X, (F, b))) := by
  unfold shareableStep blockStep
  simp only [hb, Bool.not_true, Bool.false_eq_true, if_false, h.1]
  exact ⟨StrMap.find_insert_self _ _ _, StrMap.find_insert_self _ _ _⟩

theorem shareableStep_seen (flag : Bool) (X : String) (F D : GpuParamDesc)
    (b : GpuParamBlockDesc) (v : Bool) (st : BlockScan) (hb : b.isShareable = true)
    (h : BlockSeen X F v st) :
    BlockSeen X F (v && blockMembersMatch flag b X F D.params)
      (shareableStep flag st (X, (D, b))) := by
  unfold shareableStep blockStep
  simp only [hb, Bool.not_true, Bool.false_eq_true, if_false, h.1, h.2, Option.getD_some]
  cases hm : blockMembersMatch flag b X F D.params with
  | true =>
    simp only [Bool.not_true, Bool.false_eq_true, if_false, Bool.and_true]
    exact h
  | false =>
    cases v with
    | true =>
      simp only [Bool.not_false, if_true, Bool.and_false]
      exact ⟨h.1, StrMap.find_insert_self _ _ _⟩
    | false =>
      simp only [Bool.not_false, if_true, Bool.false_eq_true, if_false, Bool.and_false]
      exact h

theorem shareableFold_fresh (flag : Bool) (X : String)
    (xs : StrMap (GpuParamDesc × GpuParamBlockDesc)) (st : BlockScan)
    (h : BlockFresh X st) (hn : X ∉ StrMap.keys xs) :
    BlockFresh X (xs.foldl (shareableStep flag) st) := by
  induction xs generalizing st with
  | nil => exact h
  | cons e rest ih =>
    simp only [StrMap.keys, List.map_cons, List.mem_cons, not_or] at hn
    simp only [List.foldl_cons]
    apply ih
    · obtain ⟨h1, h2⟩ := shareableStep_other flag X st e (fun h3 => hn.1 h3.symm)
      exact ⟨h1.trans h.1, h2.trans h.2⟩
    · exact hn.2

/-- After the first declaration by `F`, the flag of `X` stays set exactly as long as every
further shareable declaration of `X` passes the member loop against `F`. -/
theorem shareableFold_seen (flag : Bool) (X : String) (F : GpuParamDesc)
    (xs : StrMap (GpuParamDesc × GpuParamBlockDesc)) (v : Bool) (st : BlockScan)
    (hsh : ∀ x ∈ xs, x.2.2.isShareable = true) (h : BlockSeen X F v st) :
    ∃ w, BlockSeen X F w (xs.foldl (shareableStep flag) st) ∧
      (w = true ↔ v = true ∧
        ∀ D b, (X, (D, b)) ∈ xs → blockMembersMatch flag b X F D.params = true) := by
  induction xs generalizing v st with
  | nil =>
    refine ⟨v, h, ?_⟩
    simp
  | cons x rest ih =>
    obtain ⟨k, D, b⟩ := x
    have hrest : ∀ x ∈ rest, x.2.2.isShareable = true :=
      fun x hx => hsh x (List.mem_cons_of_mem _ hx)
    simp only [List.foldl_cons]
    by_cases hk : k = X
    · subst hk
      have hb : b.isShareable = true := hsh (k, (D, b)) (List.mem_cons_self _ _)
      obtain ⟨w, hw, hiff⟩ := ih _ _ hrest (shareableStep_seen flag k F D b v st hb h)
      refine ⟨w, hw, ?_⟩
      rw [hiff, Bool.and_eq_true]
      constructor
      · rintro ⟨⟨hv, hm⟩, hall⟩
        refine ⟨hv, ?_⟩
        intro D2 b2 hmem
        rcases List.mem_cons.1 hmem with h3 | h3
        · cases h3
          exact hm
        · exact hall D2 b2 h3
      · rintro ⟨hv, hall⟩
        exact ⟨⟨hv, hall D b (List.mem_cons_self _ _)⟩,
          fun D2 b2 hmem => hall D2 b2 (List.mem_cons_of_mem _ hmem)⟩
    · obtain ⟨h1, h2⟩ := shareableStep_other flag X st (k, (D, b)) hk
      obtain ⟨w, hw, hiff⟩ := ih v _ hrest ⟨h1.trans h.1, h2.trans h.2⟩
      refine ⟨w, hw, ?_⟩
      rw [hiff]
      constructor
      · rintro ⟨hv, hall⟩
        refine ⟨hv, ?_⟩
        intro D2 b2 hmem
        rcases List.mem_cons.1 hmem with h3 | h3
        · cases h3
          exact absurd rfl hk
        · exact hall D2 b2 h3
      · rintro ⟨hv, hall⟩
        exact ⟨hv, fun D2 b2 hmem => hall D2 b2 (List.mem_cons_of_mem _ hmem)⟩

theorem mem_validReturn (valid : StrMap Bool) (ret : StrSet) (X : String) :
    X ∈ valid.foldl
        (fun (ret : StrSet) (e : String × Bool) => if e.2 then StrSet.insert e.1 ret else ret)
        ret ↔ X ∈ ret ∨ (X, true) ∈ valid := by
  induction valid generalizing ret with
  | nil => simp
  | cons e rest ih =>
    obtain ⟨k, v⟩ := e
    rw [List.foldl_cons, ih]
    cases v with
    | true =>
      simp only [if_true, StrSet.mem_insert, List.mem_cons, Prod.mk.injEq, and_true]
      tauto
    | false => simp

theorem shareableDecls_shareable (paramDescs : List GpuParamDesc) :
    ∀ x ∈ shareableDecls paramDescs, x.2.2.isShareable = true := by
  intro x hx
  simp only [shareableDecls, List.mem_flatMap, List.mem_map, List.mem_filter] at hx
  obtain ⟨d, _, e, ⟨_, he⟩, rfl⟩ := hx
  exact he

/-- Membership in the result of `determineValidShareableParamBlocks`, over the sequence of
shareable declarations. -/
theorem validShareable_iff (flag : Bool) (paramDescs : List GpuParamDesc) (X : String) :
    X ∈ determineValidShareableParamBlocks flag paramDescs ↔
      ∃ pre F bF rest, shareableDecls paramDescs = pre ++ (X, (F, bF)) :: rest ∧
        X ∉ StrMap.keys pre ∧
        ∀ D b, (X, (D, b)) ∈ rest → membersFoundIn flag X F b D.params := by
  unfold determineValidShareableParamBlocks scanShareableBlocks
  rw [blockScan_eq_foldl, mem_validReturn]
  have hinit : BlockFresh X { uniqueParamBlocks := [], validParamBlocks := [] } := ⟨rfl, rfl⟩
  have hsorted := shareableFold_sorted flag (shareableDecls paramDescs)
    { uniqueParamBlocks := [], validParamBlocks := [] } List.Pairwise.nil
  rw [StrMap.mem_iff_find_of_sorted _ hsorted]
  simp only [List.not_mem_nil, false_or]
  have hall := shareableDecls_shareable paramDescs
  rcases StrMap.split_first (shareableDecls paramDescs) X with hno | ⟨pre, ⟨F, bF⟩, rest, hsplit, hpre⟩
  · have hf := shareableFold_fresh flag X _ _ hinit hno
    constructor
    · intro h
      rw [hf.2] at h
      cases h
    · rintro ⟨pre, F, bF, rest, hsplit, _, _⟩
      exfalso
      apply hno
      rw [hsplit]
      simp [StrMap.keys]
  · rw [hsplit] at hall ⊢
    rw [List.foldl_append, List.foldl_cons]
    have hf := shareableFold_fresh flag X pre _ hinit hpre
    have hbF : bF.isShareable = true :=
      hall (X, (F, bF)) (List.mem_append_right _ (List.mem_cons_self _ _))
    have hseen := shareableStep_fresh flag X F bF _ hbF hf
    have hrest : ∀ x ∈ rest, x.2.2.isShareable = true :=
      fun x hx => hall x (List.mem_append_right _ (List.mem_cons_of_mem _ hx))
    obtain ⟨w, hw, hiff⟩ := shareableFold_seen flag X F rest true _ hrest hseen
    rw [hw.2]
    constructor
    · intro h
      have hwt : w = true := by
        cases h
        rfl
      refine ⟨pre, F, bF, rest, rfl, hpre, ?_⟩
      intro D b hmem
      exact (blockMembersMatch_iff flag b X F D.params).1 ((hiff.1 hwt).2 D b hmem)
    · rintro ⟨pre2, F2, bF2, rest2, hsplit2, hpre2, hall2⟩
      obtain ⟨hp, hx, hr⟩ : pre2 = pre ∧ (F2, bF2) = (F, bF) ∧ rest2 = rest :=
        StrMap.split_first_unique X pre2 pre _ _ _ _ hsplit2.symm hpre2 hpre
      cases hx
      subst hr
      have hwt : w = true :=
        hiff.2 ⟨rfl, fun D b hmem =>
          (blockMembersMatch_iff flag b X F D.params).2 (hall2 D b hmem)⟩
      rw [hwt]

theorem mem_shareableDecls (paramDescs : List GpuParamDesc) (X : String) (D : GpuParamDesc)
    (b : GpuParamBlockDesc) :
    (X, (D, b)) ∈ shareableDecls paramDescs ↔
      D ∈ paramDescs ∧ (X, b) ∈ D.paramBlocks ∧ b.isShareable = true := by
  simp only [shareableDecls, List.mem_flatMap, List.mem_map, List.mem_filter, Prod.mk.injEq,
    Prod.exists]
  constructor
  · rintro ⟨d, hd, k, b2, ⟨hmem, hsh⟩, hk, hd2, hb⟩
    subst hk hd2 hb
    exact ⟨hd, hmem, hsh⟩
  · rintro ⟨hd, hmem, hsh⟩
    exact ⟨D, hd, X, b, ⟨hmem, hsh⟩, rfl, rfl, rfl⟩

theorem mem_keys_shareableDecls (paramDescs : List GpuParamDesc) (X : String) :
    X ∈ StrMap.keys (shareableDecls paramDescs) ↔
      ∃ D ∈ paramDescs, ∃ b, (X, b) ∈ D.paramBlocks ∧ b.isShareable = true := by
  simp only [StrMap.keys, List.mem_map, Prod.exists, exists_and_right, exists_eq_right]
  constructor
  · rintro ⟨D, b, h⟩
    obtain ⟨h1, h2, h3⟩ := (mem_shareableDecls paramDescs X D b).1 h
    exact ⟨D, h1, b, h2, h3⟩
  · rintro ⟨D, h1, b, h2, h3⟩
    exact ⟨D, b, (mem_shareableDecls paramDescs X D b).2 ⟨h1, h2, h3⟩⟩

theorem shareableDecls_append (l1 l2 : List GpuParamDesc) :
    shareableDecls (l1 ++ l2) = shareableDecls l1 ++ shareableDecls l2 := by
  simp [shareableDecls, List.flatMap_append]

/-- The shareable declarations of one descriptor whose block keys are unique split around its
declaration of `X`. -/
theorem shareableDecls_single (F : GpuParamDesc) (bF : GpuParamBlockDesc) (X : String)
    (hF : (X, bF) ∈ F.paramBlocks) (hsh : bF.isShareable = true)
    (huniq : (StrMap.keys F.paramBlocks).Nodup) :
    ∃ a c, shareableDecls [F] = a ++ (X, (F, bF)) :: c ∧ X ∉ StrMap.keys a
      ∧ X ∉ StrMap.keys c := by
  obtain ⟨a0, c0, hsplit⟩ := List.append_of_mem hF
  rw [hsplit] at huniq
  simp only [StrMap.keys, List.map_append, List.map_cons] at huniq
  have hnd := List.nodup_append.1 huniq
  have hXc : X ∉ List.map Prod.fst c0 := (List.nodup_cons.1 hnd.2.1).1
  have hXa : X ∉ List.map Prod.fst a0 := by
    intro hin
    exact hnd.2.2 hin (List.mem_cons_self _ _)
  refine ⟨(a0.filter (fun e => e.2.isShareable)).map (fun e => (e.1, (F, e.2))),
    (c0.filter (fun e => e.2.isShareable)).map (fun e => (e.1, (F, e.2))), ?_, ?_, ?_⟩
  · simp [shareableDecls, hsplit, List.filter_append, List.filter_cons, hsh]
  · intro hin
    apply hXa
    simp only [StrMap.keys, List.mem_map, List.mem_filter, Prod.exists] at hin ⊢
    obtain ⟨k, D, b, ⟨k2, b2, ⟨hm, _⟩, hk⟩, hX⟩ := hin
    simp only [Prod.mk.injEq] at hk
    exact ⟨k2, b2, hm, hk.1.trans hX⟩
  · intro hin
    apply hXc
    simp only [StrMap.keys, List.mem_map, List.mem_filter, Prod.exists] at hin ⊢
    obtain ⟨k, D, b, ⟨k2, b2, ⟨hm, _⟩, hk⟩, hX⟩ := hin
    simp only [Prod.mk.injEq] at hk
    exact ⟨k2, b2, hm, hk.1.trans hX⟩

/-- The rule of `determineValidShareableParamBlocks` relative to the first descriptor that
declares `X` as shareable, shared by the theorems below. -/
theorem validShareable_first (flag : Bool) (pre post : List GpuParamDesc) (F : GpuParamDesc)
    (bF : GpuParamBlockDesc) (X : String)
    (hpre : ∀ d ∈ pre, ∀ b, (X, b) ∈ d.paramBlocks → b.isShareable = false)
    (hF : (X, bF) ∈ F.paramBlocks) (hsh : bF.isShareable = true)
    (huniq : (StrMap.keys F.paramBlocks).Nodup) :
    X ∈ determineValidShareableParamBlocks flag (pre ++ F :: post) ↔
      ∀ D ∈ post, ∀ b, (X, b) ∈ D.paramBlocks → b.isShareable = true →
        membersFoundIn flag X F b D.params := by
  obtain ⟨a, c, hsingle, hXa, hXc⟩ := shareableDecls_single F bF X hF hsh huniq
  have hXpre : X ∉ StrMap.keys (shareableDecls pre) := by
    rw [mem_keys_shareableDecls]
    rintro ⟨D, hD, b, hb, hbs⟩
    rw [hpre D hD b hb] at hbs
    cases hbs
  have hdecl : shareableDecls (pre ++ F :: post)
      = (shareableDecls pre ++ a) ++ (X, (F, bF)) :: (c ++ shareableDecls post) := by
    have h1 : pre ++ F :: post = pre ++ ([F] ++ post) := rfl
    rw [h1, shareableDecls_append, shareableDecls_append, hsingle]
    simp
  have hXpre2 : X ∉ StrMap.keys (shareableDecls pre ++ a) := by
    simp only [StrMap.keys, List.map_append, List.mem_append, not_or]
    exact ⟨hXpre, hXa⟩
  rw [validShareable_iff]
  constructor
  · rintro ⟨pre2, F2, bF2, rest2, hsplit2, hpre2, hall2⟩
    rw [hdecl] at hsplit2
    obtain ⟨_, hx, hr⟩ := StrMap.split_first_unique X _ _ _ _ _ _ hsplit2 hXpre2 hpre2
    cases hx
    subst hr
    intro D hD b hb hbs
    apply hall2 D b
    exact List.mem_append_right _ ((mem_shareableDecls post X D b).2 ⟨hD, hb, hbs⟩)
  · intro hall
    refine ⟨_, F, bF, _, hdecl, hXpre2, ?_⟩
    intro D b hmem
    rcases List.mem_append.1 hmem with h1 | h1
    · exfalso
      apply hXc
      exact List.mem_map.2 ⟨_, h1, rfl⟩
    · obtain ⟨hD, hb, hbs⟩ := (mem_shareableDecls post X D b).1 h1
      exact hall D hD b hb hbs

theorem paramToBlockFold_eq (d : GpuParamDesc) (params : StrMap GpuParamDataDesc)
    (acc : StrMap String) :
    params.foldl (paramToBlockStep d) acc =
      (params.map (fun e =>
        (e.2.name, findBlockOfSlot e.2.paramBlockSlot d.paramBlocks))).foldl ownerStep acc := by
  induction params generalizing acc with
  | nil => rfl
  | cons e rest ih =>
    rw [List.foldl_cons, ih]
    rfl

theorem paramToBlock_eq_foldl (paramDescs : List GpuParamDesc) (acc : StrMap String) :
    paramDescs.foldl
      (fun (acc : StrMap String) (curDesc : GpuParamDesc) =>
        curDesc.params.foldl (paramToBlockStep curDesc) acc)
      acc = (ownerDecls paramDescs).foldl ownerStep acc := by
  induction paramDescs generalizing acc with
  | nil => rfl
  | cons d rest ih =>
    simp only [List.foldl_cons, ownerDecls, List.flatMap_cons, List.foldl_append]
    rw [← paramToBlockFold_eq]
    exact ih _

theorem ownerStep_other (n : String) (acc : StrMap String) (x : String × Option String)
    (h : x.1 ≠ n) : StrMap.find (ownerStep acc x) n = StrMap.find acc n := by
  have hn : n ≠ x.1 := fun h2 => h h2.symm
  unfold ownerStep
  split
  · rfl
  · split
    · exact StrMap.find_insert_ne _ _ _ _ hn
    · rfl

theorem ownerStep_some (n b : String) (acc : StrMap String) (x : String × Option String)
    (h : StrMap.find acc n = some b) : StrMap.find (ownerStep acc x) n = some b := by
  by_cases hx : x.1 = n
  · unfold ownerStep
    simp only [hx, h]
  · rw [ownerStep_other n acc x hx, h]

/-- First writer wins: an entry of the map is never replaced. -/
theorem ownerFold_some (n b : String) (xs : StrMap (Option String)) (acc : StrMap String)
    (h : StrMap.find acc n = some b) : StrMap.find (xs.foldl ownerStep acc) n = some b := by
  induction xs generalizing acc with
  | nil => exact h
  | cons x rest ih => exact ih _ (ownerStep_some n b acc x h)

theorem ownerFold_none (n : String) (xs : StrMap (Option String)) (acc : StrMap String)
    (h : StrMap.find acc n = none) (hall : ∀ x ∈ xs, x.1 = n → x.2 = none) :
    StrMap.find (xs.foldl ownerStep acc) n = none := by
  induction xs generalizing acc with
  | nil => exact h
  | cons x rest ih =>
    apply ih
    · by_cases hx : x.1 = n
      · have hx2 := hall x (List.mem_cons_self _ _) hx
        unfold ownerStep
        simp only [hx, h, hx2]
      · rw [ownerStep_other n acc x hx, h]
    · exact fun y hy => hall y (List.mem_cons_of_mem _ hy)

theorem ownerFold_first (n b : String) (xs : StrMap (Option String)) (acc : StrMap String)
    (h : StrMap.find acc n = none) (hall : ∀ x ∈ xs, x.1 = n → x.2 = some b)
    (hex : ∃ x ∈ xs, x.1 = n) : StrMap.find (xs.foldl ownerStep acc) n = some b := by
  induction xs generalizing acc with
  | nil =>
    obtain ⟨x, hx, _⟩ := hex
    cases hx
  | cons x rest ih =>
    rw [List.foldl_cons]
    by_cases hx : x.1 = n
    · apply ownerFold_some
      have hx2 := hall x (List.mem_cons_self _ _) hx
      unfold ownerStep
      simp only [hx, h, hx2]
      exact StrMap.find_insert_self _ _ _
    · apply ih
      · rw [ownerStep_other n acc x hx, h]
      · exact fun y hy => hall y (List.mem_cons_of_mem _ hy)
      · obtain ⟨y, hy, hyn⟩ := hex
        rcases List.mem_cons.1 hy with h3 | h3
        · subst h3
          exact absurd hyn hx
        · exact ⟨y, h3, hyn⟩

theorem ownerDecls_append (l1 l2 : List GpuParamDesc) :
    ownerDecls (l1 ++ l2) = ownerDecls l1 ++ ownerDecls l2 := by
  simp [ownerDecls, List.flatMap_append]

theorem mem_ownerDecls (paramDescs : List GpuParamDesc) (x : String × Option String) :
    x ∈ ownerDecls paramDescs ↔ ∃ d ∈ paramDescs, ∃ e ∈ d.params,
      x = (e.2.name, findBlockOfSlot e.2.paramBlockSlot d.paramBlocks) := by
  simp only [ownerDecls, List.mem_flatMap, List.mem_map]
  constructor
  · rintro ⟨d, hd, e, he, rfl⟩
    exact ⟨d, hd, e, he, rfl⟩
  · rintro ⟨d, hd, e, he, rfl⟩
    exact ⟨d, hd, e, he, rfl⟩

/-- C5 (amended). The first descriptor that declares `n` and has a block at the slot of `n`
wins: when no earlier descriptor has a block for its declaration of `n`, and `d` declares `n`
(once) with a block of name `blockName` at its slot, `determineParameterToBlockMapping` maps
`n` to `blockName`, whatever the later descriptors declare. -/
theorem determineParameterToBlockMapping_first_owner (pre post : List GpuParamDesc)
    (d : GpuParamDesc) (e : String × GpuParamDataDesc) (n blockName : String)
    (hpre : ∀ d2 ∈ pre, ∀ e2 ∈ d2.params, e2.2.name = n →
      findBlockOfSlot e2.2.paramBlockSlot d2.paramBlocks = none)
    (he : e ∈ d.params) (hname : e.2.name = n)
    (huniq : ∀ e2 ∈ d.params, e2.2.name = n → e2 = e)
    (hown : findBlockOfSlot e.2.paramBlockSlot d.paramBlocks = some blockName) :
    StrMap.find (determineParameterToBlockMapping (pre ++ d :: post)) n = some blockName := by
  unfold determineParameterToBlockMapping
  rw [paramToBlock_eq_foldl]
  have h1 : pre ++ d :: post = pre ++ ([d] ++ post) := rfl
  rw [h1, ownerDecls_append, ownerDecls_append, List.foldl_append, List.foldl_append]
  apply ownerFold_some
  apply ownerFold_first
  · apply ownerFold_none
    · rfl
    · intro x hx hxn
      obtain ⟨d2, hd2, e2, he2, rfl⟩ := (mem_ownerDecls pre x).1 hx
      exact hpre d2 hd2 e2 he2 hxn
  · intro x hx hxn
    obtain ⟨d2, hd2, e2, he2, rfl⟩ := (mem_ownerDecls [d] x).1 hx
    rw [List.mem_singleton] at hd2
    subst hd2
    have := huniq e2 he2 hxn
    subst this
    exact hown
  · exact ⟨_, (mem_ownerDecls [d] _).2 ⟨d, List.mem_singleton.2 rfl, e, he, rfl⟩, hname⟩

/-- Witness of the amended C5: a stage without blocks declares `tintColor` first, the vertex
stage after it owns it in `PerMaterial`. -/
theorem determineParameterToBlockMapping_first_owner_witness :
    StrMap.find (determineParameterToBlockMapping
      ([exampleStageA] ++ exampleVertexStage :: [exampleFragmentStage])) "tintColor"
      = some "PerMaterial" :=
  determineParameterToBlockMapping_first_owner [exampleStageA] [exampleFragmentStage]
    exampleVertexStage ("tintColor", exampleColorParam) "tintColor" "PerMaterial"
    (by decide) (by decide) rfl (by decide) (by decide)

/-- C5 (counterexample). The first descriptor that declares `tintColor` has no block at its
slot: alone it leaves `tintColor` without an entry, and followed by the vertex stage the
entry comes from that later stage. -/
theorem determineParameterToBlockMapping_counterexample :
    "tintColor" ∈ StrMap.keys exampleStageA.params ∧
    StrMap.find (determineParameterToBlockMapping [exampleStageA]) "tintColor" = none ∧
    StrMap.find (determineParameterToBlockMapping [exampleStageA, exampleVertexStage])
      "tintColor" = some "PerMaterial" := by
  decide

/-! ## Lemmas on the allocation of buffers -/

theorem Allocated.refl (hbm : HardwareBufferManager) (bufs : List GpuParamBlockBuffer) :
    Allocated hbm bufs hbm bufs [] := by
  simp [Allocated]

theorem Allocated.trans {h1 h2 h3 : HardwareBufferManager}
    {b1 b2 b3 n1 n2 : List GpuParamBlockBuffer}
    (ha : Allocated h1 b1 h2 b2 n1) (hb : Allocated h2 b2 h3 b3 n2) :
    Allocated h1 b1 h3 b3 (n1 ++ n2) := by
  obtain ⟨a1, a2, a3, a4⟩ := ha
  obtain ⟨c1, c2, c3, c4⟩ := hb
  refine ⟨?_, ?_, ?_, ?_⟩
  · rw [c1, a1, List.append_assoc]
  · rw [c2, a2, List.map_append, List.append_assoc]
  · rw [c3, a3, List.length_append, Nat.add_assoc]
  · rw [List.map_append, a4, c4, a3, List.length_append, Nat.add_comm n1.length,
      ← List.range'_append]
    simp

theorem Allocated.single (hbm : HardwareBufferManager) (bufs : List GpuParamBlockBuffer)
    (size : Nat) (usage : Option GpuParamBlockUsage) :
    Allocated hbm bufs (hbm.createGpuParamBlockBuffer size usage).2
      (bufs ++ [(hbm.createGpuParamBlockBuffer size usage).1])
      [(hbm.createGpuParamBlockBuffer size usage).1] := by
  simp [Allocated, HardwareBufferManager.createGpuParamBlockBuffer]

theorem freeParamBuffers_log (hbm : HardwareBufferManager) (m : Material) :
    (freeParamBuffers hbm m).2.log = hbm.log ++ m.mParamBuffers.map BufferEvent.destroyed ∧
    (freeParamBuffers hbm m).2.nextId = hbm.nextId := by
  unfold freeParamBuffers
  simp only
  generalize m.mParamBuffers = bufs
  induction bufs generalizing hbm with
  | nil => simp
  | cons b rest ih =>
    rw [List.foldl_cons]
    obtain ⟨h1, h2⟩ := ih (hbm.destroy b)
    rw [h1, h2]
    simp [HardwareBufferManager.destroy]

theorem createParamBlock_alloc (shaderDesc : StrMap SHADER_PARAM_BLOCK_DESC)
    (descs : List GpuParamDesc) (st : BlockBuffers) (name : String) :
    ∃ new, Allocated st.hbm st.mParamBuffers (createParamBlock shaderDesc descs st name).hbm
        (createParamBlock shaderDesc descs st name).mParamBuffers new ∧
      new.length = if shaderMarksShared shaderDesc name then 0 else 1 := by
  unfold createParamBlock shaderMarksShared
  cases hs : (match StrMap.find shaderDesc name with
    | some d => d.shared
    | none => false) with
  | true =>
    refine ⟨[], ?_, by simp⟩
    simp only [Bool.not_true, Bool.false_eq_true, if_false]
    exact Allocated.refl _ _
  | false =>
    simp only [Bool.not_false, if_true, Bool.false_eq_true, if_false]
    exact ⟨_, Allocated.single _ _ _ _, rfl⟩

theorem createParamBlocks_alloc (shaderDesc : StrMap SHADER_PARAM_BLOCK_DESC)
    (descs : List GpuParamDesc) (valid : StrSet) (st : BlockBuffers) :
    ∃ new, Allocated st.hbm st.mParamBuffers (createParamBlocks shaderDesc descs valid st).hbm
        (createParamBlocks shaderDesc descs valid st).mParamBuffers new ∧
      new.length = (valid.filter (fun X => !shaderMarksShared shaderDesc X)).length := by
  unfold createParamBlocks
  induction valid generalizing st with
  | nil => exact ⟨[], Allocated.refl _ _, rfl⟩
  | cons X rest ih =>
    obtain ⟨n1, ha1, hl1⟩ := createParamBlock_alloc shaderDesc descs st X
    obtain ⟨n2, ha2, hl2⟩ := ih (createParamBlock shaderDesc descs st X)
    refine ⟨n1 ++ n2, Allocated.trans ha1 ha2, ?_⟩
    rw [List.length_append, hl1, hl2, List.filter_cons]
    cases shaderMarksShared shaderDesc X <;> simp [Nat.add_comm]

theorem createNonShareable_alloc (st : GpuParams × BufferAlloc)
    (e : String × GpuParamBlockDesc) :
    ∃ new, Allocated st.2.hbm st.2.mParamBuffers (createNonShareable st e).2.hbm
        (createNonShareable st e).2.mParamBuffers new ∧
      new.length = if e.2.isShareable then 0 else 1 := by
  unfold createNonShareable
  cases hs : e.2.isShareable with
  | true =>
    refine ⟨[], ?_, by simp⟩
    simp only [Bool.not_true, Bool.false_eq_true, if_false]
    exact Allocated.refl _ _
  | false =>
    simp only [Bool.not_false, if_true, Bool.false_eq_true, if_false]
    exact ⟨_, Allocated.single _ _ _ _, rfl⟩

theorem createNonShareable_fold_alloc (blocks : StrMap GpuParamBlockDesc)
    (st : GpuParams × BufferAlloc) :
    ∃ new, Allocated st.2.hbm st.2.mParamBuffers (blocks.foldl createNonShareable st).2.hbm
        (blocks.foldl createNonShareable st).2.mParamBuffers new ∧
      new.length = (blocks.filter (fun e => !e.2.isShareable)).length := by
  induction blocks generalizing st with
  | nil => exact ⟨[], Allocated.refl _ _, rfl⟩
  | cons e rest ih =>
    obtain ⟨n1, ha1, hl1⟩ := createNonShareable_alloc st e
    obtain ⟨n2, ha2, hl2⟩ := ih (createNonShareable st e)
    refine ⟨n1 ++ n2, Allocated.trans ha1 ha2, ?_⟩
    rw [List.length_append, hl1, hl2, List.filter_cons]
    cases e.2.isShareable <;> simp [Nat.add_comm]

theorem assignParamBlockBuffers_alloc (valid : StrSet) (pbb : StrMap GpuParamBlockBufferPtr)
    (p : GpuParams) (a : BufferAlloc) :
    ∃ new, Allocated a.hbm a.mParamBuffers (assignParamBlockBuffers valid pbb p a).2.hbm
        (assignParamBlockBuffers valid pbb p a).2.mParamBuffers new ∧
      new.length = nonShareableCount p.paramDesc :=
  createNonShareable_fold_alloc _ _

theorem assignObjects_alloc (valid : StrSet) (pbb : StrMap GpuParamBlockBufferPtr)
    (objs : List GpuParams) (a : BufferAlloc) :
    ∃ new, Allocated a.hbm a.mParamBuffers (assignObjects valid pbb objs a).2.hbm
        (assignObjects valid pbb objs a).2.mParamBuffers new ∧
      new.length = (objs.map (fun p => nonShareableCount p.paramDesc)).sum := by
  induction objs generalizing a with
  | nil => exact ⟨[], Allocated.refl _ _, rfl⟩
  | cons p rest ih =>
    obtain ⟨n1, ha1, hl1⟩ := assignParamBlockBuffers_alloc valid pbb p a
    obtain ⟨n2, ha2, hl2⟩ := ih (assignParamBlockBuffers valid pbb p a).2
    refine ⟨n1 ++ n2, Allocated.trans ha1 ha2, ?_⟩
    rw [List.length_append, hl1, hl2]
    simp

/-- The loop over the pointers of the passes does to the objects that are present what
`assignObjects` does. -/
theorem assignPtrs_objects (valid : StrSet) (pbb : StrMap GpuParamBlockBufferPtr)
    (ptrs : List GpuParamsPtr) (a : BufferAlloc) :
    (assignPtrs valid pbb ptrs a).1.filterMap id
        = (assignObjects valid pbb (ptrs.filterMap id) a).1 ∧
    (assignPtrs valid pbb ptrs a).2 = (assignObjects valid pbb (ptrs.filterMap id) a).2 ∧
    (assignPtrs valid pbb ptrs a).1.length = ptrs.length := by
  induction ptrs generalizing a with
  | nil => exact ⟨rfl, rfl, rfl⟩
  | cons ptr rest ih =>
    cases ptr with
    | none =>
      obtain ⟨h1, h2, h3⟩ := ih a
      refine ⟨?_, ?_, ?_⟩
      · simpa [assignPtrs, assignParam] using h1
      · simpa [assignPtrs, assignParam] using h2
      · simpa [assignPtrs, assignParam] using h3
    | some p =>
      obtain ⟨h1, h2, h3⟩ := ih (assignParamBlockBuffers valid pbb p a).2
      refine ⟨?_, ?_, ?_⟩
      · simpa [assignPtrs, assignParam, assignObjects] using h1
      · simpa [assignPtrs, assignParam, assignObjects] using h2
      · simpa [assignPtrs, assignParam] using h3

theorem assignPtrs_append (valid : StrSet) (pbb : StrMap GpuParamBlockBufferPtr)
    (l1 l2 : List GpuParamsPtr) (a : BufferAlloc) :
    assignPtrs valid pbb (l1 ++ l2) a =
      ((assignPtrs valid pbb l1 a).1 ++ (assignPtrs valid pbb l2 (assignPtrs valid pbb l1 a).2).1,
        (assignPtrs valid pbb l2 (assignPtrs valid pbb l1 a).2).2) := by
  induction l1 generalizing a with
  | nil => rfl
  | cons ptr rest ih =>
    rw [List.cons_append]
    simp only [assignPtrs]
    rw [ih]
    rfl

theorem assignPass_toList (valid : StrSet) (pbb : StrMap GpuParamBlockBufferPtr)
    (params : PassParameters) (a : BufferAlloc) :
    (assignPass valid pbb params a).1.toList = (assignPtrs valid pbb params.toList a).1 ∧
    (assignPass valid pbb params a).2 = (assignPtrs valid pbb params.toList a).2 := by
  constructor <;> rfl

theorem assignAllPasses_toList (valid : StrSet) (pbb : StrMap GpuParamBlockBufferPtr)
    (passes : List PassParameters) (a : BufferAlloc) :
    (assignAllPasses valid pbb passes a).1.flatMap PassParameters.toList
        = (assignPtrs valid pbb (passes.flatMap PassParameters.toList) a).1 ∧
    (assignAllPasses valid pbb passes a).2
        = (assignPtrs valid pbb (passes.flatMap PassParameters.toList) a).2 ∧
    (assignAllPasses valid pbb passes a).1.length = passes.length := by
  induction passes generalizing a with
  | nil => exact ⟨rfl, rfl, rfl⟩
  | cons params rest ih =>
    obtain ⟨h1, h2, h3⟩ := ih (assignPass valid pbb params a).2
    obtain ⟨g1, g2⟩ := assignPass_toList valid pbb params a
    simp only [assignAllPasses, List.flatMap_cons, assignPtrs_append, List.length_cons]
    rw [← g2, ← g1, ← h1, ← h2, h3]
    exact ⟨rfl, rfl, rfl⟩

/-- The loop "Assign param block buffers", seen on the objects that are present. -/
theorem assignAllPasses_objects (valid : StrSet) (pbb : StrMap GpuParamBlockBufferPtr)
    (passes : List PassParameters) (a : BufferAlloc) :
    stageObjects (assignAllPasses valid pbb passes a).1
        = (assignObjects valid pbb (stageObjects passes) a).1 ∧
    (assignAllPasses valid pbb passes a).2
        = (assignObjects valid pbb (stageObjects passes) a).2 ∧
    (assignAllPasses valid pbb passes a).1.length = passes.length := by
  obtain ⟨h1, h2, h3⟩ := assignAllPasses_toList valid pbb passes a
  obtain ⟨g1, g2, _⟩ := assignPtrs_objects valid pbb (passes.flatMap PassParameters.toList) a
  refine ⟨?_, ?_, h3⟩
  · unfold stageObjects
    rw [h1, g1]
  · rw [h2, g2]
    rfl

/-! ## Lemmas on `initBestTechnique` -/

/-- The three ways `setShader` ends: without a shader, without a supported technique, and
with the resolution of the best technique from a clean material. -/
theorem setShader_cases (flag : Bool) (hbm : HardwareBufferManager) (m : Material)
    (shader : Option Shader) :
    (shader = none ∧ setShader flag hbm m shader =
      { m := { toMaterialValues := { MaterialValues.empty with mValidParams := m.mValidParams },
               mShader := none, mBestTechnique := none, mRenderQueue := m.mRenderQueue,
               mValidShareableParamBlocks := m.mValidShareableParamBlocks,
               mParametersPerPass := [], mParamBuffers := [] },
        hbm := (freeParamBuffers hbm m).2, exception := none }) ∨
    (∃ s, shader = some s ∧ s.getBestTechnique = none ∧ setShader flag hbm m shader =
      { m := { toMaterialValues := { MaterialValues.empty with mValidParams := m.mValidParams },
               mShader := some s, mBestTechnique := none, mRenderQueue := m.mRenderQueue,
               mValidShareableParamBlocks := m.mValidShareableParamBlocks,
               mParametersPerPass := [], mParamBuffers := [] },
        hbm := (freeParamBuffers hbm m).2, exception := none }) ∨
    (∃ s t, shader = some s ∧ s.getBestTechnique = some t ∧ setShader flag hbm m shader =
      resolveTechnique flag s t (freeParamBuffers hbm m).2 (resolutionStart m s t)) := by
  cases shader with
  | none =>
    left
    exact ⟨rfl, rfl⟩
  | some s =>
    right
    cases ht : s.getBestTechnique with
    | none =>
      left
      refine ⟨s, rfl, ht, ?_⟩
      simp only [setShader, initBestTechnique, freeParamBuffers, ht]
      rfl
    | some t =>
      right
      refine ⟨s, t, rfl, ht, ?_⟩
      simp only [setShader, initBestTechnique, freeParamBuffers, ht]
      rfl

/-- A resolution that ends with an exception: the passes are not built. -/
theorem resolveTechnique_raised (flag : Bool) (s : Shader) (t : Technique)
    (hbm : HardwareBufferManager) (m : Material) (e : CmException)
    (he : (resolvedValues s t).2 = some e) :
    resolveTechnique flag s t hbm (resolutionStart m s t) =
      { m := { toMaterialValues := (resolvedValues s t).1, mShader := some s,
               mBestTechnique := some t, mRenderQueue := m.mRenderQueue,
               mValidShareableParamBlocks :=
                 (sharedBlocks flag s t hbm).mValidShareableParamBlocks,
               mParametersPerPass := [],
               mParamBuffers := (sharedBlocks flag s t hbm).mParamBuffers },
        hbm := (sharedBlocks flag s t hbm).hbm, exception := some e } := by
  unfold resolvedValues at he ⊢
  unfold resolveTechnique resolutionStart sharedBlocks
  simp only
  cases hd : (createDataParamMappings (determineValidDataParameters (collectParamDescs t))
    (determineParameterToBlockMapping (collectParamDescs t)) s.dataParams
    MaterialValues.empty).2 with
  | some e2 =>
    simp only [hd] at he ⊢
    cases he
    rfl
  | none =>
    simp only [hd] at he ⊢
    simp only [he]

/-- A resolution that ends without an exception. -/
theorem resolveTechnique_done (flag : Bool) (s : Shader) (t : Technique)
    (hbm : HardwareBufferManager) (m : Material)
    (he : (resolvedValues s t).2 = none) :
    resolveTechnique flag s t hbm (resolutionStart m s t) =
      { m := { toMaterialValues := (resolvedValues s t).1, mShader := some s,
               mBestTechnique := some t, mRenderQueue := m.mRenderQueue,
               mValidShareableParamBlocks :=
                 (sharedBlocks flag s t hbm).mValidShareableParamBlocks,
               mParametersPerPass := (assignedPasses flag s t hbm).1,
               mParamBuffers := (assignedPasses flag s t hbm).2.mParamBuffers },
        hbm := (assignedPasses flag s t hbm).2.hbm, exception := none } := by
  unfold resolvedValues at he ⊢
  unfold resolveTechnique resolutionStart assignedPasses sharedBlocks
  simp only
  cases hd : (createDataParamMappings (determineValidDataParameters (collectParamDescs t))
    (determineParameterToBlockMapping (collectParamDescs t)) s.dataParams
    MaterialValues.empty).2 with
  | some e2 =>
    simp only [hd] at he
    cases he
  | none =>
    simp only [hd] at he ⊢
    simp only [he, List.nil_append]

theorem createParamBlock_valid (shaderDesc : StrMap SHADER_PARAM_BLOCK_DESC)
    (descs : List GpuParamDesc) (st : BlockBuffers) (name : String) :
    (createParamBlock shaderDesc descs st name).mValidShareableParamBlocks
      = StrSet.insert name st.mValidShareableParamBlocks := by
  unfold createParamBlock
  simp only
  split <;> rfl

theorem createParamBlocks_valid (shaderDesc : StrMap SHADER_PARAM_BLOCK_DESC)
    (descs : List GpuParamDesc) (valid : StrSet) (st : BlockBuffers) :
    (createParamBlocks shaderDesc descs valid st).mValidShareableParamBlocks
      = valid.foldl (fun acc X => StrSet.insert X acc) st.mValidShareableParamBlocks := by
  unfold createParamBlocks
  induction valid generalizing st with
  | nil => rfl
  | cons X rest ih =>
    rw [List.foldl_cons, ih, createParamBlock_valid]
    rfl

theorem sharedBlocks_valid (flag : Bool) (s : Shader) (t : Technique)
    (hbm : HardwareBufferManager) :
    (sharedBlocks flag s t hbm).mValidShareableParamBlocks
      = (determineValidShareableParamBlocks flag (collectParamDescs t)).foldl
          (fun acc X => StrSet.insert X acc) [] :=
  createParamBlocks_valid _ _ _ _

theorem sharedBlocks_alloc (flag : Bool) (s : Shader) (t : Technique)
    (hbm : HardwareBufferManager) :
    ∃ new, Allocated hbm [] (sharedBlocks flag s t hbm).hbm
        (sharedBlocks flag s t hbm).mParamBuffers new ∧
      new.length = sharedBufferCount flag s t :=
  createParamBlocks_alloc _ _ _ _

theorem assignedPasses_alloc (flag : Bool) (s : Shader) (t : Technique)
    (hbm : HardwareBufferManager) :
    ∃ new, Allocated (sharedBlocks flag s t hbm).hbm (sharedBlocks flag s t hbm).mParamBuffers
        (assignedPasses flag s t hbm).2.hbm (assignedPasses flag s t hbm).2.mParamBuffers new ∧
      new.length = privateBufferCount t := by
  unfold assignedPasses
  rw [(assignAllPasses_objects _ _ _ _).2.1]
  exact assignObjects_alloc _ _ _ _

/-- The buffers a call of `setShader` allocates: they are what the ownership list holds at
the end, the number depends on the shader only, and they come after the release of the
buffers owned before. -/
theorem setShader_alloc (flag : Bool) (hbm : HardwareBufferManager) (m : Material)
    (shader : Option Shader) :
    Allocated (freeParamBuffers hbm m).2 [] (setShader flag hbm m shader).hbm
        (setShader flag hbm m shader).m.mParamBuffers
        (setShader flag hbm m shader).m.mParamBuffers ∧
      (setShader flag hbm m shader).m.mParamBuffers.length = allocatedCount flag shader := by
  rcases setShader_cases flag hbm m shader with ⟨hs, heq⟩ | ⟨s, hs, ht, heq⟩ | ⟨s, t, hs, ht, heq⟩
  · rw [heq, hs]
    exact ⟨Allocated.refl _ _, rfl⟩
  · rw [heq, hs]
    refine ⟨Allocated.refl _ _, ?_⟩
    simp [allocatedCount, ht]
  · rw [heq, hs]
    cases he : (resolvedValues s t).2 with
    | some e =>
      rw [resolveTechnique_raised flag s t _ m e he]
      obtain ⟨new, ha, hl⟩ := sharedBlocks_alloc flag s t (freeParamBuffers hbm m).2
      have hnew : (sharedBlocks flag s t (freeParamBuffers hbm m).2).mParamBuffers = new := by
        rw [ha.1]
        rfl
      simp only [allocatedCount, ht, he]
      rw [hnew] at ha ⊢
      exact ⟨ha, hl⟩
    | none =>
      rw [resolveTechnique_done flag s t _ m he]
      obtain ⟨n1, ha1, hl1⟩ := sharedBlocks_alloc flag s t (freeParamBuffers hbm m).2
      obtain ⟨n2, ha2, hl2⟩ := assignedPasses_alloc flag s t (freeParamBuffers hbm m).2
      have ha := Allocated.trans ha1 ha2
      have hnew : (assignedPasses flag s t (freeParamBuffers hbm m).2).2.mParamBuffers
          = n1 ++ n2 := by
        rw [ha.1]
        rfl
      simp only [allocatedCount, ht, he]
      rw [hnew] at ha ⊢
      exact ⟨ha, by rw [List.length_append, hl1, hl2]⟩

theorem setShader_log (flag : Bool) (hbm : HardwareBufferManager) (m : Material)
    (shader : Option Shader) :
    (setShader flag hbm m shader).hbm.log =
      hbm.log ++ m.mParamBuffers.map BufferEvent.destroyed
        ++ (setShader flag hbm m shader).m.mParamBuffers.map BufferEvent.created := by
  obtain ⟨⟨_, h2, _, _⟩, _⟩ := setShader_alloc flag hbm m shader
  rw [h2, (freeParamBuffers_log hbm m).1]

/-- The buffers created during a call of `setShader` are the buffers of the ownership list
after it. -/
theorem setShader_releases_created (flag : Bool) (hbm : HardwareBufferManager) (m : Material)
    (shader : Option Shader) :
    ∀ b, BufferEvent.created b ∈ (setShader flag hbm m shader).hbm.log.drop hbm.log.length ↔
      b ∈ (setShader flag hbm m shader).m.mParamBuffers := by
  intro b
  rw [setShader_log, List.append_assoc, List.drop_left]
  simp

/-- C9. No buffer leaks across re-resolution: for every material, buffer manager and shader
argument (a null shader and a shader without a supported technique included), the record of
the buffer manager after `setShader` is the record before, then the destruction of every
buffer the material owned, then the creation of exactly the buffers the ownership list
holds afterwards; `destroy_internal` destroys every owned buffer and leaves the list
empty. -/
theorem setShader_releases_before_allocating (ignoreBufferOffsets : Bool)
    (hbm : HardwareBufferManager) (m : Material) (shader : Option Shader) :
    (setShader ignoreBufferOffsets hbm m shader).hbm.log =
      hbm.log ++ m.mParamBuffers.map BufferEvent.destroyed
        ++ (setShader ignoreBufferOffsets hbm m shader).m.mParamBuffers.map
            BufferEvent.created ∧
    (∀ b ∈ m.mParamBuffers,
      BufferEvent.destroyed b ∈ (setShader ignoreBufferOffsets hbm m shader).hbm.log) ∧
    (∀ b, BufferEvent.created b ∈
        (setShader ignoreBufferOffsets hbm m shader).hbm.log.drop hbm.log.length ↔
      b ∈ (setShader ignoreBufferOffsets hbm m shader).m.mParamBuffers) ∧
    (destroy_internal hbm m).1.mParamBuffers = [] ∧
    (destroy_internal hbm m).2.log = hbm.log ++ m.mParamBuffers.map BufferEvent.destroyed ∧
    (∀ b ∈ m.mParamBuffers, BufferEvent.destroyed b ∈ (destroy_internal hbm m).2.log) := by
  have hlog := setShader_log ignoreBufferOffsets hbm m shader
  refine ⟨hlog, ?_, ?_, rfl, (freeParamBuffers_log hbm m).1, ?_⟩
  · intro b hb
    rw [hlog]
    simp only [List.mem_append, List.mem_map]
    exact Or.inl (Or.inr ⟨b, hb, rfl⟩)
  · exact setShader_releases_created ignoreBufferOffsets hbm m shader
  · intro b hb
    unfold destroy_internal
    rw [(freeParamBuffers_log hbm m).1]
    simp only [List.mem_append, List.mem_map]
    exact Or.inr ⟨b, hb, rfl⟩

/-- Buffers whose creation ends the record are live. -/
theorem isLive_of_created_last (front : List BufferEvent) (bufs : List GpuParamBlockBuffer)
    (b : GpuParamBlockBuffer) (hb : b ∈ bufs) :
    isLive (front ++ bufs.map BufferEvent.created) b.id = true := by
  unfold isLive
  rw [List.filter_append, List.getLast?_append]
  have hmem : BufferEvent.created b ∈
      (bufs.map BufferEvent.created).filter (BufferEvent.concerns b.id) := by
    rw [List.mem_filter]
    exact ⟨List.mem_map_of_mem _ hb, by simp [BufferEvent.concerns]⟩
  cases hlast : ((bufs.map BufferEvent.created).filter (BufferEvent.concerns b.id)).getLast? with
  | none =>
    rw [List.getLast?_eq_none_iff] at hlast
    rw [hlast] at hmem
    cases hmem
  | some ev =>
    have hev := List.mem_of_getLast?_eq_some hlast
    rw [List.mem_filter, List.mem_map] at hev
    obtain ⟨⟨b2, _, rfl⟩, _⟩ := hev
    rfl

/-- After `setShader` every buffer of the ownership list is live. -/
theorem setShader_liveOwned (flag : Bool) (hbm : HardwareBufferManager) (m : Material)
    (shader : Option Shader) :
    liveOwned (setShader flag hbm m shader) = (setShader flag hbm m shader).m.mParamBuffers := by
  unfold liveOwned
  rw [List.filter_eq_self]
  intro b hb
  rw [setShader_log]
  exact isLive_of_created_last _ _ b hb

/-- What `setShader` leaves in the validated-parameter map, the caches, the set of valid
shareable blocks and the list of passes. -/
theorem setShader_view (flag : Bool) (hbm : HardwareBufferManager) (m : Material)
    (shader : Option Shader) :
    ((shader = none ∨ ∃ s, shader = some s ∧ s.getBestTechnique = none) ∧
      (setShader flag hbm m shader).m.toMaterialValues
        = { MaterialValues.empty with mValidParams := m.mValidParams } ∧
      (setShader flag hbm m shader).m.mValidShareableParamBlocks
        = m.mValidShareableParamBlocks ∧
      (setShader flag hbm m shader).m.mParametersPerPass.length = 0 ∧
      (setShader flag hbm m shader).exception = none) ∨
    (∃ s t, shader = some s ∧ s.getBestTechnique = some t ∧
      (setShader flag hbm m shader).m.toMaterialValues = (resolvedValues s t).1 ∧
      (setShader flag hbm m shader).m.mValidShareableParamBlocks
        = (determineValidShareableParamBlocks flag (collectParamDescs t)).foldl
            (fun acc X => StrSet.insert X acc) [] ∧
      (setShader flag hbm m shader).m.mParametersPerPass.length
        = (if (resolvedValues s t).2 = none then t.passes.length else 0) ∧
      (setShader flag hbm m shader).exception = (resolvedValues s t).2) := by
  rcases setShader_cases flag hbm m shader with ⟨hs, heq⟩ | ⟨s, hs, ht, heq⟩ | ⟨s, t, hs, ht, heq⟩
  · left
    rw [heq]
    exact ⟨Or.inl hs, rfl, rfl, rfl, rfl⟩
  · left
    rw [heq]
    exact ⟨Or.inr ⟨s, hs, ht⟩, rfl, rfl, rfl, rfl⟩
  · right
    refine ⟨s, t, hs, ht, ?_⟩
    rw [heq]
    cases he : (resolvedValues s t).2 with
    | some e =>
      rw [resolveTechnique_raised flag s t _ m e he]
      exact ⟨rfl, sharedBlocks_valid flag s t _, by simp, rfl⟩
    | none =>
      rw [resolveTechnique_done flag s t _ m he]
      refine ⟨rfl, sharedBlocks_valid flag s t _, ?_, rfl⟩
      simp only [if_true]
      unfold assignedPasses
      rw [(assignAllPasses_objects _ _ _ _).2.2, List.length_map]

/-- C10. `setShader` is idempotent: a second call with the same shader leaves the same
validated-parameter map, the same set of valid shareable blocks, the same caches (same keys,
same arrays of default values), the same number of per-pass parameter sets and the same
number of live owned buffers as the first call, and ends in the same way. -/
theorem setShader_idempotent (ignoreBufferOffsets : Bool) (hbm : HardwareBufferManager)
    (m : Material) (shader : Option Shader) :
    (setShader ignoreBufferOffsets (setShader ignoreBufferOffsets hbm m shader).hbm
        (setShader ignoreBufferOffsets hbm m shader).m shader).m.mValidParams
      = (setShader ignoreBufferOffsets hbm m shader).m.mValidParams ∧
    (setShader ignoreBufferOffsets (setShader ignoreBufferOffsets hbm m shader).hbm
        (setShader ignoreBufferOffsets hbm m shader).m shader).m.toMaterialValues
      = (setShader ignoreBufferOffsets hbm m shader).m.toMaterialValues ∧
    (setShader ignoreBufferOffsets (setShader ignoreBufferOffsets hbm m shader).hbm
        (setShader ignoreBufferOffsets hbm m shader).m shader).m.mValidShareableParamBlocks
      = (setShader ignoreBufferOffsets hbm m shader).m.mValidShareableParamBlocks ∧
    (setShader ignoreBufferOffsets (setShader ignoreBufferOffsets hbm m shader).hbm
        (setShader ignoreBufferOffsets hbm m shader).m shader).m.mParametersPerPass.length
      = (setShader ignoreBufferOffsets hbm m shader).m.mParametersPerPass.length ∧
    (liveOwned (setShader ignoreBufferOffsets (setShader ignoreBufferOffsets hbm m shader).hbm
        (setShader ignoreBufferOffsets hbm m shader).m shader)).length
      = (liveOwned (setShader ignoreBufferOffsets hbm m shader)).length ∧
    (setShader ignoreBufferOffsets (setShader ignoreBufferOffsets hbm m shader).hbm
        (setShader ignoreBufferOffsets hbm m shader).m shader).exception
      = (setShader ignoreBufferOffsets hbm m shader).exception := by
  have hlive : (liveOwned (setShader ignoreBufferOffsets
      (setShader ignoreBufferOffsets hbm m shader).hbm
      (setShader ignoreBufferOffsets hbm m shader).m shader)).length
      = (liveOwned (setShader ignoreBufferOffsets hbm m shader)).length := by
    rw [setShader_liveOwned, setShader_liveOwned, (setShader_alloc _ _ _ _).2,
      (setShader_alloc _ _ _ _).2]
  rcases setShader_view ignoreBufferOffsets hbm m shader with
    ⟨hsh, h1, h2, h3, h4⟩ | ⟨s, t, hs, ht, h1, h2, h3, h4⟩
  · rcases setShader_view ignoreBufferOffsets (setShader ignoreBufferOffsets hbm m shader).hbm
      (setShader ignoreBufferOffsets hbm m shader).m shader with
      ⟨_, g1, g2, g3, g4⟩ | ⟨s, t, hs, ht, _⟩
    · refine ⟨?_, ?_, ?_, ?_, hlive, ?_⟩
      · have hv : (setShader ignoreBufferOffsets
            (setShader ignoreBufferOffsets hbm m shader).hbm
            (setShader ignoreBufferOffsets hbm m shader).m shader).m.toMaterialValues
            = (setShader ignoreBufferOffsets hbm m shader).m.toMaterialValues := by
          rw [g1, h1]
        exact congrArg MaterialValues.mValidParams hv
      · rw [g1, h1]
      · rw [g2, h2]
      · rw [g3, h3]
      · rw [g4, h4]
    · exfalso
      rcases hsh with hn | ⟨s2, hs2, ht2⟩
      · rw [hn] at hs
        cases hs
      · rw [hs2] at hs
        cases hs
        rw [ht2] at ht
        cases ht
  · rcases setShader_view ignoreBufferOffsets (setShader ignoreBufferOffsets hbm m shader).hbm
      (setShader ignoreBufferOffsets hbm m shader).m shader with
      ⟨hsh, _⟩ | ⟨s2, t2, hs2, ht2, g1, g2, g3, g4⟩
    · exfalso
      rcases hsh with hn | ⟨s3, hs3, ht3⟩
      · rw [hn] at hs
        cases hs
      · rw [hs3] at hs
        cases hs
        rw [ht3] at ht
        cases ht
    · rw [hs] at hs2
      cases hs2
      rw [ht] at ht2
      cases ht2
      refine ⟨?_, ?_, ?_, ?_, hlive, ?_⟩
      · have hv : (setShader ignoreBufferOffsets
            (setShader ignoreBufferOffsets hbm m shader).hbm
            (setShader ignoreBufferOffsets hbm m shader).m shader).m.toMaterialValues
            = (setShader ignoreBufferOffsets hbm m shader).m.toMaterialValues := by
          rw [g1, h1]
        exact congrArg MaterialValues.mValidParams hv
      · rw [g1, h1]
      · rw [g2, h2]
      · rw [g3, h3]
      · rw [g4, h4]

/-! ## Lemmas on the bindings of parameter blocks -/

theorem createNonShareable_fold_basic (blocks : StrMap GpuParamBlockDesc) (p : GpuParams)
    (a : BufferAlloc) :
    (blocks.foldl createNonShareable (p, a)).1.paramDesc = p.paramDesc ∧
    a.hbm.nextId ≤ (blocks.foldl createNonShareable (p, a)).2.hbm.nextId ∧
    (∀ x ∈ a.mParamBuffers, x ∈ (blocks.foldl createNonShareable (p, a)).2.mParamBuffers) ∧
    (∀ k, (∀ b, (k, b) ∈ blocks → b.isShareable = true) →
      StrMap.find (blocks.foldl createNonShareable (p, a)).1.paramBlockBuffers k
        = StrMap.find p.paramBlockBuffers k) ∧
    (∀ k v, StrMap.find (blocks.foldl createNonShareable (p, a)).1.paramBlockBuffers k = some v →
      StrMap.find p.paramBlockBuffers k = some v ∨
      ∃ buf, v = some buf ∧ a.hbm.nextId ≤ buf.id
        ∧ buf.id < (blocks.foldl createNonShareable (p, a)).2.hbm.nextId) := by
  induction blocks generalizing p a with
  | nil =>
    refine ⟨rfl, Nat.le_refl _, fun x hx => hx, fun k _ => rfl, fun k v hv => Or.inl hv⟩
  | cons e rest ih =>
    rw [List.foldl_cons]
    cases hsh : e.2.isShareable with
    | true =>
      have hstep : createNonShareable (p, a) e = (p, a) := by simp [createNonShareable, hsh]
      rw [hstep]
      obtain ⟨h1, h2, h3, h4, h5⟩ := ih p a
      exact ⟨h1, h2, h3, fun k hk => h4 k (fun b hb => hk b (List.mem_cons_of_mem _ hb)), h5⟩
    | false =>
      have hstep : createNonShareable (p, a) e =
          (p.setParamBlockBuffer e.1
            (some { id := a.hbm.nextId, size := (e.2.blockSize * sizeofUINT32) % 2 ^ 32, usage := none }),
           { hbm := (a.hbm.createGpuParamBlockBuffer ((e.2.blockSize * sizeofUINT32) % 2 ^ 32) none).2,
             mParamBuffers := a.mParamBuffers ++
               [{ id := a.hbm.nextId, size := (e.2.blockSize * sizeofUINT32) % 2 ^ 32, usage := none }] }) := by
        simp [createNonShareable, hsh, HardwareBufferManager.createGpuParamBlockBuffer]
      rw [hstep]
      obtain ⟨h1, h2, h3, h4, h5⟩ := ih
        (p.setParamBlockBuffer e.1
          (some { id := a.hbm.nextId, size := (e.2.blockSize * sizeofUINT32) % 2 ^ 32, usage := none }))
        { hbm := (a.hbm.createGpuParamBlockBuffer ((e.2.blockSize * sizeofUINT32) % 2 ^ 32) none).2,
          mParamBuffers := a.mParamBuffers ++
            [{ id := a.hbm.nextId, size := (e.2.blockSize * sizeofUINT32) % 2 ^ 32, usage := none }] }
      have hnext : (a.hbm.createGpuParamBlockBuffer ((e.2.blockSize * sizeofUINT32) % 2 ^ 32) none).2.nextId
          = a.hbm.nextId + 1 := rfl
      refine ⟨h1, ?_, ?_, ?_, ?_⟩
      · simp only [hnext] at h2
        omega
      · intro x hx
        exact h3 x (List.mem_append_left _ hx)
      · intro k hk
        rw [h4 k (fun b hb => hk b (List.mem_cons_of_mem _ hb))]
        have hne : k ≠ e.1 := by
          intro heq
          have := hk e.2 (by rw [heq]; exact List.mem_cons_self _ _)
          rw [hsh] at this
          cases this
        exact StrMap.find_insert_ne _ _ _ _ hne
      · intro k v hv
        rcases h5 k v hv with h6 | ⟨buf, hb1, hb2, hb3⟩
        · by_cases hk : k = e.1
          · right
            subst hk
            simp only [GpuParams.setParamBlockBuffer, StrMap.find_insert_self,
              Option.some.injEq] at h6
            refine ⟨_, h6.symm, Nat.le_refl _, ?_⟩
            simp only [hnext] at h2
            show a.hbm.nextId < _
            omega
          · left
            simp only [GpuParams.setParamBlockBuffer] at h6
            rw [StrMap.find_insert_ne _ _ _ _ hk] at h6
            exact h6
        · right
          refine ⟨buf, hb1, ?_, hb3⟩
          simp only [hnext] at hb2
          omega

/-- Every non-shareable block of a descriptor with unique block names ends up bound to a
buffer of its own, allocated in the loop, sized for the block, that no other block of the
object is bound to. -/
theorem createNonShareable_fold_private (blocks : StrMap GpuParamBlockDesc) (p : GpuParams)
    (a : BufferAlloc) (hnodup : (StrMap.keys blocks).Nodup)
    (hlow : ∀ k buf, StrMap.find p.paramBlockBuffers k = some (some buf) →
      buf.id < a.hbm.nextId)
    (k : String) (b : GpuParamBlockDesc) (hmem : (k, b) ∈ blocks)
    (hsh : b.isShareable = false) :
    ∃ buf, StrMap.find (blocks.foldl createNonShareable (p, a)).1.paramBlockBuffers k
        = some (some buf) ∧
      a.hbm.nextId ≤ buf.id ∧
      buf.id < (blocks.foldl createNonShareable (p, a)).2.hbm.nextId ∧
      buf.size = (b.blockSize * sizeofUINT32) % 2 ^ 32 ∧
      buf ∈ (blocks.foldl createNonShareable (p, a)).2.mParamBuffers ∧
      ∀ k2, k2 ≠ k →
        StrMap.find (blocks.foldl createNonShareable (p, a)).1.paramBlockBuffers k2
          ≠ some (some buf) := by
  induction blocks generalizing p a with
  | nil => cases hmem
  | cons e rest ih =>
    obtain ⟨k0, b0⟩ := e
    have hnd := List.nodup_cons.1 hnodup
    rw [List.foldl_cons]
    cases hshe : b0.isShareable with
    | true =>
      have hstep : createNonShareable (p, a) (k0, b0) = (p, a) := by
        simp [createNonShareable, hshe]
      rw [hstep]
      rcases List.mem_cons.1 hmem with h1 | h1
      · cases h1
        rw [hsh] at hshe
        cases hshe
      · exact ih p a hnd.2 hlow h1
    | false =>
      have hstep : createNonShareable (p, a) (k0, b0) =
          (p.setParamBlockBuffer k0
            (some { id := a.hbm.nextId, size := (b0.blockSize * sizeofUINT32) % 2 ^ 32, usage := none }),
           { hbm := { nextId := a.hbm.nextId + 1,
                      log := a.hbm.log ++ [BufferEvent.created
                        { id := a.hbm.nextId, size := (b0.blockSize * sizeofUINT32) % 2 ^ 32,
                          usage := none }] },
             mParamBuffers := a.mParamBuffers ++
               [{ id := a.hbm.nextId, size := (b0.blockSize * sizeofUINT32) % 2 ^ 32, usage := none }] }) := by
        simp [createNonShareable, hshe, HardwareBufferManager.createGpuParamBlockBuffer]
      rw [hstep]
      have hlow2 : ∀ k2 buf,
          StrMap.find (p.setParamBlockBuffer k0
            (some { id := a.hbm.nextId, size := (b0.blockSize * sizeofUINT32) % 2 ^ 32,
                    usage := none })).paramBlockBuffers k2 = some (some buf) →
          buf.id < a.hbm.nextId + 1 := by
        intro k2 buf hfind
        by_cases hk : k2 = k0
        · subst hk
          simp only [GpuParams.setParamBlockBuffer, StrMap.find_insert_self,
            Option.some.injEq] at hfind
          rw [← hfind]
          exact Nat.lt_succ_self _
        · simp only [GpuParams.setParamBlockBuffer] at hfind
          rw [StrMap.find_insert_ne _ _ _ _ hk] at hfind
          exact Nat.lt_succ_of_lt (hlow k2 buf hfind)
      obtain ⟨g1, g2, g3, g4, g5⟩ := createNonShareable_fold_basic rest
        (p.setParamBlockBuffer k0
          (some { id := a.hbm.nextId, size := (b0.blockSize * sizeofUINT32) % 2 ^ 32, usage := none }))
        { hbm := { nextId := a.hbm.nextId + 1,
                   log := a.hbm.log ++ [BufferEvent.created
                     { id := a.hbm.nextId, size := (b0.blockSize * sizeofUINT32) % 2 ^ 32,
                       usage := none }] },
          mParamBuffers := a.mParamBuffers ++
            [{ id := a.hbm.nextId, size := (b0.blockSize * sizeofUINT32) % 2 ^ 32, usage := none }] }
      simp only at g2 g5
      rcases List.mem_cons.1 hmem with h1 | h1
      · cases h1
        have hall : ∀ b2, (k, b2) ∈ rest → b2.isShareable = true := by
          intro b2 hb2
          exfalso
          apply hnd.1
          exact List.mem_map.2 ⟨(k, b2), hb2, rfl⟩
        refine ⟨{ id := a.hbm.nextId, size := (b.blockSize * sizeofUINT32) % 2 ^ 32, usage := none },
          ?_, Nat.le_refl _, ?_, rfl, ?_, ?_⟩
        · rw [g4 k hall]
          exact StrMap.find_insert_self _ _ _
        · exact Nat.lt_of_succ_le g2
        · exact g3 _ (List.mem_append_right _ (List.mem_singleton.2 rfl))
        · intro k2 hk2 hfind
          rcases g5 k2 _ hfind with h6 | ⟨buf, hb1, hb2, _⟩
          · simp only [GpuParams.setParamBlockBuffer] at h6
            rw [StrMap.find_insert_ne _ _ _ _ hk2] at h6
            exact Nat.lt_irrefl _ (hlow k2 _ h6)
          · cases hb1
            exact Nat.lt_irrefl _ (Nat.lt_of_succ_le hb2)
      · obtain ⟨buf, f1, f2, f3, f4, f5, f6⟩ := ih
          (p.setParamBlockBuffer k0
            (some { id := a.hbm.nextId, size := (b0.blockSize * sizeofUINT32) % 2 ^ 32, usage := none }))
          { hbm := { nextId := a.hbm.nextId + 1,
                     log := a.hbm.log ++ [BufferEvent.created
                       { id := a.hbm.nextId, size := (b0.blockSize * sizeofUINT32) % 2 ^ 32,
                         usage := none }] },
            mParamBuffers := a.mParamBuffers ++
              [{ id := a.hbm.nextId, size := (b0.blockSize * sizeofUINT32) % 2 ^ 32, usage := none }] }
          hnd.2 hlow2 h1
        exact ⟨buf, f1, Nat.le_of_succ_le f2, f3, f4, f5, f6⟩

theorem assignShareableBuffers_spec (valid : StrSet) (pbb : StrMap GpuParamBlockBufferPtr)
    (p : GpuParams) :
    (assignShareableBuffers valid pbb p).paramDesc = p.paramDesc ∧
    ∀ k, StrMap.find (assignShareableBuffers valid pbb p).paramBlockBuffers k =
      if k ∈ valid ∧ p.hasParamBlock k = true then some ((StrMap.find pbb k).getD none)
      else StrMap.find p.paramBlockBuffers k := by
  unfold assignShareableBuffers
  induction valid generalizing p with
  | nil =>
    refine ⟨rfl, fun k => ?_⟩
    simp
  | cons X rest ih =>
    rw [List.foldl_cons]
    by_cases hX : p.hasParamBlock X = true
    · simp only [hX, if_true]
      obtain ⟨h1, h2⟩ := ih (p.setParamBlockBuffer X ((StrMap.find pbb X).getD none))
      refine ⟨h1, fun k => ?_⟩
      rw [h2 k]
      have hhas : (p.setParamBlockBuffer X ((StrMap.find pbb X).getD none)).hasParamBlock k
          = p.hasParamBlock k := rfl
      rw [hhas]
      by_cases hk : k = X
      · subst hk
        simp only [List.mem_cons, true_or, hX, and_self, if_true]
        split
        · rfl
        · exact StrMap.find_insert_self _ _ _
      · have hfind : StrMap.find
            (p.setParamBlockBuffer X ((StrMap.find pbb X).getD none)).paramBlockBuffers k
            = StrMap.find p.paramBlockBuffers k := StrMap.find_insert_ne _ _ _ _ hk
        rw [hfind]
        simp only [List.mem_cons, hk, false_or]
    · simp only [hX, Bool.false_eq_true, if_false]
      obtain ⟨h1, h2⟩ := ih p
      refine ⟨h1, fun k => ?_⟩
      rw [h2 k]
      by_cases hk : k = X
      · subst hk
        simp [hX]
      · simp only [List.mem_cons, hk, false_or]

theorem hasParamBlock_iff (p : GpuParams) (X : String) :
    p.hasParamBlock X = true ↔ X ∈ StrMap.keys p.paramDesc.paramBlocks := by
  unfold GpuParams.hasParamBlock
  rw [StrMap.mem_keys_iff_find, Option.isSome_iff_exists]

/-- What `assignParamBlockBuffers` does to one object that has nothing bound yet. -/
theorem assignParamBlockBuffers_spec (valid : StrSet) (pbb : StrMap GpuParamBlockBufferPtr)
    (p : GpuParams) (a : BufferAlloc) (hempty : p.paramBlockBuffers = []) :
    (assignParamBlockBuffers valid pbb p a).1.paramDesc = p.paramDesc ∧
    a.hbm.nextId ≤ (assignParamBlockBuffers valid pbb p a).2.hbm.nextId ∧
    (∀ x ∈ a.mParamBuffers, x ∈ (assignParamBlockBuffers valid pbb p a).2.mParamBuffers) ∧
    (∀ X, X ∈ valid → DeclaresShareable p.paramDesc X →
      StrMap.find (assignParamBlockBuffers valid pbb p a).1.paramBlockBuffers X
        = some ((StrMap.find pbb X).getD none)) ∧
    (∀ k buf, StrMap.find (assignParamBlockBuffers valid pbb p a).1.paramBlockBuffers k
        = some (some buf) →
      StrMap.find pbb k = some (some buf) ∨
      (a.hbm.nextId ≤ buf.id ∧
        buf.id < (assignParamBlockBuffers valid pbb p a).2.hbm.nextId)) := by
  obtain ⟨s1, s2⟩ := assignShareableBuffers_spec valid pbb p
  obtain ⟨g1, g2, g3, g4, g5⟩ := createNonShareable_fold_basic p.paramDesc.paramBlocks
    (assignShareableBuffers valid pbb p) a
  unfold assignParamBlockBuffers GpuParams.getParamDesc
  refine ⟨g1.trans s1, g2, g3, ?_, ?_⟩
  · intro X hX hdecl
    rw [g4 X hdecl.2, s2 X]
    have hhas := (hasParamBlock_iff p X).2 hdecl.1
    simp [hX, hhas]
  · intro k buf hfind
    rcases g5 k _ hfind with h6 | ⟨buf2, hb1, hb2, hb3⟩
    · left
      rw [s2 k, hempty] at h6
      split at h6
      · simp only [Option.some.injEq] at h6
        cases hp : StrMap.find pbb k with
        | none =>
          rw [hp] at h6
          cases h6
        | some v =>
          rw [hp] at h6
          simp only [Option.getD_some] at h6
          rw [h6]
      · cases h6
    · right
      cases hb1
      exact ⟨hb2, hb3⟩

theorem assignParamBlockBuffers_private (valid : StrSet)
    (pbb : StrMap GpuParamBlockBufferPtr) (p : GpuParams) (a : BufferAlloc)
    (hempty : p.paramBlockBuffers = [])
    (hnodup : (StrMap.keys p.paramDesc.paramBlocks).Nodup)
    (hpbb : ∀ k buf, StrMap.find pbb k = some (some buf) → buf.id < a.hbm.nextId)
    (k : String) (b : GpuParamBlockDesc) (hmem : (k, b) ∈ p.paramDesc.paramBlocks)
    (hsh : b.isShareable = false) :
    ∃ buf, StrMap.find (assignParamBlockBuffers valid pbb p a).1.paramBlockBuffers k
        = some (some buf) ∧
      a.hbm.nextId ≤ buf.id ∧
      buf.id < (assignParamBlockBuffers valid pbb p a).2.hbm.nextId ∧
      buf.size = (b.blockSize * sizeofUINT32) % 2 ^ 32 ∧
      buf ∈ (assignParamBlockBuffers valid pbb p a).2.mParamBuffers ∧
      ∀ k2, k2 ≠ k →
        StrMap.find (assignParamBlockBuffers valid pbb p a).1.paramBlockBuffers k2
          ≠ some (some buf) := by
  obtain ⟨s1, s2⟩ := assignShareableBuffers_spec valid pbb p
  unfold assignParamBlockBuffers GpuParams.getParamDesc
  apply createNonShareable_fold_private _ _ _ hnodup _ k b hmem hsh
  intro k2 buf hfind
  rw [s2 k2, hempty] at hfind
  split at hfind
  · simp only [Option.some.injEq] at hfind
    cases hp : StrMap.find pbb k2 with
    | none =>
      rw [hp] at hfind
      cases hfind
    | some v =>
      rw [hp] at hfind
      simp only [Option.getD_some] at hfind
      rw [hfind] at hp
      exact hpbb k2 buf hp
  · cases hfind

/-- What the assignment does to the objects of a technique, object by object. -/
theorem assignObjects_spec (valid : StrSet) (pbb : StrMap GpuParamBlockBufferPtr)
    (objs : List GpuParams) (a : BufferAlloc)
    (hempty : ∀ p ∈ objs, p.paramBlockBuffers = []) :
    (assignObjects valid pbb objs a).1.map (fun p => p.paramDesc)
      = objs.map (fun p => p.paramDesc) ∧
    a.hbm.nextId ≤ (assignObjects valid pbb objs a).2.hbm.nextId ∧
    (∀ x ∈ a.mParamBuffers, x ∈ (assignObjects valid pbb objs a).2.mParamBuffers) ∧
    (∀ p ∈ (assignObjects valid pbb objs a).1, ∀ X, X ∈ valid →
      DeclaresShareable p.paramDesc X →
      StrMap.find p.paramBlockBuffers X = some ((StrMap.find pbb X).getD none)) ∧
    (∀ p ∈ (assignObjects valid pbb objs a).1, ∀ k buf,
      StrMap.find p.paramBlockBuffers k = some (some buf) →
      StrMap.find pbb k = some (some buf) ∨
      (a.hbm.nextId ≤ buf.id ∧ buf.id < (assignObjects valid pbb objs a).2.hbm.nextId)) := by
  induction objs generalizing a with
  | nil =>
    refine ⟨rfl, Nat.le_refl _, fun x hx => hx, ?_, ?_⟩
    · intro p hp
      cases hp
    · intro p hp
      cases hp
  | cons p0 rest ih =>
    obtain ⟨s1, s2, s3, s4, s5⟩ := assignParamBlockBuffers_spec valid pbb p0 a
      (hempty p0 (List.mem_cons_self _ _))
    obtain ⟨g1, g2, g3, g4, g5⟩ := ih (assignParamBlockBuffers valid pbb p0 a).2
      (fun p hp => hempty p (List.mem_cons_of_mem _ hp))
    simp only [assignObjects]
    refine ⟨?_, Nat.le_trans s2 g2, fun x hx => g3 x (s3 x hx), ?_, ?_⟩
    · simp only [List.map_cons, s1, g1]
    · intro p hp X hX hdecl
      rcases List.mem_cons.1 hp with h1 | h1
      · subst h1
        rw [s1] at hdecl
        exact s4 X hX hdecl
      · exact g4 p h1 X hX hdecl
    · intro p hp k buf hfind
      rcases List.mem_cons.1 hp with h1 | h1
      · subst h1
        rcases s5 k buf hfind with h2 | ⟨h2, h3⟩
        · exact Or.inl h2
        · exact Or.inr ⟨h2, Nat.lt_of_lt_of_le h3 g2⟩
      · rcases g5 p h1 k buf hfind with h2 | ⟨h2, h3⟩
        · exact Or.inl h2
        · exact Or.inr ⟨Nat.le_trans s2 h2, h3⟩

/-- Every non-shareable block of every object is bound to a buffer allocated for it during
the assignment, to which no other block of any object is bound. -/
theorem assignObjects_private (valid : StrSet) (pbb : StrMap GpuParamBlockBufferPtr)
    (objs : List GpuParams) (a : BufferAlloc)
    (hempty : ∀ p ∈ objs, p.paramBlockBuffers = [])
    (hnodup : ∀ p ∈ objs, (StrMap.keys p.paramDesc.paramBlocks).Nodup)
    (hpbb : ∀ k buf, StrMap.find pbb k = some (some buf) → buf.id < a.hbm.nextId)
    (i : Nat) (p : GpuParams) (hi : (assignObjects valid pbb objs a).1[i]? = some p)
    (k : String) (b : GpuParamBlockDesc) (hmem : (k, b) ∈ p.paramDesc.paramBlocks)
    (hsh : b.isShareable = false) :
    ∃ buf, StrMap.find p.paramBlockBuffers k = some (some buf) ∧
      a.hbm.nextId ≤ buf.id ∧
      buf.id < (assignObjects valid pbb objs a).2.hbm.nextId ∧
      buf.size = (b.blockSize * sizeofUINT32) % 2 ^ 32 ∧
      buf ∈ (assignObjects valid pbb objs a).2.mParamBuffers ∧
      ∀ j q k2, (assignObjects valid pbb objs a).1[j]? = some q → (j ≠ i ∨ k2 ≠ k) →
        StrMap.find q.paramBlockBuffers k2 ≠ some (some buf) := by
  induction objs generalizing a i with
  | nil =>
    simp [assignObjects] at hi
  | cons p0 rest ih =>
    have he0 := hempty p0 (List.mem_cons_self _ _)
    have herest : ∀ p ∈ rest, p.paramBlockBuffers = [] :=
      fun p hp => hempty p (List.mem_cons_of_mem _ hp)
    obtain ⟨s1, s2, s3, s4, s5⟩ := assignParamBlockBuffers_spec valid pbb p0 a he0
    obtain ⟨g1, g2, g3, g4, g5⟩ := assignObjects_spec valid pbb rest
      (assignParamBlockBuffers valid pbb p0 a).2 herest
    have hpbb2 : ∀ k buf, StrMap.find pbb k = some (some buf) →
        buf.id < (assignParamBlockBuffers valid pbb p0 a).2.hbm.nextId :=
      fun k buf h => Nat.lt_of_lt_of_le (hpbb k buf h) s2
    simp only [assignObjects] at hi ⊢
    cases i with
    | zero =>
      simp only [List.getElem?_cons_zero, Option.some.injEq] at hi
      subst hi
      rw [s1] at hmem
      obtain ⟨buf, f1, f2, f3, f4, f5, f6⟩ := assignParamBlockBuffers_private valid pbb p0 a
        he0 (hnodup p0 (List.mem_cons_self _ _)) hpbb k b hmem hsh
      refine ⟨buf, f1, f2, Nat.lt_of_lt_of_le f3 g2, f4, g3 buf f5, ?_⟩
      intro j q k2 hj hne hfind
      cases j with
      | zero =>
        simp only [List.getElem?_cons_zero, Option.some.injEq] at hj
        subst hj
        rcases hne with h1 | h1
        · exact h1 rfl
        · exact f6 k2 h1 hfind
      | succ j2 =>
        simp only [List.getElem?_cons_succ] at hj
        have hq := List.getElem?_mem hj
        rcases g5 q hq k2 buf hfind with h2 | ⟨h2, _⟩
        · exact absurd (hpbb k2 buf h2) (Nat.not_lt.2 f2)
        · exact absurd f3 (Nat.not_lt.2 h2)
    | succ i2 =>
      simp only [List.getElem?_cons_succ] at hi
      obtain ⟨buf, f1, f2, f3, f4, f5, f6⟩ := ih (assignParamBlockBuffers valid pbb p0 a).2
        herest (fun p hp => hnodup p (List.mem_cons_of_mem _ hp)) hpbb2 i2 hi
      refine ⟨buf, f1, Nat.le_trans s2 f2, f3, f4, f5, ?_⟩
      intro j q k2 hj hne hfind
      cases j with
      | zero =>
        simp only [List.getElem?_cons_zero, Option.some.injEq] at hj
        subst hj
        rcases s5 k2 buf hfind with h2 | ⟨_, h3⟩
        · exact absurd (hpbb2 k2 buf h2) (Nat.not_lt.2 f2)
        · exact absurd h3 (Nat.not_lt.2 f2)
      | succ j2 =>
        simp only [List.getElem?_cons_succ] at hj
        apply f6 j2 q k2 hj _ hfind
        rcases hne with h1 | h1
        · left
          intro h2
          exact h1 (by rw [h2])
        · exact Or.inr h1

/-! ## Lemmas on the shared buffers -/

theorem createParamBlock_shared_self (shaderDesc : StrMap SHADER_PARAM_BLOCK_DESC)
    (descs : List GpuParamDesc) (st : BlockBuffers) (X : String)
    (hns : shaderMarksShared shaderDesc X = false) :
    ∃ buf, HasSharedBuffer descs (createParamBlock shaderDesc descs st X) X buf := by
  unfold shaderMarksShared at hns
  unfold createParamBlock HasSharedBuffer
  simp only [hns, Bool.not_false, if_true]
  exact ⟨_, List.mem_append_right _ (List.mem_singleton.2 rfl),
    StrMap.find_insert_self _ _ _, rfl⟩

theorem createParamBlock_shared_keep (shaderDesc : StrMap SHADER_PARAM_BLOCK_DESC)
    (descs : List GpuParamDesc) (st : BlockBuffers) (X Y : String)
    (hns : shaderMarksShared shaderDesc X = false)
    (h : ∃ buf, HasSharedBuffer descs st X buf) :
    ∃ buf, HasSharedBuffer descs (createParamBlock shaderDesc descs st Y) X buf := by
  by_cases hXY : Y = X
  · subst hXY
    exact createParamBlock_shared_self shaderDesc descs st Y hns
  · obtain ⟨buf, h1, h2, h3⟩ := h
    have hne : X ≠ Y := fun h4 => hXY h4.symm
    refine ⟨buf, ?_, ?_, h3⟩
    · unfold createParamBlock
      simp only
      split
      · exact List.mem_append_left _ h1
      · exact h1
    · unfold createParamBlock
      simp only
      split
      · rw [StrMap.find_insert_ne _ _ _ _ hne]
        exact h2
      · rw [StrMap.find_insert_ne _ _ _ _ hne]
        exact h2

/-- Each valid shareable block that the shader does not declare as shared has its buffer
after "Create param blocks". -/
theorem createParamBlocks_shared (shaderDesc : StrMap SHADER_PARAM_BLOCK_DESC)
    (descs : List GpuParamDesc) (valid : StrSet) (st : BlockBuffers) (X : String)
    (hns : shaderMarksShared shaderDesc X = false)
    (h : X ∈ valid ∨ ∃ buf, HasSharedBuffer descs st X buf) :
    ∃ buf, HasSharedBuffer descs (createParamBlocks shaderDesc descs valid st) X buf := by
  unfold createParamBlocks
  induction valid generalizing st with
  | nil =>
    rcases h with h1 | h1
    · cases h1
    · exact h1
  | cons Y rest ih =>
    rw [List.foldl_cons]
    apply ih
    rcases h with h1 | h1
    · rcases List.mem_cons.1 h1 with h2 | h2
      · right
        subst h2
        exact createParamBlock_shared_self shaderDesc descs st X hns
      · exact Or.inl h2
    · exact Or.inr (createParamBlock_shared_keep shaderDesc descs st X Y hns h1)

/-- A valid shareable block that the shader declares as shared is bound to no buffer. -/
theorem createParamBlocks_null (shaderDesc : StrMap SHADER_PARAM_BLOCK_DESC)
    (descs : List GpuParamDesc) (valid : StrSet) (st : BlockBuffers) (X : String)
    (hs : shaderMarksShared shaderDesc X = true)
    (h : X ∈ valid ∨ StrMap.find st.paramBlockBuffers X = some none) :
    StrMap.find (createParamBlocks shaderDesc descs valid st).paramBlockBuffers X
      = some none := by
  unfold createParamBlocks
  induction valid generalizing st with
  | nil =>
    rcases h with h1 | h1
    · cases h1
    · exact h1
  | cons Y rest ih =>
    rw [List.foldl_cons]
    apply ih
    by_cases hXY : Y = X
    · right
      subst hXY
      unfold shaderMarksShared at hs
      unfold createParamBlock
      simp only [hs, Bool.not_true, Bool.false_eq_true, if_false]
      exact StrMap.find_insert_self _ _ _
    · have hne : X ≠ Y := fun h4 => hXY h4.symm
      rcases h with h1 | h1
      · rcases List.mem_cons.1 h1 with h2 | h2
        · exact absurd h2.symm hXY
        · exact Or.inl h2
      · right
        unfold createParamBlock
        simp only
        split
        · rw [StrMap.find_insert_ne _ _ _ _ hne]
          exact h1
        · rw [StrMap.find_insert_ne _ _ _ _ hne]
          exact h1

/-- The buffers of the local map were handed out before the assignment starts. -/
theorem createParamBlocks_low (shaderDesc : StrMap SHADER_PARAM_BLOCK_DESC)
    (descs : List GpuParamDesc) (valid : StrSet) (st : BlockBuffers)
    (h : ∀ k buf, StrMap.find st.paramBlockBuffers k = some (some buf) →
      buf.id < st.hbm.nextId) :
    ∀ k buf, StrMap.find (createParamBlocks shaderDesc descs valid st).paramBlockBuffers k
        = some (some buf) →
      buf.id < (createParamBlocks shaderDesc descs valid st).hbm.nextId := by
  unfold createParamBlocks
  induction valid generalizing st with
  | nil => exact h
  | cons Y rest ih =>
    rw [List.foldl_cons]
    apply ih
    intro k buf hfind
    unfold createParamBlock at hfind ⊢
    simp only at hfind ⊢
    split at hfind
    · rw [if_pos (by assumption)]
      by_cases hk : k = Y
      · subst hk
        rw [StrMap.find_insert_self] at hfind
        simp only [Option.some.injEq] at hfind
        rw [← hfind]
        exact Nat.lt_succ_self _
      · rw [StrMap.find_insert_ne _ _ _ _ hk] at hfind
        exact Nat.lt_succ_of_lt (h k buf hfind)
    · rw [if_neg (by assumption)]
      by_cases hk : k = Y
      · subst hk
        rw [StrMap.find_insert_self] at hfind
        cases hfind
      · rw [StrMap.find_insert_ne _ _ _ _ hk] at hfind
        exact h k buf hfind

theorem created_objects (programs : List HGpuProgram) :
    ((programs.map (fun pr => pr.map GpuProgram.createParameters)).filterMap id).map
        (fun p => p.paramDesc)
      = programs.filterMap (fun program => program.map (fun p => p.paramDesc)) ∧
    ∀ p ∈ (programs.map (fun pr => pr.map GpuProgram.createParameters)).filterMap id,
      p.paramBlockBuffers = [] := by
  induction programs with
  | nil =>
    refine ⟨rfl, ?_⟩
    intro p hp
    cases hp
  | cons pr rest ih =>
    cases pr with
    | none =>
      simpa using ih
    | some g =>
      refine ⟨?_, ?_⟩
      · simpa [GpuProgram.createParameters] using ih.1
      · intro p hp
        have hp2 : p ∈ g.createParameters ::
            (rest.map (fun pr => pr.map GpuProgram.createParameters)).filterMap id := hp
        rcases List.mem_cons.1 hp2 with h1 | h1
        · rw [h1]
          rfl
        · exact ih.2 p h1

/-- The objects created for a technique are those of its programs, in the order of
`allParamDescs`, with nothing bound. -/
theorem stageObjects_created (passes : List Pass) :
    (stageObjects (passes.map createPassParameters)).map (fun p => p.paramDesc)
      = passes.flatMap passParamDescs ∧
    ∀ p ∈ stageObjects (passes.map createPassParameters), p.paramBlockBuffers = [] := by
  induction passes with
  | nil =>
    refine ⟨rfl, ?_⟩
    intro p hp
    cases hp
  | cons pass rest ih =>
    have hpass := created_objects [pass.vertexProgram, pass.fragmentProgram,
      pass.geometryProgram, pass.hullProgram, pass.domainProgram, pass.computeProgram]
    have hsplit : stageObjects ((pass :: rest).map createPassParameters)
        = ([pass.vertexProgram, pass.fragmentProgram, pass.geometryProgram, pass.hullProgram,
            pass.domainProgram, pass.computeProgram].map
              (fun pr => pr.map GpuProgram.createParameters)).filterMap id
          ++ stageObjects (rest.map createPassParameters) := by
      unfold stageObjects
      rw [List.map_cons, List.flatMap_cons, List.filterMap_append]
      rfl
    rw [hsplit]
    refine ⟨?_, ?_⟩
    · rw [List.map_append, hpass.1, ih.1, List.flatMap_cons]
      rfl
    · intro p hp
      rcases List.mem_append.1 hp with h1 | h1
      · exact hpass.2 p h1
      · exact ih.2 p h1

/-! ## Lemmas on sets of names -/

theorem StrSet.insert_keeps_sorted (s : StrSet) (k : String) (h : StrSet.Sorted s) :
    StrSet.Sorted (StrSet.insert k s) := by
  induction s with
  | nil => simp [StrSet.insert, StrSet.Sorted]
  | cons a rest ih =>
    have hs : StrSet.Sorted rest := (List.pairwise_cons.1 h).2
    have hhead : ∀ x ∈ rest, a.toList < x.toList := (List.pairwise_cons.1 h).1
    simp only [StrSet.insert]
    split
    · rename_i hlt
      refine List.pairwise_cons.2 ⟨?_, h⟩
      intro x hx
      rcases List.mem_cons.1 hx with h1 | h1
      · rw [h1]
        exact hlt
      · exact keyLt_trans hlt (hhead x h1)
    · split
      · exact h
      · rename_i hlt hne
        refine List.pairwise_cons.2 ⟨?_, ih hs⟩
        intro x hx
        rcases (StrSet.mem_insert k x rest).1 hx with h1 | h1
        · rw [h1]
          exact keyLt_of_not hlt hne
        · exact hhead x h1

theorem StrSet.insert_last (s : StrSet) (k : String) (h : ∀ y ∈ s, y.toList < k.toList) :
    StrSet.insert k s = s ++ [k] := by
  induction s with
  | nil => rfl
  | cons a rest ih =>
    have ha := h a (List.mem_cons_self _ _)
    have h1 : ¬ k.toList < a.toList := fun h2 => keyLt_irrefl _ (keyLt_trans h2 ha)
    have h2 : ¬ k = a := by
      intro h3
      rw [h3] at ha
      exact keyLt_irrefl _ ha
    simp only [StrSet.insert, h1, h2, if_false, List.cons_append]
    rw [ih (fun y hy => h y (List.mem_cons_of_mem _ hy))]

theorem StrSet.foldl_insert_append (l acc : StrSet) (h : StrSet.Sorted (acc ++ l)) :
    l.foldl (fun acc X => StrSet.insert X acc) acc = acc ++ l := by
  induction l generalizing acc with
  | nil => simp
  | cons X rest ih =>
    rw [List.foldl_cons]
    have hlast : StrSet.insert X acc = acc ++ [X] := by
      apply StrSet.insert_last
      intro y hy
      unfold StrSet.Sorted at h
      rw [List.pairwise_append] at h
      exact h.2.2 y hy X (List.mem_cons_self _ _)
    rw [hlast, ih]
    · simp
    · simpa using h

/-- Inserting the elements of a set one by one into an empty set gives the set back. -/
theorem StrSet.foldl_insert_self (l : StrSet) (h : StrSet.Sorted l) :
    l.foldl (fun acc X => StrSet.insert X acc) [] = l := by
  have := StrSet.foldl_insert_append l [] (by simpa using h)
  simpa using this

theorem validReturn_sorted (valid : StrMap Bool) (ret : StrSet) (h : StrSet.Sorted ret) :
    StrSet.Sorted (valid.foldl
      (fun (ret : StrSet) (e : String × Bool) => if e.2 then StrSet.insert e.1 ret else ret)
      ret) := by
  induction valid generalizing ret with
  | nil => exact h
  | cons e rest ih =>
    rw [List.foldl_cons]
    apply ih
    split
    · exact StrSet.insert_keeps_sorted _ _ h
    · exact h

theorem determineValidShareableParamBlocks_sorted (flag : Bool)
    (paramDescs : List GpuParamDesc) :
    StrSet.Sorted (determineValidShareableParamBlocks flag paramDescs) :=
  validReturn_sorted _ _ List.Pairwise.nil

/-- The member `mValidShareableParamBlocks` after "Create param blocks" is the set the
reconciler returned. -/
theorem sharedBlocks_valid_eq (flag : Bool) (s : Shader) (t : Technique)
    (hbm : HardwareBufferManager) :
    (sharedBlocks flag s t hbm).mValidShareableParamBlocks
      = determineValidShareableParamBlocks flag (collectParamDescs t) := by
  rw [sharedBlocks_valid]
  exact StrSet.foldl_insert_self _ (determineValidShareableParamBlocks_sorted flag _)

/-! ## The state after a successful `setShader` -/

/-- A call of `setShader` that finds a technique and raises nothing ends in the state of a
finished resolution. -/
theorem setShader_resolved (flag : Bool) (hbm : HardwareBufferManager) (m : Material)
    (s : Shader) (t : Technique) (ht : s.getBestTechnique = some t)
    (hok : (setShader flag hbm m (some s)).exception = none) :
    setShader flag hbm m (some s) =
      { m := { toMaterialValues := (resolvedValues s t).1, mShader := some s,
               mBestTechnique := some t, mRenderQueue := m.mRenderQueue,
               mValidShareableParamBlocks :=
                 (sharedBlocks flag s t (freeParamBuffers hbm m).2).mValidShareableParamBlocks,
               mParametersPerPass := (assignedPasses flag s t (freeParamBuffers hbm m).2).1,
               mParamBuffers :=
                 (assignedPasses flag s t (freeParamBuffers hbm m).2).2.mParamBuffers },
        hbm := (assignedPasses flag s t (freeParamBuffers hbm m).2).2.hbm,
        exception := none } := by
  rcases setShader_cases flag hbm m (some s) with
    ⟨hs, _⟩ | ⟨s2, hs, ht2, _⟩ | ⟨s2, t2, hs, ht2, heq⟩
  · cases hs
  · cases hs
    rw [ht2] at ht
    cases ht
  · cases hs
    rw [ht2] at ht
    cases ht
    cases he : (resolvedValues s t).2 with
    | some e =>
      rw [heq, resolveTechnique_raised flag s t _ m e he] at hok
      cases hok
    | none =>
      rw [heq, resolveTechnique_done flag s t _ m he]

/-- The objects of the passes after the assignment, and what the assignment started from. -/
theorem assignedPasses_objects (flag : Bool) (s : Shader) (t : Technique)
    (hbm : HardwareBufferManager) :
    stageObjects (assignedPasses flag s t hbm).1 =
      (assignObjects (sharedBlocks flag s t hbm).mValidShareableParamBlocks
        (sharedBlocks flag s t hbm).paramBlockBuffers
        (stageObjects (t.passes.map createPassParameters))
        { hbm := (sharedBlocks flag s t hbm).hbm,
          mParamBuffers := (sharedBlocks flag s t hbm).mParamBuffers }).1 ∧
    (assignedPasses flag s t hbm).2 =
      (assignObjects (sharedBlocks flag s t hbm).mValidShareableParamBlocks
        (sharedBlocks flag s t hbm).paramBlockBuffers
        (stageObjects (t.passes.map createPassParameters))
        { hbm := (sharedBlocks flag s t hbm).hbm,
          mParamBuffers := (sharedBlocks flag s t hbm).mParamBuffers }).2 := by
  unfold assignedPasses
  exact ⟨(assignAllPasses_objects _ _ _ _).1, (assignAllPasses_objects _ _ _ _).2.1⟩

/-- The descriptors of the objects of the passes are those of `allParamDescs`. -/
theorem assignedPasses_descs (flag : Bool) (s : Shader) (t : Technique)
    (hbm : HardwareBufferManager) :
    (stageObjects (assignedPasses flag s t hbm).1).map (fun p => p.paramDesc)
      = collectParamDescs t := by
  rw [(assignedPasses_objects flag s t hbm).1,
    (assignObjects_spec _ _ _ _ (stageObjects_created t.passes).2).1,
    (stageObjects_created t.passes).1]
  rfl

theorem sharedBlocks_low (flag : Bool) (s : Shader) (t : Technique)
    (hbm : HardwareBufferManager) :
    ∀ k buf, StrMap.find (sharedBlocks flag s t hbm).paramBlockBuffers k = some (some buf) →
      buf.id < (sharedBlocks flag s t hbm).hbm.nextId := by
  unfold sharedBlocks
  apply createParamBlocks_low
  intro k buf h
  cases h

/-- A valid shareable block is declared as shareable by a descriptor of the list. -/
theorem validShareable_declared (flag : Bool) (paramDescs : List GpuParamDesc) (X : String)
    (h : X ∈ determineValidShareableParamBlocks flag paramDescs) :
    ∃ D ∈ paramDescs, ∃ b, (X, b) ∈ D.paramBlocks ∧ b.isShareable = true := by
  obtain ⟨pre, F, bF, rest, hsplit, _, _⟩ := (validShareable_iff flag paramDescs X).1 h
  have hmem : (X, (F, bF)) ∈ shareableDecls paramDescs := by
    rw [hsplit]
    simp
  obtain ⟨h1, h2, h3⟩ := (mem_shareableDecls paramDescs X F bF).1 hmem
  exact ⟨F, h1, bF, h2, h3⟩

theorem StrMap.entry_unique {V : Type} (m : StrMap V) (h : (StrMap.keys m).Nodup) (k : String)
    (v w : V) (hv : (k, v) ∈ m) (hw : (k, w) ∈ m) : v = w := by
  induction m with
  | nil => cases hv
  | cons e rest ih =>
    have hnd := List.nodup_cons.1 h
    rcases List.mem_cons.1 hv with h1 | h1
    · rcases List.mem_cons.1 hw with h2 | h2
      · have h3 := h1.trans h2.symm
        cases h3
        rfl
      · exfalso
        apply hnd.1
        rw [← h1]
        exact List.mem_map.2 ⟨(k, w), h2, rfl⟩
    · rcases List.mem_cons.1 hw with h2 | h2
      · exfalso
        apply hnd.1
        rw [← h2]
        exact List.mem_map.2 ⟨(k, v), h1, rfl⟩
      · exact ih hnd.2 h1 h2

/-- The shared buffer of a valid block that the shader does not declare as shared, and the
objects bound to it. -/
theorem resolved_shared_buffer (flag : Bool) (s : Shader) (t : Technique)
    (hbm : HardwareBufferManager) (X : String)
    (hX : X ∈ determineValidShareableParamBlocks flag (collectParamDescs t))
    (hns : shaderMarksShared s.paramBlocks X = false) :
    ∃ buf, buf ∈ (assignedPasses flag s t hbm).2.mParamBuffers ∧
      buf.size = ((findBlockDesc X (collectParamDescs t)).blockSize * sizeofUINT32) % 2 ^ 32 ∧
      ∀ p ∈ stageObjects (assignedPasses flag s t hbm).1, DeclaresShareable p.paramDesc X →
        StrMap.find p.paramBlockBuffers X = some (some buf) := by
  obtain ⟨buf, h1, h2, h3⟩ : ∃ buf, HasSharedBuffer (collectParamDescs t)
      (sharedBlocks flag s t hbm) X buf :=
    createParamBlocks_shared _ _ _ _ X hns (Or.inl hX)
  obtain ⟨g1, g2, g3, g4, g5⟩ := assignObjects_spec
    (sharedBlocks flag s t hbm).mValidShareableParamBlocks
    (sharedBlocks flag s t hbm).paramBlockBuffers
    (stageObjects (t.passes.map createPassParameters))
    { hbm := (sharedBlocks flag s t hbm).hbm,
      mParamBuffers := (sharedBlocks flag s t hbm).mParamBuffers }
    (stageObjects_created t.passes).2
  obtain ⟨o1, o2⟩ := assignedPasses_objects flag s t hbm
  refine ⟨buf, ?_, h3, ?_⟩
  · rw [o2]
    exact g3 buf h1
  · intro p hp hdecl
    rw [o1] at hp
    have hXv : X ∈ (sharedBlocks flag s t hbm).mValidShareableParamBlocks := by
      rw [sharedBlocks_valid_eq]
      exact hX
    rw [g4 p hp X hXv hdecl, h2]
    rfl

/-- Some object of the passes declares a valid shareable block as shareable, when block
names are unique in each descriptor. -/
theorem resolved_declaring_object (flag : Bool) (s : Shader) (t : Technique)
    (hbm : HardwareBufferManager) (X : String)
    (hwf : ∀ d ∈ collectParamDescs t, (StrMap.keys d.paramBlocks).Nodup)
    (hX : X ∈ determineValidShareableParamBlocks flag (collectParamDescs t)) :
    ∃ p ∈ stageObjects (assignedPasses flag s t hbm).1, DeclaresShareable p.paramDesc X := by
  obtain ⟨D, hD, b, hb, hbs⟩ := validShareable_declared flag _ X hX
  rw [← assignedPasses_descs flag s t hbm] at hD
  obtain ⟨p, hp, rfl⟩ := List.mem_map.1 hD
  refine ⟨p, hp, List.mem_map.2 ⟨(X, b), hb, rfl⟩, ?_⟩
  intro b2 hb2
  have hnd := hwf p.paramDesc (by
    rw [← assignedPasses_descs flag s t hbm]
    exact List.mem_map_of_mem _ hp)
  rw [StrMap.entry_unique _ hnd X b2 b hb2 hb]
  exact hbs

/-! ## Shared and private buffers after `setShader` -/

/-- The loop "Create param blocks" allocates one buffer for each valid shareable block that
the shader does not declare as shared, and no other. -/
theorem sharedBlocks_count (flag : Bool) (s : Shader) (t : Technique)
    (hbm : HardwareBufferManager) :
    (sharedBlocks flag s t hbm).mParamBuffers.length
      = ((determineValidShareableParamBlocks flag (collectParamDescs t)).filter
          (fun Y => !shaderMarksShared s.paramBlocks Y)).length := by
  obtain ⟨new, ha, hl⟩ := sharedBlocks_alloc flag s t hbm
  rw [ha.1, List.nil_append, hl]
  rfl

/-- C6 (amended). After a `setShader` that finds a technique and raises nothing, for a valid
shareable block `X`, with block names unique within each descriptor. When the shader does
not declare `X` as shared, `X` has exactly one buffer: a buffer of the ownership list to
which every per-pass stage parameter object whose descriptor declares the block as shareable
is bound for that block, however many passes and stages there are. When the shader declares
`X` as shared, the loop "Create param blocks" records the null pointer for `X`, allocates
buffers for the valid shareable blocks that the shader does not declare as shared only, and
every such object is bound for `X` to the null pointer. A stage parameter object whose descriptor
declares `X` as non-shareable is bound for `X` to a buffer of the ownership list to which no
other block of any object is bound. -/
theorem setShader_one_shared_buffer (ignoreBufferOffsets : Bool) (hbm : HardwareBufferManager)
    (m : Material) (s : Shader) (t : Technique) (X : String)
    (ht : s.getBestTechnique = some t)
    (hok : (setShader ignoreBufferOffsets hbm m (some s)).exception = none)
    (hwf : ∀ d ∈ collectParamDescs t, (StrMap.keys d.paramBlocks).Nodup)
    (hX : X ∈ (setShader ignoreBufferOffsets hbm m (some s)).m.mValidShareableParamBlocks) :
    (shaderMarksShared s.paramBlocks X = false →
      ∃! buf, buf ∈ (setShader ignoreBufferOffsets hbm m (some s)).m.mParamBuffers ∧
        (∃ p ∈ stageObjects (setShader ignoreBufferOffsets hbm m (some s)).m.mParametersPerPass,
          DeclaresShareable p.paramDesc X) ∧
        ∀ p ∈ stageObjects (setShader ignoreBufferOffsets hbm m (some s)).m.mParametersPerPass,
          DeclaresShareable p.paramDesc X →
          StrMap.find p.paramBlockBuffers X = some (some buf)) ∧
    (shaderMarksShared s.paramBlocks X = true →
      StrMap.find (sharedBlocks ignoreBufferOffsets s t
        (freeParamBuffers hbm m).2).paramBlockBuffers X = some none ∧
      (sharedBlocks ignoreBufferOffsets s t (freeParamBuffers hbm m).2).mParamBuffers.length
        = ((determineValidShareableParamBlocks ignoreBufferOffsets (collectParamDescs t)).filter
            (fun Y => !shaderMarksShared s.paramBlocks Y)).length ∧
      (∃ p ∈ stageObjects (setShader ignoreBufferOffsets hbm m (some s)).m.mParametersPerPass,
        DeclaresShareable p.paramDesc X) ∧
      ∀ p ∈ stageObjects (setShader ignoreBufferOffsets hbm m (some s)).m.mParametersPerPass,
        DeclaresShareable p.paramDesc X → StrMap.find p.paramBlockBuffers X = some none) ∧
    (∀ (i : Nat) (p : GpuParams), (stageObjects
        (setShader ignoreBufferOffsets hbm m (some s)).m.mParametersPerPass)[i]? = some p →
      ∀ (b : GpuParamBlockDesc), (X, b) ∈ p.paramDesc.paramBlocks → b.isShareable = false →
        ∃ buf, StrMap.find p.paramBlockBuffers X = some (some buf) ∧
          buf ∈ (setShader ignoreBufferOffsets hbm m (some s)).m.mParamBuffers ∧
          ∀ (j : Nat) (q : GpuParams) (k2 : String), (stageObjects
              (setShader ignoreBufferOffsets hbm m (some s)).m.mParametersPerPass)[j]? = some q →
            (j ≠ i ∨ k2 ≠ X) → StrMap.find q.paramBlockBuffers k2 ≠ some (some buf)) := by
  rw [setShader_resolved ignoreBufferOffsets hbm m s t ht hok] at hX ⊢
  simp only at hX ⊢
  rw [sharedBlocks_valid_eq] at hX
  obtain ⟨p0, hp0, hdecl0⟩ := resolved_declaring_object ignoreBufferOffsets s t
    (freeParamBuffers hbm m).2 X hwf hX
  obtain ⟨o1, o2⟩ := assignedPasses_objects ignoreBufferOffsets s t (freeParamBuffers hbm m).2
  refine ⟨?_, ?_, ?_⟩
  · intro hns
    obtain ⟨buf, h1, _, h3⟩ := resolved_shared_buffer ignoreBufferOffsets s t
      (freeParamBuffers hbm m).2 X hX hns
    refine ⟨buf, ⟨h1, ⟨p0, hp0, hdecl0⟩, h3⟩, ?_⟩
    rintro buf2 ⟨_, _, h4⟩
    have h5 := h4 p0 hp0 hdecl0
    rw [h3 p0 hp0 hdecl0] at h5
    simp only [Option.some.injEq] at h5
    exact h5.symm
  · intro hs
    have hnull : StrMap.find (sharedBlocks ignoreBufferOffsets s t
        (freeParamBuffers hbm m).2).paramBlockBuffers X = some none :=
      createParamBlocks_null _ _ _ _ X hs (Or.inl hX)
    refine ⟨hnull, sharedBlocks_count ignoreBufferOffsets s t _, ⟨p0, hp0, hdecl0⟩, ?_⟩
    intro p hp hdecl
    obtain ⟨_, _, _, g4, _⟩ := assignObjects_spec
      (sharedBlocks ignoreBufferOffsets s t (freeParamBuffers hbm m).2).mValidShareableParamBlocks
      (sharedBlocks ignoreBufferOffsets s t (freeParamBuffers hbm m).2).paramBlockBuffers
      (stageObjects (t.passes.map createPassParameters))
      { hbm := (sharedBlocks ignoreBufferOffsets s t (freeParamBuffers hbm m).2).hbm,
        mParamBuffers :=
          (sharedBlocks ignoreBufferOffsets s t (freeParamBuffers hbm m).2).mParamBuffers }
      (stageObjects_created t.passes).2
    have hXv : X ∈ (sharedBlocks ignoreBufferOffsets s t
        (freeParamBuffers hbm m).2).mValidShareableParamBlocks := by
      rw [sharedBlocks_valid_eq]
      exact hX
    rw [o1] at hp
    rw [g4 p hp X hXv hdecl, hnull]
    rfl
  · intro i p hi b hb hsh
    rw [o1] at hi
    have hnd : ∀ q ∈ stageObjects (t.passes.map createPassParameters),
        (StrMap.keys q.paramDesc.paramBlocks).Nodup := by
      intro q hq
      apply hwf
      unfold collectParamDescs
      rw [← (stageObjects_created t.passes).1]
      exact List.mem_map_of_mem _ hq
    obtain ⟨buf, f1, _, _, _, f5, f6⟩ := assignObjects_private _ _ _ _
      (stageObjects_created t.passes).2 hnd
      (sharedBlocks_low ignoreBufferOffsets s t (freeParamBuffers hbm m).2) i p hi X b hb hsh
    rw [← o2] at f5
    refine ⟨buf, f1, f5, ?_⟩
    intro j q k2 hj hne
    rw [o1] at hj
    exact f6 j q k2 hj hne

/-- Witness of the amended C6: on the example shader the vertex and the fragment stage share
the one buffer of `PerMaterial`, and with `PerMaterial` declared as shared by the shader both
are bound to the null pointer. -/
theorem setShader_one_shared_buffer_witness :
    (∃! buf, buf ∈ (setShader false HardwareBufferManager.new Material.new
        (some exampleShader)).m.mParamBuffers ∧
      (∃ p ∈ stageObjects (setShader false HardwareBufferManager.new Material.new
          (some exampleShader)).m.mParametersPerPass,
        DeclaresShareable p.paramDesc "PerMaterial") ∧
      ∀ p ∈ stageObjects (setShader false HardwareBufferManager.new Material.new
          (some exampleShader)).m.mParametersPerPass,
        DeclaresShareable p.paramDesc "PerMaterial" →
        StrMap.find p.paramBlockBuffers "PerMaterial" = some (some buf)) ∧
    (∃ p ∈ stageObjects (setShader false HardwareBufferManager.new Material.new
        (some exampleSharedShader)).m.mParametersPerPass,
      DeclaresShareable p.paramDesc "PerMaterial") ∧
    (∀ p ∈ stageObjects (setShader false HardwareBufferManager.new Material.new
        (some exampleSharedShader)).m.mParametersPerPass,
      DeclaresShareable p.paramDesc "PerMaterial" →
      StrMap.find p.paramBlockBuffers "PerMaterial" = some none) :=
  ⟨(setShader_one_shared_buffer false HardwareBufferManager.new Material.new exampleShader
      { passes := [examplePass] } "PerMaterial" rfl (by decide) (by decide) (by decide)).1
      (by decide),
    ((setShader_one_shared_buffer false HardwareBufferManager.new Material.new
      exampleSharedShader { passes := [examplePass] } "PerMaterial" rfl (by decide) (by decide)
      (by decide)).2.1 (by decide)).2.2⟩

/-- C6 (counterexample). With the block `PerMaterial` declared as shared by the shader,
`setShader` succeeds and keeps `PerMaterial` valid, yet no buffer exists and the vertex stage
object is bound to the null pointer; and with a fragment stage that declares `PerMaterial`
as non-shareable, the fragment stage object is bound to a buffer of its own, not to the one
the vertex stage object is bound to. -/
theorem setShader_one_shared_buffer_counterexample :
    ((setShader false HardwareBufferManager.new Material.new
        (some exampleSharedShader)).exception = none ∧
      "PerMaterial" ∈ (setShader false HardwareBufferManager.new Material.new
        (some exampleSharedShader)).m.mValidShareableParamBlocks ∧
      (setShader false HardwareBufferManager.new Material.new
        (some exampleSharedShader)).m.mParamBuffers = [] ∧
      ((stageObjects (setShader false HardwareBufferManager.new Material.new
        (some exampleSharedShader)).m.mParametersPerPass).map
          (fun p => StrMap.find p.paramBlockBuffers "PerMaterial"))
        = [some none, some none]) ∧
    ((setShader false HardwareBufferManager.new Material.new
        (some exampleMixedShader)).exception = none ∧
      (setShader false HardwareBufferManager.new Material.new
        (some exampleMixedShader)).m.mValidShareableParamBlocks = ["PerMaterial"] ∧
      ((stageObjects (setShader false HardwareBufferManager.new Material.new
        (some exampleMixedShader)).m.mParametersPerPass).map
          (fun p => (p.hasParamBlock "PerMaterial",
            StrMap.find p.paramBlockBuffers "PerMaterial")))
        = [(true, some (some { id := 0, size := 32,
                               usage := some GpuParamBlockUsage.GPBU_STATIC })),
           (true, some (some { id := 1, size := 16, usage := none }))]) := by
  decide

/-- C7 (amended). After a `setShader` that finds a technique and raises nothing, the
ownership list holds one buffer for each valid shareable block that the shader does not
declare as shared, plus one for each block that the descriptor of a present stage parameter
object of a pass declares as non-shareable; each such non-shareable block is bound to a
buffer of the ownership list allocated during the call, whose size is four times the
`blockSize` of the block as the 32-bit size parameter of the buffer manager takes the
product, modulo `2 ^ 32`, and to which no other block of any stage parameter object is
bound. Block names are unique within each descriptor. -/
theorem setShader_buffer_count (ignoreBufferOffsets : Bool) (hbm : HardwareBufferManager)
    (m : Material) (s : Shader) (t : Technique)
    (ht : s.getBestTechnique = some t)
    (hok : (setShader ignoreBufferOffsets hbm m (some s)).exception = none)
    (hwf : ∀ d ∈ collectParamDescs t, (StrMap.keys d.paramBlocks).Nodup) :
    (setShader ignoreBufferOffsets hbm m (some s)).m.mParamBuffers.length =
      ((setShader ignoreBufferOffsets hbm m (some s)).m.mValidShareableParamBlocks.filter
        (fun X => !shaderMarksShared s.paramBlocks X)).length +
      ((stageObjects (setShader ignoreBufferOffsets hbm m (some s)).m.mParametersPerPass).map
        (fun p => nonShareableCount p.paramDesc)).sum ∧
    ∀ (i : Nat) (p : GpuParams), (stageObjects
        (setShader ignoreBufferOffsets hbm m (some s)).m.mParametersPerPass)[i]? = some p →
      ∀ (k : String) (b : GpuParamBlockDesc), (k, b) ∈ p.paramDesc.paramBlocks → b.isShareable = false →
        ∃ buf, StrMap.find p.paramBlockBuffers k = some (some buf) ∧
          buf ∈ (setShader ignoreBufferOffsets hbm m (some s)).m.mParamBuffers ∧
          BufferEvent.created buf ∈
            (setShader ignoreBufferOffsets hbm m (some s)).hbm.log.drop hbm.log.length ∧
          buf.size = (b.blockSize * sizeofUINT32) % 2 ^ 32 ∧
          ∀ (j : Nat) (q : GpuParams) (k2 : String), (stageObjects
              (setShader ignoreBufferOffsets hbm m (some s)).m.mParametersPerPass)[j]? = some q →
            (j ≠ i ∨ k2 ≠ k) → StrMap.find q.paramBlockBuffers k2 ≠ some (some buf) := by
  have hcreated := (setShader_releases_created ignoreBufferOffsets hbm m (some s))
  have hlen := (setShader_alloc ignoreBufferOffsets hbm m (some s)).2
  rw [setShader_resolved ignoreBufferOffsets hbm m s t ht hok] at hcreated hlen ⊢
  simp only at hcreated hlen ⊢
  have hnone : (resolvedValues s t).2 = none := by
    cases he : (resolvedValues s t).2 with
    | none => rfl
    | some e =>
      have h1 := setShader_resolved ignoreBufferOffsets hbm m s t ht hok
      have h2 := (setShader_view ignoreBufferOffsets hbm m (some s))
      rcases h2 with ⟨hsh, _⟩ | ⟨s2, t2, hs2, ht2, _, _, _, h6⟩
      · rcases hsh with h3 | ⟨s3, hs3, ht3⟩
        · cases h3
        · cases hs3
          rw [ht3] at ht
          cases ht
      · cases hs2
        rw [ht2] at ht
        cases ht
        rw [hok, he] at h6
        cases h6
  constructor
  · rw [hlen]
    simp only [allocatedCount, ht, hnone]
    rw [sharedBlocks_valid_eq]
    have hdescs := assignedPasses_descs ignoreBufferOffsets s t (freeParamBuffers hbm m).2
    have hsum : ((stageObjects (assignedPasses ignoreBufferOffsets s t
        (freeParamBuffers hbm m).2).1).map (fun p => nonShareableCount p.paramDesc))
        = (collectParamDescs t).map nonShareableCount := by
      rw [← hdescs, List.map_map]
      rfl
    have hsum2 : ((stageObjects (t.passes.map createPassParameters)).map
        (fun p => nonShareableCount p.paramDesc))
        = (collectParamDescs t).map nonShareableCount := by
      have := (stageObjects_created t.passes).1
      unfold collectParamDescs
      rw [← this, List.map_map]
      rfl
    rw [hsum]
    unfold sharedBufferCount privateBufferCount
    rw [hsum2]
  · intro i p hi k b hmem hsh
    obtain ⟨o1, o2⟩ := assignedPasses_objects ignoreBufferOffsets s t (freeParamBuffers hbm m).2
    rw [o1] at hi
    have hnd : ∀ q ∈ stageObjects (t.passes.map createPassParameters),
        (StrMap.keys q.paramDesc.paramBlocks).Nodup := by
      intro q hq
      apply hwf
      unfold collectParamDescs
      rw [← (stageObjects_created t.passes).1]
      exact List.mem_map_of_mem _ hq
    obtain ⟨buf, f1, _, _, f4, f5, f6⟩ := assignObjects_private _ _ _ _
      (stageObjects_created t.passes).2 hnd
      (sharedBlocks_low ignoreBufferOffsets s t (freeParamBuffers hbm m).2) i p hi k b hmem hsh
    rw [← o2] at f5
    refine ⟨buf, f1, f5, (hcreated buf).2 f5, f4, ?_⟩
    intro j q k2 hj hne
    rw [o1] at hj
    exact f6 j q k2 hj hne

/-- Witness of the amended C7 on the shader with a private fragment block: two buffers, one
shared and one private. -/
theorem setShader_buffer_count_witness :
    (setShader false HardwareBufferManager.new Material.new
      (some exampleMixedShader)).m.mParamBuffers.length = 2 ∧
    (setShader false HardwareBufferManager.new Material.new
      (some exampleMixedShader)).m.mParamBuffers.length =
      ((setShader false HardwareBufferManager.new Material.new
          (some exampleMixedShader)).m.mValidShareableParamBlocks.filter
        (fun X => !shaderMarksShared exampleMixedShader.paramBlocks X)).length +
      ((stageObjects (setShader false HardwareBufferManager.new Material.new
          (some exampleMixedShader)).m.mParametersPerPass).map
        (fun p => nonShareableCount p.paramDesc)).sum :=
  ⟨by decide,
    (setShader_buffer_count false HardwareBufferManager.new Material.new exampleMixedShader
      { passes := [exampleMixedPass] } rfl (by decide) (by decide)).1⟩

/-- C7 (counterexample). With the block `PerMaterial` declared as shared by the shader,
`setShader` succeeds with one valid shareable block and no non-shareable block, and the
ownership list is empty. -/
theorem setShader_buffer_count_counterexample :
    (setShader false HardwareBufferManager.new Material.new
      (some exampleSharedShader)).exception = none ∧
    (setShader false HardwareBufferManager.new Material.new
      (some exampleSharedShader)).m.mValidShareableParamBlocks.length = 1 ∧
    ((stageObjects (setShader false HardwareBufferManager.new Material.new
        (some exampleSharedShader)).m.mParametersPerPass).map
      (fun p => nonShareableCount p.paramDesc)).sum = 0 ∧
    (setShader false HardwareBufferManager.new Material.new
      (some exampleSharedShader)).m.mParamBuffers.length = 0 := by
  decide

theorem throwIfNotInitialized_eq_none (m : Material) :
    throwIfNotInitialized m = none ↔ Resolved m := by
  unfold throwIfNotInitialized Resolved
  cases m.mShader <;> cases m.mBestTechnique <;> simp

/-- A setter called in a state that fails the state check raises and changes nothing. -/
theorem applySetter_notInitialized (m : Material) (call : SetterCall) (e : CmException)
    (h : throwIfNotInitialized m = some e) :
    applySetter m call = { m := m, exception := some e, undefined := false } := by
  cases call <;>
    simp [applySetter, setTexture, setSamplerState, setFloat, setColor, setVec2, setVec3,
      setVec4, setMat3, setMat4, setStructData, h]

/-- A setter called for a name that the validated-parameter map does not have returns and
changes nothing. -/
theorem applySetter_absent (m : Material) (call : SetterCall)
    (h : throwIfNotInitialized m = none) (hname : StrMap.find m.mValidParams call.name = none) :
    applySetter m call = { m := m, exception := none, undefined := false } := by
  cases call <;>
    simp_all [applySetter, setTexture, setSamplerState, setFloat, setColor, setVec2, setVec3,
      setVec4, setMat3, setMat4, setStructData, SetterCall.name]

/-- C13. On a material that passes the state check, each of the ten setters called for a
name that is absent from the validated-parameter map returns without an exception and leaves
the whole material as it was: no cache entry is created or altered and no per-pass
parameter object is written. -/
theorem setter_absent_name_ignored (m : Material) (call : SetterCall) (hres : Resolved m)
    (hname : StrMap.find m.mValidParams call.name = none) :
    (applySetter m call).exception = none ∧ (applySetter m call).undefined = false ∧
    (applySetter m call).m = m := by
  rw [applySetter_absent m call ((throwIfNotInitialized_eq_none m).2 hres) hname]
  exact ⟨rfl, rfl, rfl⟩

/-- Witness of C13: `setFloat` for a name the shader of `gloss` and `tintColor` does not
declare. -/
theorem setter_absent_name_ignored_witness :
    (applySetter exampleResolved (SetterCall.setFloat "roughness" floatOne 0)).exception = none ∧
    (applySetter exampleResolved (SetterCall.setFloat "roughness" floatOne 0)).undefined = false ∧
    (applySetter exampleResolved (SetterCall.setFloat "roughness" floatOne 0)).m
      = exampleResolved :=
  setter_absent_name_ignored exampleResolved (SetterCall.setFloat "roughness" floatOne 0)
    (by decide) (by decide)

theorem throwIfNotInitialized_fails (m : Material)
    (h : m.mShader = none ∨ m.mBestTechnique = none) :
    ∃ e, throwIfNotInitialized m = some e := by
  unfold throwIfNotInitialized
  rcases h with h | h
  · rw [h]
    exact ⟨_, rfl⟩
  · rw [h]
    cases m.mShader <;> exact ⟨_, rfl⟩

/-- After `setShader` without a shader or with a shader that has no supported technique, no
shader is set or no best technique is recorded. -/
theorem setShader_unresolved (flag : Bool) (hbm : HardwareBufferManager) (m : Material)
    (shader : Option Shader)
    (h : shader = none ∨ ∃ s, shader = some s ∧ s.getBestTechnique = none) :
    (setShader flag hbm m shader).m.mShader = none ∨
      (setShader flag hbm m shader).m.mBestTechnique = none := by
  rcases setShader_cases flag hbm m shader with ⟨hs, heq⟩ | ⟨s, hs, ht, heq⟩ | ⟨s, t, hs, ht, heq⟩
  · rw [heq]
    exact Or.inl rfl
  · rw [heq]
    exact Or.inr rfl
  · exfalso
    rcases h with h | ⟨s2, h2, h3⟩
    · rw [h] at hs
      cases hs
    · rw [h2] at hs
      cases hs
      rw [h3] at ht
      cases ht

/-- C16. On a material that has no shader set or no best technique recorded, which is what
`setShader` leaves without a shader or with a shader that has no supported technique, each
of the ten setters raises an exception for every argument and leaves the material as it
was, and `getNumPasses` raises an exception; on a material with a shader and a best
technique the state check raises nothing. -/
theorem unresolved_calls_fail (m : Material) :
    (m.mShader = none ∨ m.mBestTechnique = none →
      (∀ call, ∃ e, (applySetter m call).exception = some e ∧ (applySetter m call).m = m
        ∧ (applySetter m call).undefined = false) ∧
      ∃ e, getNumPasses m = Result.raised e) ∧
    (∀ (ignoreBufferOffsets : Bool) (hbm : HardwareBufferManager) (shader : Option Shader),
      (shader = none ∨ ∃ s, shader = some s ∧ s.getBestTechnique = none) →
      (setShader ignoreBufferOffsets hbm m shader).m.mShader = none ∨
        (setShader ignoreBufferOffsets hbm m shader).m.mBestTechnique = none) ∧
    (Resolved m → throwIfNotInitialized m = none) := by
  refine ⟨?_, ?_, (throwIfNotInitialized_eq_none m).2⟩
  · intro h
    obtain ⟨e, he⟩ := throwIfNotInitialized_fails m h
    refine ⟨?_, e, ?_⟩
    · intro call
      rw [applySetter_notInitialized m call e he]
      exact ⟨e, rfl, rfl, rfl⟩
    · unfold getNumPasses
      rw [he]
  · intro flag hbm shader h
    exact setShader_unresolved flag hbm m shader h

/-- Witness of C16: on a new material and on the material whose shader has no supported
technique `setColor` raises and changes nothing. -/
theorem unresolved_calls_fail_witness :
    (∃ e, (applySetter Material.new (SetterCall.setColor "tintColor"
        { r := floatOne, g := 0, b := 0, a := floatOne } 0)).exception = some e ∧
      (applySetter Material.new (SetterCall.setColor "tintColor"
        { r := floatOne, g := 0, b := 0, a := floatOne } 0)).m = Material.new ∧
      (applySetter Material.new (SetterCall.setColor "tintColor"
        { r := floatOne, g := 0, b := 0, a := floatOne } 0)).undefined = false) ∧
    (∃ e, (applySetter exampleUnsupported (SetterCall.setColor "tintColor"
        { r := floatOne, g := 0, b := 0, a := floatOne } 0)).exception = some e ∧
      (applySetter exampleUnsupported (SetterCall.setColor "tintColor"
        { r := floatOne, g := 0, b := 0, a := floatOne } 0)).m = exampleUnsupported ∧
      (applySetter exampleUnsupported (SetterCall.setColor "tintColor"
        { r := floatOne, g := 0, b := 0, a := floatOne } 0)).undefined = false) ∧
    throwIfNotInitialized exampleResolved = none :=
  ⟨((unresolved_calls_fail Material.new).1 (Or.inl rfl)).1 _,
    ((unresolved_calls_fail exampleUnsupported).1 (Or.inr (by decide))).1 _,
    (unresolved_calls_fail exampleResolved).2.2 (by decide)⟩

/-- C14. On a material that passes the state check, for a name of the validated-parameter
map that the shader declares as a data parameter, `setStructData` with a size different from
the declared element size raises an invalid-parameters exception and leaves the material as
it was, so that no per-pass parameter object is written and the cached struct value and
every other cached value stay; with the declared element size it does not raise that
exception. -/
theorem setStructData_size_check (m : Material) (shader : Shader) (name gpuVarName : String)
    (desc : SHADER_DATA_PARAM_DESC) (value : List Nat) (size arrayIdx : Nat)
    (hres : Resolved m) (hshader : m.mShader = some shader)
    (hvalid : StrMap.find m.mValidParams name = some gpuVarName)
    (hdesc : StrMap.find shader.dataParams name = some desc) :
    (size ≠ desc.elementSize →
      (∃ msg, (setStructData m name value size arrayIdx).exception
        = some (CmException.InvalidParametersException msg)) ∧
      (setStructData m name value size arrayIdx).m = m ∧
      (setStructData m name value size arrayIdx).undefined = false) ∧
    (size = desc.elementSize →
      ∀ msg, (setStructData m name value size arrayIdx).exception
        ≠ some (CmException.InvalidParametersException msg)) := by
  have hinit := (throwIfNotInitialized_eq_none m).2 hres
  constructor
  · intro hne
    have hne2 : ¬ desc.elementSize = size := fun h => hne h.symm
    simp [setStructData, hinit, hvalid, hshader, Shader.getDataParamDesc, hdesc, hne2]
  · intro heq msg
    simp [setStructData, hinit, hvalid, hshader, Shader.getDataParamDesc, hdesc, heq]

/-- Witness of C14 on a struct parameter of eight bytes. -/
theorem setStructData_size_check_witness :
    ((∃ msg, (setStructData exampleStructResolved "light" [1, 2, 3, 4] 4 0).exception
        = some (CmException.InvalidParametersException msg)) ∧
      (setStructData exampleStructResolved "light" [1, 2, 3, 4] 4 0).m
        = exampleStructResolved ∧
      (setStructData exampleStructResolved "light" [1, 2, 3, 4] 4 0).undefined = false) ∧
    ∀ msg, (setStructData exampleStructResolved "light" [1, 2, 3, 4, 5, 6, 7, 8] 8 0).exception
      ≠ some (CmException.InvalidParametersException msg) :=
  ⟨(setStructData_size_check exampleStructResolved exampleStructShader "light" "light"
      exampleLightDecl [1, 2, 3, 4] 4 0 (by decide) (by decide) (by decide) (by decide)).1
      (by decide),
    (setStructData_size_check exampleStructResolved exampleStructShader "light" "light"
      exampleLightDecl [1, 2, 3, 4, 5, 6, 7, 8] 8 0 (by decide) (by decide) (by decide)
      (by decide)).2 (by decide)⟩

/-- After a call of `setShader` that finds a technique and raises nothing, `getPass` and
`getPassParameters` return the pass and the per-pass parameter set of every index below the
number of passes, the list of per-pass parameter sets is as long as the list of passes, and
both raise an invalid-parameters exception at every other index. -/
theorem getPass_resolved (flag : Bool) (hbm : HardwareBufferManager) (m : Material)
    (s : Shader) (t : Technique) (ht : s.getBestTechnique = some t)
    (hok : (setShader flag hbm m (some s)).exception = none) (passIdx : Nat) :
    (setShader flag hbm m (some s)).m.mParametersPerPass.length = t.passes.length ∧
    (∀ (pass : Pass), t.passes[passIdx]? = some pass →
      getPass (setShader flag hbm m (some s)).m passIdx = Result.ok pass ∧
      ∃ params, (setShader flag hbm m (some s)).m.mParametersPerPass[passIdx]? = some params ∧
        getPassParameters (setShader flag hbm m (some s)).m passIdx = Result.ok params) ∧
    (t.passes.length ≤ passIdx →
      getPass (setShader flag hbm m (some s)).m passIdx
        = Result.raised (CmException.InvalidParametersException "Invalid pass index.") ∧
      getPassParameters (setShader flag hbm m (some s)).m passIdx
        = Result.raised (CmException.InvalidParametersException "Invalid pass index.")) := by
  have hlen : (setShader flag hbm m (some s)).m.mParametersPerPass.length = t.passes.length := by
    rcases setShader_view flag hbm m (some s) with ⟨h, _⟩ | ⟨s2, t2, hs, ht2, _, _, hl, he⟩
    · rcases h with h | ⟨s2, hs, ht2⟩
      · cases h
      · cases hs
        rw [ht2] at ht
        cases ht
    · cases hs
      rw [ht2] at ht
      cases ht
      rw [hok] at he
      rw [hl, if_pos he.symm]
  have hsh : (setShader flag hbm m (some s)).m.mShader = some s := by
    rw [setShader_resolved flag hbm m s t ht hok]
  refine ⟨hlen, ?_, ?_⟩
  · intro pass hpass
    have hlt : passIdx < t.passes.length := by
      rcases Nat.lt_or_ge passIdx t.passes.length with h | h
      · exact h
      · rw [List.getElem?_eq_none h] at hpass
        cases hpass
    constructor
    · unfold getPass
      rw [hsh]
      simp [ht, Technique.getNumPasses, Nat.not_le.2 hlt, hpass]
    · have hlt2 : passIdx < (setShader flag hbm m (some s)).m.mParametersPerPass.length := by
        rw [hlen]
        exact hlt
      refine ⟨(setShader flag hbm m (some s)).m.mParametersPerPass[passIdx],
        List.getElem?_eq_getElem hlt2, ?_⟩
      unfold getPassParameters
      simp [Nat.not_le.2 hlt2, List.getElem?_eq_getElem hlt2]
  · intro hge
    constructor
    · unfold getPass
      rw [hsh]
      simp [ht, Technique.getNumPasses, hge]
    · unfold getPassParameters
      rw [hlen]
      simp [hge]

/-- C17. On a new material and on a material whose shader has no supported technique
`getPass` raises no exception at any index: it has no state check, unlike `getNumPasses`,
and reads the missing shader or the missing technique. -/
theorem getPass_unresolved_reads_null (passIdx : Nat) :
    getPass Material.new passIdx = Result.undefined ∧
    getPass exampleUnsupported passIdx = Result.undefined ∧
    (∃ e, getNumPasses Material.new = Result.raised e) ∧
    (∃ e, getNumPasses exampleUnsupported = Result.raised e) :=
  ⟨rfl, rfl, ⟨_, rfl⟩, ⟨_, rfl⟩⟩

theorem writeCache_hit {T : Type} (cache : StrMap (List T)) (name : String) (arrayIdx : Nat)
    (value : T) (arr : List T) (h : StrMap.find cache name = some arr)
    (hlt : arrayIdx < arr.length) :
    writeCache cache name arrayIdx value
      = (StrMap.insert name (arr.set arrayIdx value) cache, false) := by
  unfold writeCache
  simp [h, hlt]

theorem getCached_writeCache_self {T : Type} (cache : StrMap (List T)) (name : String)
    (arrayIdx : Nat) (value : T) (arr : List T) (h : StrMap.find cache name = some arr)
    (hlt : arrayIdx < arr.length) :
    getCached (writeCache cache name arrayIdx value).1 name arrayIdx = Result.ok value := by
  rw [writeCache_hit cache name arrayIdx value arr h hlt]
  unfold getCached
  simp [StrMap.find_insert_self, hlt]

theorem getCached_writeCache_other {T : Type} (cache : StrMap (List T)) (name : String)
    (arrayIdx : Nat) (value : T) (arr : List T) (h : StrMap.find cache name = some arr)
    (hlt : arrayIdx < arr.length) (name2 : String) (arrayIdx2 : Nat)
    (hne : name2 ≠ name ∨ arrayIdx2 ≠ arrayIdx) :
    getCached (writeCache cache name arrayIdx value).1 name2 arrayIdx2
      = getCached cache name2 arrayIdx2 := by
  rw [writeCache_hit cache name arrayIdx value arr h hlt]
  unfold getCached
  by_cases hn : name2 = name
  · subst hn
    have hi : arrayIdx ≠ arrayIdx2 := by
      rcases hne with hne | hne
      · exact absurd rfl hne
      · exact fun h2 => hne h2.symm
    simp [StrMap.find_insert_self, h, List.getElem?_set_ne hi]
  · rw [StrMap.find_insert_ne cache name name2 _ hn]

/-- The part of the round trip that the seven typed setters share. -/
theorem writeCache_round_trip {T : Type} (cache : StrMap (List T)) (name : String)
    (arrayIdx : Nat) (value : T) (arr : List T) (h : StrMap.find cache name = some arr)
    (hlt : arrayIdx < arr.length) :
    (writeCache cache name arrayIdx value).2 = false ∧
    getCached (writeCache cache name arrayIdx value).1 name arrayIdx = Result.ok value ∧
    ∀ (name2 : String) (arrayIdx2 : Nat), name2 ≠ name ∨ arrayIdx2 ≠ arrayIdx →
      getCached (writeCache cache name arrayIdx value).1 name2 arrayIdx2
        = getCached cache name2 arrayIdx2 :=
  ⟨by rw [writeCache_hit cache name arrayIdx value arr h hlt],
    getCached_writeCache_self cache name arrayIdx value arr h hlt,
    getCached_writeCache_other cache name arrayIdx value arr h hlt⟩

/-- C11. On a material that passes the state check, for a name of the validated-parameter
map that has a cached float array and an index below its length, `setFloat` raises nothing,
writes inside the array, `getFloat` at the same name and index then returns the value
written, `getFloat` at every other name or index returns what it returned before, and the
validated-parameter map and the other caches are as before. The same holds for `setVec2`,
`setVec3`, `setVec4`, `setMat3`, `setMat4` with their getters and caches, and for `setColor`
read back by `getVec4` as the vector of the four channels. -/
theorem set_get_round_trip (m : Material) (name gpuVarName : String) (arrayIdx : Nat)
    (hres : Resolved m) (hvalid : StrMap.find m.mValidParams name = some gpuVarName) :
    (∀ (arr : List float) (v : float),
      StrMap.find m.mFloatValues name = some arr → arrayIdx < arr.length →
      (setFloat m name v arrayIdx).exception = none ∧
      (setFloat m name v arrayIdx).undefined = false ∧
      getFloat (setFloat m name v arrayIdx).m name arrayIdx = Result.ok v ∧
      (∀ (name2 : String) (arrayIdx2 : Nat), name2 ≠ name ∨ arrayIdx2 ≠ arrayIdx →
        getFloat (setFloat m name v arrayIdx).m name2 arrayIdx2 = getFloat m name2 arrayIdx2) ∧
      (setFloat m name v arrayIdx).m.toMaterialValues = { m.toMaterialValues with
        mFloatValues := (setFloat m name v arrayIdx).m.mFloatValues }) ∧
    (∀ (arr : List Vector2) (v : Vector2),
      StrMap.find m.mVec2Values name = some arr → arrayIdx < arr.length →
      (setVec2 m name v arrayIdx).exception = none ∧
      (setVec2 m name v arrayIdx).undefined = false ∧
      getVec2 (setVec2 m name v arrayIdx).m name arrayIdx = Result.ok v ∧
      (∀ (name2 : String) (arrayIdx2 : Nat), name2 ≠ name ∨ arrayIdx2 ≠ arrayIdx →
        getVec2 (setVec2 m name v arrayIdx).m name2 arrayIdx2 = getVec2 m name2 arrayIdx2) ∧
      (setVec2 m name v arrayIdx).m.toMaterialValues = { m.toMaterialValues with
        mVec2Values := (setVec2 m name v arrayIdx).m.mVec2Values }) ∧
    (∀ (arr : List Vector3) (v : Vector3),
      StrMap.find m.mVec3Values name = some arr → arrayIdx < arr.length →
      (setVec3 m name v arrayIdx).exception = none ∧
      (setVec3 m name v arrayIdx).undefined = false ∧
      getVec3 (setVec3 m name v arrayIdx).m name arrayIdx = Result.ok v ∧
      (∀ (name2 : String) (arrayIdx2 : Nat), name2 ≠ name ∨ arrayIdx2 ≠ arrayIdx →
        getVec3 (setVec3 m name v arrayIdx).m name2 arrayIdx2 = getVec3 m name2 arrayIdx2) ∧
      (setVec3 m name v arrayIdx).m.toMaterialValues = { m.toMaterialValues with
        mVec3Values := (setVec3 m name v arrayIdx).m.mVec3Values }) ∧
    (∀ (arr : List Vector4) (v : Vector4),
      StrMap.find m.mVec4Values name = some arr → arrayIdx < arr.length →
      (setVec4 m name v arrayIdx).exception = none ∧
      (setVec4 m name v arrayIdx).undefined = false ∧
      getVec4 (setVec4 m name v arrayIdx).m name arrayIdx = Result.ok v ∧
      (∀ (name2 : String) (arrayIdx2 : Nat), name2 ≠ name ∨ arrayIdx2 ≠ arrayIdx →
        getVec4 (setVec4 m name v arrayIdx).m name2 arrayIdx2 = getVec4 m name2 arrayIdx2) ∧
      (setVec4 m name v arrayIdx).m.toMaterialValues = { m.toMaterialValues with
        mVec4Values := (setVec4 m name v arrayIdx).m.mVec4Values }) ∧
    (∀ (arr : List Matrix3) (v : Matrix3),
      StrMap.find m.mMat3Values name = some arr → arrayIdx < arr.length →
      (setMat3 m name v arrayIdx).exception = none ∧
      (setMat3 m name v arrayIdx).undefined = false ∧
      getMat3 (setMat3 m name v arrayIdx).m name arrayIdx = Result.ok v ∧
      (∀ (name2 : String) (arrayIdx2 : Nat), name2 ≠ name ∨ arrayIdx2 ≠ arrayIdx →
        getMat3 (setMat3 m name v arrayIdx).m name2 arrayIdx2 = getMat3 m name2 arrayIdx2) ∧
      (setMat3 m name v arrayIdx).m.toMaterialValues = { m.toMaterialValues with
        mMat3Values := (setMat3 m name v arrayIdx).m.mMat3Values }) ∧
    (∀ (arr : List Matrix4) (v : Matrix4),
      StrMap.find m.mMat4Values name = some arr → arrayIdx < arr.length →
      (setMat4 m name v arrayIdx).exception = none ∧
      (setMat4 m name v arrayIdx).undefined = false ∧
      getMat4 (setMat4 m name v arrayIdx).m name arrayIdx = Result.ok v ∧
      (∀ (name2 : String) (arrayIdx2 : Nat), name2 ≠ name ∨ arrayIdx2 ≠ arrayIdx →
        getMat4 (setMat4 m name v arrayIdx).m name2 arrayIdx2 = getMat4 m name2 arrayIdx2) ∧
      (setMat4 m name v arrayIdx).m.toMaterialValues = { m.toMaterialValues with
        mMat4Values := (setMat4 m name v arrayIdx).m.mMat4Values }) ∧
    (∀ (arr : List Vector4) (c : Color),
      StrMap.find m.mVec4Values name = some arr → arrayIdx < arr.length →
      (setColor m name c arrayIdx).exception = none ∧
      (setColor m name c arrayIdx).undefined = false ∧
      getVec4 (setColor m name c arrayIdx).m name arrayIdx
        = Result.ok { x := c.r, y := c.g, z := c.b, w := c.a } ∧
      (∀ (name2 : String) (arrayIdx2 : Nat), name2 ≠ name ∨ arrayIdx2 ≠ arrayIdx →
        getVec4 (setColor m name c arrayIdx).m name2 arrayIdx2 = getVec4 m name2 arrayIdx2) ∧
      (setColor m name c arrayIdx).m.toMaterialValues = { m.toMaterialValues with
        mVec4Values := (setColor m name c arrayIdx).m.mVec4Values }) := by
  have hinit := (throwIfNotInitialized_eq_none m).2 hres
  refine ⟨?_, ?_, ?_, ?_, ?_, ?_, ?_⟩
  · intro arr v h hlt
    obtain ⟨h1, h2, h3⟩ := writeCache_round_trip m.mFloatValues name arrayIdx v arr h hlt
    simp only [setFloat, hinit, hvalid, getFloat, setParam]
    exact ⟨trivial, h1, h2, h3, trivial⟩
  · intro arr v h hlt
    obtain ⟨h1, h2, h3⟩ := writeCache_round_trip m.mVec2Values name arrayIdx v arr h hlt
    simp only [setVec2, hinit, hvalid, getVec2, setParam]
    exact ⟨trivial, h1, h2, h3, trivial⟩
  · intro arr v h hlt
    obtain ⟨h1, h2, h3⟩ := writeCache_round_trip m.mVec3Values name arrayIdx v arr h hlt
    simp only [setVec3, hinit, hvalid, getVec3, setParam]
    exact ⟨trivial, h1, h2, h3, trivial⟩
  · intro arr v h hlt
    obtain ⟨h1, h2, h3⟩ := writeCache_round_trip m.mVec4Values name arrayIdx v arr h hlt
    simp only [setVec4, hinit, hvalid, getVec4, setParam]
    exact ⟨trivial, h1, h2, h3, trivial⟩
  · intro arr v h hlt
    obtain ⟨h1, h2, h3⟩ := writeCache_round_trip m.mMat3Values name arrayIdx v arr h hlt
    simp only [setMat3, hinit, hvalid, getMat3, setParam]
    exact ⟨trivial, h1, h2, h3, trivial⟩
  · intro arr v h hlt
    obtain ⟨h1, h2, h3⟩ := writeCache_round_trip m.mMat4Values name arrayIdx v arr h hlt
    simp only [setMat4, hinit, hvalid, getMat4, setParam]
    exact ⟨trivial, h1, h2, h3, trivial⟩
  · intro arr c h hlt
    obtain ⟨h1, h2, h3⟩ := writeCache_round_trip m.mVec4Values name arrayIdx
      { x := c.r, y := c.g, z := c.b, w := c.a } arr h hlt
    simp only [setColor, hinit, hvalid, getVec4, setParam]
    exact ⟨trivial, h1, h2, h3, trivial⟩

/-- Witness of C11: `setColor` of red on `tintColor` of the resolved example, read back by
`getVec4`. -/
theorem set_get_round_trip_witness :
    (setColor exampleResolved "tintColor" { r := floatOne, g := 0, b := 0, a := floatOne }
      0).exception = none ∧
    (setColor exampleResolved "tintColor" { r := floatOne, g := 0, b := 0, a := floatOne }
      0).undefined = false ∧
    getVec4 (setColor exampleResolved "tintColor"
      { r := floatOne, g := 0, b := 0, a := floatOne } 0).m "tintColor" 0
      = Result.ok { x := floatOne, y := 0, z := 0, w := floatOne } :=
  have h := (set_get_round_trip exampleResolved "tintColor" "tintColor" 0 (by decide)
    (by decide)).2.2.2.2.2.2 [{ x := 0, y := 0, z := 0, w := 0 }]
    { r := floatOne, g := 0, b := 0, a := floatOne } (by decide) (by decide)
  ⟨h.1, h.2.1, h.2.2.1⟩

theorem toList_update (f : GpuParams → GpuParams) (params : PassParameters) :
    (PassParameters.update f params).toList = params.toList.map (Option.map f) := by
  simp [PassParameters.update, PassParameters.toList]

theorem filterMap_id_map_option {α : Type} (f : α → α) (l : List (Option α)) :
    (l.map (Option.map f)).filterMap id = (l.filterMap id).map f := by
  induction l with
  | nil => rfl
  | cons x rest ih =>
    cases x with
    | none => simpa using ih
    | some a => simpa using ih

/-- The two nested loops of the setters apply the body to every object that is present, in
place. -/
theorem stageObjects_forEachParam (f : GpuParams → GpuParams) (passes : List PassParameters) :
    stageObjects (forEachParam f passes) = (stageObjects passes).map f := by
  unfold stageObjects forEachParam
  rw [← filterMap_id_map_option]
  congr 1
  induction passes with
  | nil => rfl
  | cons p rest ih =>
    simp only [List.map_cons, List.flatMap_cons, List.map_append, ih, toList_update]

/-- What the loops of a setter leave in the objects that are present: the object at each
position is the body applied to the object that was there. -/
theorem forEachParam_pointwise (f : GpuParams → GpuParams) (passes : List PassParameters)
    (i : Nat) (p : GpuParams) (hp : (stageObjects passes)[i]? = some p) :
    (stageObjects (forEachParam f passes))[i]? = some (f p) := by
  rw [stageObjects_forEachParam, List.getElem?_map, hp]
  rfl

theorem getParam_setParam (p : GpuParams) (name : String) (value : ParamValue)
    (arrayIdx : Nat) : (p.setParam name value arrayIdx).getParam name arrayIdx = some value := by
  simp [GpuParams.setParam, GpuParams.getParam]

/-- The propagation of `setTexture`, `setSamplerState` and `setStructData` on a material
that passes the state check, for a name of the validated-parameter map with the GPU variable
`gpuVarName`: the object at each position of the per-pass parameter sets holds the value
for the variable when its descriptor declares the variable with the kind of the setter, and
is as before when it does not; the texture and the sampler state are cached under the name
whatever the objects declare; the struct is cached at the index when the index is below the
length of the cached array. -/
theorem setter_propagation (m : Material) (name gpuVarName : String) (hres : Resolved m)
    (hvalid : StrMap.find m.mValidParams name = some gpuVarName) :
    (∀ (v : HTexture),
      (setTexture m name v).exception = none ∧ (setTexture m name v).undefined = false ∧
      StrMap.find (setTexture m name v).m.mTextureValues name = some v ∧
      ∀ (i : Nat) (p : GpuParams), (stageObjects m.mParametersPerPass)[i]? = some p →
        ∃ q, (stageObjects (setTexture m name v).m.mParametersPerPass)[i]? = some q ∧
          (p.hasTexture gpuVarName = true → StrMap.find q.textures gpuVarName = some v) ∧
          (p.hasTexture gpuVarName = false → q = p)) ∧
    (∀ (v : HSamplerState),
      (setSamplerState m name v).exception = none ∧
      (setSamplerState m name v).undefined = false ∧
      StrMap.find (setSamplerState m name v).m.mSamplerValues name = some v ∧
      ∀ (i : Nat) (p : GpuParams), (stageObjects m.mParametersPerPass)[i]? = some p →
        ∃ q, (stageObjects (setSamplerState m name v).m.mParametersPerPass)[i]? = some q ∧
          (p.hasSamplerState gpuVarName = true →
            StrMap.find q.samplerStates gpuVarName = some v) ∧
          (p.hasSamplerState gpuVarName = false → q = p)) ∧
    (∀ (shader : Shader) (desc : SHADER_DATA_PARAM_DESC) (value : List Nat) (arrayIdx : Nat),
      m.mShader = some shader → StrMap.find shader.dataParams name = some desc →
      (setStructData m name value desc.elementSize arrayIdx).exception = none ∧
      (∀ (arr : List StructData), StrMap.find m.mStructValues name = some arr →
        arrayIdx < arr.length →
        (setStructData m name value desc.elementSize arrayIdx).undefined = false ∧
        getStructData (setStructData m name value desc.elementSize arrayIdx).m name arrayIdx
          = Result.ok { data := value, size := desc.elementSize }) ∧
      ∀ (i : Nat) (p : GpuParams), (stageObjects m.mParametersPerPass)[i]? = some p →
        ∃ q, (stageObjects
            (setStructData m name value desc.elementSize arrayIdx).m.mParametersPerPass)[i]?
            = some q ∧
          (p.hasParam gpuVarName = true → q.getParam gpuVarName arrayIdx
            = some (ParamValue.struct value desc.elementSize)) ∧
          (p.hasParam gpuVarName = false → q = p)) := by
  have hinit := (throwIfNotInitialized_eq_none m).2 hres
  refine ⟨?_, ?_, ?_⟩
  · intro v
    simp only [setTexture, hinit, hvalid]
    refine ⟨trivial, trivial, StrMap.find_insert_self _ _ _, ?_⟩
    intro i p hp
    refine ⟨_, forEachParam_pointwise _ _ i p hp, ?_, ?_⟩
    · intro h
      simp [h, GpuParams.setTexture, StrMap.find_insert_self]
    · intro h
      simp [h]
  · intro v
    simp only [setSamplerState, hinit, hvalid]
    refine ⟨trivial, trivial, StrMap.find_insert_self _ _ _, ?_⟩
    intro i p hp
    refine ⟨_, forEachParam_pointwise _ _ i p hp, ?_, ?_⟩
    · intro h
      simp [h, GpuParams.setSamplerState, StrMap.find_insert_self]
    · intro h
      simp [h]
  · intro shader desc value arrayIdx hshader hdesc
    simp only [setStructData, hinit, hvalid, hshader, Shader.getDataParamDesc, hdesc, ne_eq,
      not_true_eq_false, if_false]
    refine ⟨trivial, ?_, ?_⟩
    · intro arr harr hlt
      obtain ⟨h1, h2, _⟩ := writeCache_round_trip m.mStructValues name arrayIdx
        { data := value, size := desc.elementSize } arr harr hlt
      exact ⟨h1, h2⟩
    · intro i p hp
      refine ⟨_, forEachParam_pointwise _ _ i p hp, ?_, ?_⟩
      · intro h
        simp [h, getParam_setParam]
      · intro h
        simp [h]

/-- C12. The cache write of `setStructData` is outside the cached array when the index is
not below its length: on the material resolved for the struct `light` of array size one, the
call with the declared size and the index one raises nothing, writes outside the array of
one element, and the cache has no element at that index afterwards. -/
theorem setStructData_writes_outside_cache :
    (setStructData exampleStructResolved "light" [1, 2, 3, 4, 5, 6, 7, 8] 8 1).exception = none ∧
    (setStructData exampleStructResolved "light" [1, 2, 3, 4, 5, 6, 7, 8] 8 1).undefined = true ∧
    StrMap.find exampleStructResolved.mStructValues "light" = some [default] ∧
    getStructData (setStructData exampleStructResolved "light" [1, 2, 3, 4, 5, 6, 7, 8]
      8 1).m "light" 1 ≠ Result.ok { data := [1, 2, 3, 4, 5, 6, 7, 8], size := 8 } := by
  decide

theorem mem_cachedNames (v : MaterialValues) (x : String) :
    x ∈ cachedNames v ↔
      x ∈ StrMap.keys v.mFloatValues ∨ x ∈ StrMap.keys v.mVec2Values ∨
      x ∈ StrMap.keys v.mVec3Values ∨ x ∈ StrMap.keys v.mVec4Values ∨
      x ∈ StrMap.keys v.mMat3Values ∨ x ∈ StrMap.keys v.mMat4Values ∨
      x ∈ StrMap.keys v.mStructValues ∨ x ∈ StrMap.keys v.mTextureValues ∨
      x ∈ StrMap.keys v.mSamplerValues := by
  simp only [cachedNames, List.mem_append, or_assoc]

/-- A step that enters `key` in the validated-parameter map and touches the caches at `key`
only keeps the invariant. -/
theorem cachesValidated_step (v w : MaterialValues) (key : String) (h : CachesValidated v)
    (hvalid : ∀ x, x = key ∨ x ∈ StrMap.keys v.mValidParams → x ∈ StrMap.keys w.mValidParams)
    (hcache : ∀ x, x ∈ cachedNames w → x = key ∨ x ∈ cachedNames v) : CachesValidated w := by
  intro x hx
  rcases hcache x hx with h1 | h1
  · exact hvalid x (Or.inl h1)
  · exact hvalid x (Or.inr (h x h1))

theorem mem_keys_resizeEntry {T : Type} [Inhabited T] (cache : StrMap (List T))
    (key x : String) (n : Nat) :
    x ∈ StrMap.keys (resizeEntry cache key n) ↔ x = key ∨ x ∈ StrMap.keys cache := by
  unfold resizeEntry
  exact StrMap.mem_keys_insert _ _ _ _

theorem mem_keys_writeCache {T : Type} (cache : StrMap (List T)) (name x : String)
    (arrayIdx : Nat) (value : T) :
    x ∈ StrMap.keys (writeCache cache name arrayIdx value).1 ↔
      x = name ∨ x ∈ StrMap.keys cache := by
  unfold writeCache
  simp only
  split
  · exact StrMap.mem_keys_insert _ _ _ _
  · exact StrMap.mem_keys_insert _ _ _ _

theorem createDataParamMappings_validated (vd : StrMap GpuParamDataDesc) (pb : StrMap String)
    (decls : StrMap SHADER_DATA_PARAM_DESC) (v : MaterialValues) (h : CachesValidated v) :
    CachesValidated (createDataParamMappings vd pb decls v).1 := by
  induction decls generalizing v with
  | nil => exact h
  | cons e rest ih =>
    obtain ⟨key, desc⟩ := e
    rw [createDataParamMappings]
    split
    · exact ih v h
    · split
      · exact ih v h
      · split
        · exact ih v h
        · split
          · exact h
          · have hv1 : CachesValidated
                { v with mValidParams := StrMap.insert key desc.gpuVariableName v.mValidParams } :=
              cachesValidated_step v _ key h
                (fun x hx => (StrMap.mem_keys_insert _ _ _ _).2 hx)
                (fun x hx => Or.inr hx)
            simp only
            split
            iterate 7
              apply ih
              apply cachesValidated_step v _ key h
              · intro x hx
                exact (StrMap.mem_keys_insert _ _ _ _).2 hx
              · intro x hx
                simp only [mem_cachedNames, mem_keys_resizeEntry] at hx ⊢
                tauto
            exact hv1

theorem createObjectParamMappings_validated (vo : StrSet)
    (decls : StrMap SHADER_OBJECT_PARAM_DESC) (v : MaterialValues) (h : CachesValidated v) :
    CachesValidated (createObjectParamMappings vo decls v).1 := by
  induction decls generalizing v with
  | nil => exact h
  | cons e rest ih =>
    obtain ⟨key, desc⟩ := e
    rw [createObjectParamMappings]
    have hv1 : CachesValidated
        { v with mValidParams := StrMap.insert key desc.gpuVariableName v.mValidParams } :=
      cachesValidated_step v _ key h
        (fun x hx => (StrMap.mem_keys_insert _ _ _ _).2 hx)
        (fun x hx => Or.inr hx)
    split
    · exact ih v h
    · simp only
      split
      · apply ih
        apply cachesValidated_step v _ key h
        · intro x hx
          exact (StrMap.mem_keys_insert _ _ _ _).2 hx
        · intro x hx
          simp only [mem_cachedNames, StrMap.mem_keys_insert] at hx ⊢
          tauto
      · split
        · apply ih
          apply cachesValidated_step v _ key h
          · intro x hx
            exact (StrMap.mem_keys_insert _ _ _ _).2 hx
          · intro x hx
            simp only [mem_cachedNames, StrMap.mem_keys_insert] at hx ⊢
            tauto
        · split
          · exact hv1
          · exact hv1

theorem resolvedValues_validated (s : Shader) (t : Technique) :
    CachesValidated (resolvedValues s t).1 := by
  have h0 : CachesValidated MaterialValues.empty := by
    intro x hx
    simp [cachedNames, MaterialValues.empty, StrMap.keys] at hx
  have hd := createDataParamMappings_validated
    (determineValidDataParameters (collectParamDescs t))
    (determineParameterToBlockMapping (collectParamDescs t)) s.dataParams _ h0
  unfold resolvedValues
  simp only
  split
  · exact hd
  · exact createObjectParamMappings_validated _ _ _ hd

theorem setShader_validated (flag : Bool) (hbm : HardwareBufferManager) (m : Material)
    (shader : Option Shader) :
    CachesValidated (setShader flag hbm m shader).m.toMaterialValues := by
  rcases setShader_view flag hbm m shader with ⟨_, h, _⟩ | ⟨s, t, _, _, h, _⟩
  · rw [h]
    intro x hx
    simp [cachedNames, MaterialValues.empty, StrMap.keys] at hx
  · rw [h]
    exact resolvedValues_validated s t

theorem setter_step_validated (m : Material) (w : MaterialValues) (name gpuVarName : String)
    (h : CachesValidated m.toMaterialValues)
    (hfind : StrMap.find m.mValidParams name = some gpuVarName)
    (hvalid : w.mValidParams = m.mValidParams)
    (hcache : ∀ x, x ∈ cachedNames w → x = name ∨ x ∈ cachedNames m.toMaterialValues) :
    CachesValidated w := by
  have hmem : name ∈ StrMap.keys m.mValidParams := by
    by_contra hc
    rw [(StrMap.find_eq_none_iff _ _).2 hc] at hfind
    cases hfind
  apply cachesValidated_step m.toMaterialValues w name h _ hcache
  intro x hx
  rw [hvalid]
  rcases hx with hx | hx
  · rw [hx]
    exact hmem
  · exact hx

theorem applySetter_validated (m : Material) (call : SetterCall)
    (h : CachesValidated m.toMaterialValues) :
    CachesValidated (applySetter m call).m.toMaterialValues := by
  cases hinit : throwIfNotInitialized m with
  | some e =>
    rw [applySetter_notInitialized m call e hinit]
    exact h
  | none =>
    cases hfind : StrMap.find m.mValidParams call.name with
    | none =>
      rw [applySetter_absent m call hinit hfind]
      exact h
    | some gpuVarName =>
      cases call with
      | setTexture name value =>
        simp only [SetterCall.name] at hfind
        simp only [applySetter, setTexture, hinit, hfind]
        refine setter_step_validated m _ name gpuVarName h hfind rfl ?_
        intro x hx
        simp only [mem_cachedNames, StrMap.mem_keys_insert] at hx ⊢
        tauto
      | setSamplerState name value =>
        simp only [SetterCall.name] at hfind
        simp only [applySetter, setSamplerState, hinit, hfind]
        refine setter_step_validated m _ name gpuVarName h hfind rfl ?_
        intro x hx
        simp only [mem_cachedNames, StrMap.mem_keys_insert] at hx ⊢
        tauto
      | setFloat name value arrayIdx =>
        simp only [SetterCall.name] at hfind
        simp only [applySetter, setFloat, hinit, hfind, setParam]
        refine setter_step_validated m _ name gpuVarName h hfind rfl ?_
        intro x hx
        simp only [mem_cachedNames, mem_keys_writeCache] at hx ⊢
        tauto
      | setColor name value arrayIdx =>
        simp only [SetterCall.name] at hfind
        simp only [applySetter, setColor, hinit, hfind, setParam]
        refine setter_step_validated m _ name gpuVarName h hfind rfl ?_
        intro x hx
        simp only [mem_cachedNames, mem_keys_writeCache] at hx ⊢
        tauto
      | setVec2 name value arrayIdx =>
        simp only [SetterCall.name] at hfind
        simp only [applySetter, setVec2, hinit, hfind, setParam]
        refine setter_step_validated m _ name gpuVarName h hfind rfl ?_
        intro x hx
        simp only [mem_cachedNames, mem_keys_writeCache] at hx ⊢
        tauto
      | setVec3 name value arrayIdx =>
        simp only [SetterCall.name] at hfind
        simp only [applySetter, setVec3, hinit, hfind, setParam]
        refine setter_step_validated m _ name gpuVarName h hfind rfl ?_
        intro x hx
        simp only [mem_cachedNames, mem_keys_writeCache] at hx ⊢
        tauto
      | setVec4 name value arrayIdx =>
        simp only [SetterCall.name] at hfind
        simp only [applySetter, setVec4, hinit, hfind, setParam]
        refine setter_step_validated m _ name gpuVarName h hfind rfl ?_
        intro x hx
        simp only [mem_cachedNames, mem_keys_writeCache] at hx ⊢
        tauto
      | setMat3 name value arrayIdx =>
        simp only [SetterCall.name] at hfind
        simp only [applySetter, setMat3, hinit, hfind, setParam]
        refine setter_step_validated m _ name gpuVarName h hfind rfl ?_
        intro x hx
        simp only [mem_cachedNames, mem_keys_writeCache] at hx ⊢
        tauto
      | setMat4 name value arrayIdx =>
        simp only [SetterCall.name] at hfind
        simp only [applySetter, setMat4, hinit, hfind, setParam]
        refine setter_step_validated m _ name gpuVarName h hfind rfl ?_
        intro x hx
        simp only [mem_cachedNames, mem_keys_writeCache] at hx ⊢
        tauto
      | setStructData name value size arrayIdx =>
        simp only [SetterCall.name] at hfind
        simp only [applySetter, setStructData, hinit, hfind]
        split
        · exact h
        · split
          · exact h
          · exact h
          · split
            · exact h
            · refine setter_step_validated m _ name gpuVarName h hfind rfl ?_
              intro x hx
              simp only [mem_cachedNames, mem_keys_writeCache] at hx ⊢
              tauto

/-- The invariant of the value caches holds in every state a material goes through. -/
theorem reachable_validated (flag : Bool) (m : Material) (h : Reachable flag m) :
    CachesValidated m.toMaterialValues := by
  induction h with
  | new =>
    intro x hx
    simp [cachedNames, Material.new, MaterialValues.empty, StrMap.keys] at hx
  | setShader hbm m0 shader _ _ => exact setShader_validated flag hbm m0 shader
  | setter m0 call _ ih => exact applySetter_validated m0 call ih

/-- C18. In every state a material goes through from its construction by calls of
`setShader` and of the ten setters, whatever their arguments and their outcome, every name
with an entry in one of the nine value caches has an entry in the validated-parameter
map. -/
theorem reachable_caches_validated (ignoreBufferOffsets : Bool) (m : Material)
    (h : Reachable ignoreBufferOffsets m) (name : String)
    (hname : name ∈ cachedNames m.toMaterialValues) :
    name ∈ StrMap.keys m.mValidParams :=
  reachable_validated ignoreBufferOffsets m h name hname

/-- Witness of C18: the resolved example after `setTexture` on the data parameter `gloss`,
which enters `gloss` in the texture cache. -/
theorem reachable_caches_validated_witness :
    "gloss" ∈ cachedNames
      (applySetter exampleResolved (SetterCall.setTexture "gloss" { handle := some 7 })).m.toMaterialValues ∧
    "gloss" ∈ StrMap.keys
      (applySetter exampleResolved (SetterCall.setTexture "gloss" { handle := some 7 })).m.mValidParams :=
  ⟨by decide, reachable_caches_validated false _
    (Reachable.setter exampleResolved (SetterCall.setTexture "gloss" { handle := some 7 })
      (Reachable.setShader HardwareBufferManager.new Material.new (some exampleTintShader)
        Reachable.new)) "gloss" (by decide)⟩

theorem createDataParamMappings_exception (vd : StrMap GpuParamDataDesc) (pb : StrMap String)
    (decls : StrMap SHADER_DATA_PARAM_DESC) (v : MaterialValues) (e : CmException)
    (h : (createDataParamMappings vd pb decls v).2 = some e) :
    e = CmException.InternalErrorException
        "Parameter doesn't exist in param to param block map but exists in valid param map." ∨
    e = CmException.InternalErrorException "Unsupported data type." := by
  induction decls generalizing v with
  | nil =>
    rw [createDataParamMappings] at h
    cases h
  | cons x rest ih =>
    obtain ⟨key, desc⟩ := x
    rw [createDataParamMappings] at h
    split at h
    · exact ih v h
    · split at h
      · exact ih v h
      · split at h
        · exact ih v h
        · split at h
          · left
            cases h
            rfl
          · simp only at h
            split at h
            iterate 7 exact ih _ h
            right
            cases h
            rfl

theorem createObjectParamMappings_exception (vo : StrSet)
    (decls : StrMap SHADER_OBJECT_PARAM_DESC) (v : MaterialValues) (e : CmException)
    (h : (createObjectParamMappings vo decls v).2 = some e) :
    e = CmException.NotImplementedException "Buffers not implemented." ∨
    e = CmException.InternalErrorException "Invalid object param type." := by
  induction decls generalizing v with
  | nil =>
    rw [createObjectParamMappings] at h
    cases h
  | cons x rest ih =>
    obtain ⟨key, desc⟩ := x
    rw [createObjectParamMappings] at h
    split at h
    · exact ih v h
    · simp only at h
      split at h
      · exact ih _ h
      · split at h
        · exact ih _ h
        · split at h
          · left
            cases h
            rfl
          · right
            cases h
            rfl

theorem resolvedValues_exception (s : Shader) (t : Technique) (e : CmException)
    (h : (resolvedValues s t).2 = some e) :
    e = CmException.InternalErrorException
        "Parameter doesn't exist in param to param block map but exists in valid param map." ∨
    e = CmException.InternalErrorException "Unsupported data type." ∨
    e = CmException.NotImplementedException "Buffers not implemented." ∨
    e = CmException.InternalErrorException "Invalid object param type." := by
  unfold resolvedValues at h
  simp only at h
  split at h
  · rename_i e2 he2
    cases h
    rcases createDataParamMappings_exception _ _ _ _ e he2 with h1 | h1
    · exact Or.inl h1
    · exact Or.inr (Or.inl h1)
  · rcases createObjectParamMappings_exception _ _ _ e h with h1 | h1
    · exact Or.inr (Or.inr (Or.inl h1))
    · exact Or.inr (Or.inr (Or.inr h1))

/-- C19. A call of `setShader` that ends with an exception has a shader with a best
technique and raised one of the four exceptions of the two mapping loops. The material keeps
the shader and the best technique, so the state check of the setters and of `getNumPasses`
raises nothing afterwards. The validated-parameter map and the value caches are what the
two mapping loops had built when the exception was raised, the set of valid shareable blocks
and the buffer ownership list are those of the loop that creates the shared buffers, none of
which is released, and the list of per-pass parameter sets is empty. -/
theorem setShader_failure_keeps_partial_state (ignoreBufferOffsets : Bool)
    (hbm : HardwareBufferManager) (m : Material) (shader : Option Shader) (e : CmException)
    (h : (setShader ignoreBufferOffsets hbm m shader).exception = some e) :
    ∃ s t, shader = some s ∧ s.getBestTechnique = some t ∧
      (resolvedValues s t).2 = some e ∧
      (e = CmException.InternalErrorException
          "Parameter doesn't exist in param to param block map but exists in valid param map." ∨
        e = CmException.InternalErrorException "Unsupported data type." ∨
        e = CmException.NotImplementedException "Buffers not implemented." ∨
        e = CmException.InternalErrorException "Invalid object param type.") ∧
      (setShader ignoreBufferOffsets hbm m shader).m.mShader = some s ∧
      (setShader ignoreBufferOffsets hbm m shader).m.mBestTechnique = some t ∧
      throwIfNotInitialized (setShader ignoreBufferOffsets hbm m shader).m = none ∧
      (setShader ignoreBufferOffsets hbm m shader).m.toMaterialValues = (resolvedValues s t).1 ∧
      (setShader ignoreBufferOffsets hbm m shader).m.mParametersPerPass = [] ∧
      (setShader ignoreBufferOffsets hbm m shader).m.mValidShareableParamBlocks
        = (sharedBlocks ignoreBufferOffsets s t
            (freeParamBuffers hbm m).2).mValidShareableParamBlocks ∧
      (setShader ignoreBufferOffsets hbm m shader).m.mParamBuffers
        = (sharedBlocks ignoreBufferOffsets s t (freeParamBuffers hbm m).2).mParamBuffers ∧
      (setShader ignoreBufferOffsets hbm m shader).hbm
        = (sharedBlocks ignoreBufferOffsets s t (freeParamBuffers hbm m).2).hbm := by
  rcases setShader_cases ignoreBufferOffsets hbm m shader with
    ⟨_, heq⟩ | ⟨s, _, _, heq⟩ | ⟨s, t, hs, ht, heq⟩
  · rw [heq] at h
    cases h
  · rw [heq] at h
    cases h
  · refine ⟨s, t, hs, ht, ?_⟩
    cases he : (resolvedValues s t).2 with
    | none =>
      rw [heq, resolveTechnique_done ignoreBufferOffsets s t _ m he] at h
      cases h
    | some e2 =>
      rw [heq, resolveTechnique_raised ignoreBufferOffsets s t _ m e2 he] at h ⊢
      cases h
      exact ⟨rfl, resolvedValues_exception s t e he, rfl, rfl, rfl, rfl, rfl, rfl, rfl, rfl⟩

/-- Witness of C19: the call with the shader of the buffer `data` keeps the shader and the
technique and passes the state check. -/
theorem setShader_failure_keeps_partial_state_witness :
    ∃ s t, some exampleBufferShader = some s ∧ s.getBestTechnique = some t ∧
      (resolvedValues s t).2
        = some (CmException.NotImplementedException "Buffers not implemented.") ∧
      (CmException.NotImplementedException "Buffers not implemented."
          = CmException.InternalErrorException
          "Parameter doesn't exist in param to param block map but exists in valid param map." ∨
        CmException.NotImplementedException "Buffers not implemented."
          = CmException.InternalErrorException "Unsupported data type." ∨
        CmException.NotImplementedException "Buffers not implemented."
          = CmException.NotImplementedException "Buffers not implemented." ∨
        CmException.NotImplementedException "Buffers not implemented."
          = CmException.InternalErrorException "Invalid object param type.") ∧
      (setShader false HardwareBufferManager.new Material.new
        (some exampleBufferShader)).m.mShader = some s ∧
      (setShader false HardwareBufferManager.new Material.new
        (some exampleBufferShader)).m.mBestTechnique = some t ∧
      throwIfNotInitialized (setShader false HardwareBufferManager.new Material.new
        (some exampleBufferShader)).m = none ∧
      (setShader false HardwareBufferManager.new Material.new
        (some exampleBufferShader)).m.toMaterialValues = (resolvedValues s t).1 ∧
      (setShader false HardwareBufferManager.new Material.new
        (some exampleBufferShader)).m.mParametersPerPass = [] ∧
      (setShader false HardwareBufferManager.new Material.new
        (some exampleBufferShader)).m.mValidShareableParamBlocks
        = (sharedBlocks false s t
            (freeParamBuffers HardwareBufferManager.new Material.new).2).mValidShareableParamBlocks ∧
      (setShader false HardwareBufferManager.new Material.new
        (some exampleBufferShader)).m.mParamBuffers
        = (sharedBlocks false s t
            (freeParamBuffers HardwareBufferManager.new Material.new).2).mParamBuffers ∧
      (setShader false HardwareBufferManager.new Material.new (some exampleBufferShader)).hbm
        = (sharedBlocks false s t (freeParamBuffers HardwareBufferManager.new Material.new).2).hbm :=
  setShader_failure_keeps_partial_state false HardwareBufferManager.new Material.new
    (some exampleBufferShader) (CmException.NotImplementedException "Buffers not implemented.")
    (by decide)

/-- Counterexample of C19: after the call with the shader of the buffer `data` has raised
its exception the state check passes, `setColor` and `getNumPasses` raise nothing, the
validated-parameter map and the caches hold the entries of `gloss` and `tintColor`, and the
buffer of the shared block is in the ownership list and has not been released. -/
theorem setShader_failure_counterexample :
    exampleFailed.exception
      = some (CmException.NotImplementedException "Buffers not implemented.") ∧
    throwIfNotInitialized exampleFailed.m = none ∧
    (setColor exampleFailed.m "tintColor"
      { r := floatOne, g := 0, b := 0, a := floatOne } 0).exception = none ∧
    getNumPasses exampleFailed.m = Result.ok 1 ∧
    exampleFailed.m.mValidParams
      = [("data", "data"), ("gloss", "gloss"), ("tintColor", "tintColor")] ∧
    exampleFailed.m.mFloatValues = [("gloss", [0])] ∧
    exampleFailed.m.mVec4Values = [("tintColor", [{ x := 0, y := 0, z := 0, w := 0 }])] ∧
    exampleFailed.m.mParamBuffers
      = [{ id := 0, size := 32, usage := some GpuParamBlockUsage.GPBU_STATIC }] ∧
    exampleFailed.hbm.log
      = [BufferEvent.created { id := 0, size := 32, usage := some GpuParamBlockUsage.GPBU_STATIC }] ∧
    exampleFailed.m.mParametersPerPass = [] := by
  decide

theorem getCached_contract {T : Type} (cache : StrMap (List T)) :
    GetterContract cache (fun name => (StrMap.find cache name).map List.length)
      (getCached cache) := by
  intro name arrayIdx
  unfold getCached
  refine ⟨?_, ?_, ?_⟩
  · intro hn
    have hn2 : StrMap.find cache name = none := by simpa using hn
    rw [hn2]
  · intro n hn hle
    obtain ⟨arr, harr, hlen⟩ := Option.map_eq_some'.1 hn
    subst hlen
    rw [harr]
    simp [List.getElem?_eq_none hle]
  · intro n hn hlt
    obtain ⟨arr, harr, hlen⟩ := Option.map_eq_some'.1 hn
    subst hlen
    rw [harr]
    exact ⟨arr, arr[arrayIdx], rfl, List.getElem?_eq_getElem hlt,
      by simp [List.getElem?_eq_getElem hlt]⟩

theorem length_resize {T : Type} [Inhabited T] (v : List T) (n : Nat) :
    (resize v n).length = n := by
  unfold resize
  simp only [List.length_append, List.length_take, List.length_replicate]
  omega

theorem find_resizeEntry_length {T : Type} [Inhabited T] (cache : StrMap (List T))
    (key k : String) (n : Nat) :
    (StrMap.find (resizeEntry cache key n) k).map List.length
      = if k = key then some n else (StrMap.find cache k).map List.length := by
  unfold resizeEntry
  by_cases h : k = key
  · subst h
    simp [StrMap.find_insert_self, length_resize]
  · simp [StrMap.find_insert_ne _ _ _ _ h, h]

theorem declaredLength_cons (vd : StrMap GpuParamDataDesc) (key : String)
    (desc : SHADER_DATA_PARAM_DESC) (rest : StrMap SHADER_DATA_PARAM_DESC)
    (ty : GpuParamDataType) (k : String) :
    declaredLength vd ((key, desc) :: rest) ty k
      = if key = k then
          (if acceptedDataParam vd desc = true ∧ desc.type = ty then some desc.arraySize
           else none)
        else declaredLength vd rest ty k := by
  unfold declaredLength
  by_cases h : key = k
  · simp [StrMap.find, h]
  · simp [StrMap.find, h]

theorem declaredLength_not_mem (vd : StrMap GpuParamDataDesc)
    (rest : StrMap SHADER_DATA_PARAM_DESC) (ty : GpuParamDataType) (k : String)
    (h : k ∉ StrMap.keys rest) : declaredLength vd rest ty k = none := by
  unfold declaredLength
  rw [(StrMap.find_eq_none_iff rest k).2 h]

theorem lengths_step_skip (vd : StrMap GpuParamDataDesc) (key : String)
    (desc : SHADER_DATA_PARAM_DESC) (rest : StrMap SHADER_DATA_PARAM_DESC)
    (ty : GpuParamDataType) (k : String) (x c : Option Nat)
    (hacc : acceptedDataParam vd desc = false) (hkey : key ∉ StrMap.keys rest)
    (hx : x = (declaredLength vd rest ty k).orElse (fun _ => c)) :
    x = (declaredLength vd ((key, desc) :: rest) ty k).orElse (fun _ => c) := by
  rw [hx, declaredLength_cons]
  by_cases h : key = k
  · subst h
    simp [hacc, declaredLength_not_mem vd rest ty key hkey]
  · simp [h]

theorem lengths_step_take (vd : StrMap GpuParamDataDesc) (key : String)
    (desc : SHADER_DATA_PARAM_DESC) (rest : StrMap SHADER_DATA_PARAM_DESC)
    (ty : GpuParamDataType) (k : String) (x c c2 : Option Nat)
    (hacc : acceptedDataParam vd desc = true) (hkey : key ∉ StrMap.keys rest)
    (hc2 : c2 = if desc.type = ty ∧ k = key then some desc.arraySize else c)
    (hx : x = (declaredLength vd rest ty k).orElse (fun _ => c2)) :
    x = (declaredLength vd ((key, desc) :: rest) ty k).orElse (fun _ => c) := by
  rw [hx, declaredLength_cons, hc2]
  by_cases h : key = k
  · subst h
    by_cases h2 : desc.type = ty
    · simp [hacc, h2, declaredLength_not_mem vd rest ty key hkey]
    · simp [hacc, h2, declaredLength_not_mem vd rest ty key hkey]
  · have h3 : ¬ k = key := fun h4 => h h4.symm
    simp [h, h3]
theorem acceptedDataParam_none (vd : StrMap GpuParamDataDesc) (desc : SHADER_DATA_PARAM_DESC)
    (h : StrMap.find vd desc.gpuVariableName = none) : acceptedDataParam vd desc = false := by
  simp [acceptedDataParam, h]

theorem acceptedDataParam_some (vd : StrMap GpuParamDataDesc) (desc : SHADER_DATA_PARAM_DESC)
    (found : GpuParamDataDesc) (h : StrMap.find vd desc.gpuVariableName = some found) :
    acceptedDataParam vd desc
      = (decide (found.type = desc.type) && decide (found.arraySize = desc.arraySize)) := by
  simp [acceptedDataParam, h]

/-- The lengths of the cached arrays after the loop "Create data param mappings" has run
without an exception over declarations with distinct names. -/
theorem createDataParamMappings_lengths (vd : StrMap GpuParamDataDesc) (pb : StrMap String)
    (decls : StrMap SHADER_DATA_PARAM_DESC) (v : MaterialValues)
    (hok : (createDataParamMappings vd pb decls v).2 = none)
    (hnd : (StrMap.keys decls).Nodup) (ty : GpuParamDataType) (k : String) :
    cachedLength (createDataParamMappings vd pb decls v).1 ty k
      = (declaredLength vd decls ty k).orElse (fun _ => cachedLength v ty k) := by
  induction decls generalizing v with
  | nil => simp [createDataParamMappings, declaredLength, StrMap.find]
  | cons e rest ih =>
    obtain ⟨key, desc⟩ := e
    have hkey : key ∉ StrMap.keys rest := by
      simp only [StrMap.keys, List.map_cons, List.nodup_cons] at hnd
      exact hnd.1
    have hnd2 : (StrMap.keys rest).Nodup := by
      simp only [StrMap.keys, List.map_cons, List.nodup_cons] at hnd
      exact hnd.2
    rw [createDataParamMappings] at hok ⊢
    cases hf : StrMap.find vd desc.gpuVariableName with
    | none =>
      simp only [hf] at hok ⊢
      exact lengths_step_skip vd key desc rest ty k _ _ (acceptedDataParam_none vd desc hf) hkey
        (ih v hok hnd2)
    | some found =>
      simp only [hf] at hok ⊢
      by_cases h1 : found.type ≠ desc.type
      · rw [if_pos h1] at hok ⊢
        refine lengths_step_skip vd key desc rest ty k _ _ ?_ hkey (ih v hok hnd2)
        rw [acceptedDataParam_some vd desc found hf]
        simp [(show ¬ found.type = desc.type from h1)]
      · rw [if_neg h1] at hok ⊢
        by_cases h2 : found.arraySize ≠ desc.arraySize
        · rw [if_pos h2] at hok ⊢
          refine lengths_step_skip vd key desc rest ty k _ _ ?_ hkey (ih v hok hnd2)
          rw [acceptedDataParam_some vd desc found hf]
          simp [(show ¬ found.arraySize = desc.arraySize from h2)]
        · rw [if_neg h2] at hok ⊢
          have hacc : acceptedDataParam vd desc = true := by
            rw [acceptedDataParam_some vd desc found hf]
            simp only [ne_eq, not_not] at h1 h2
            simp [h1, h2]
          cases hp : StrMap.find pb desc.gpuVariableName with
          | none =>
            simp only [hp] at hok
            cases hok
          | some blockName =>
            simp only [hp] at hok ⊢
            cases hty : desc.type with
            | GPDT_OTHER code =>
              simp only [hty] at hok
              cases hok
            | _ =>
              simp only [hty] at hok ⊢
              refine lengths_step_take vd key desc rest ty k _ _ _ hacc hkey ?_
                (ih _ hok hnd2)
              rw [hty]
              cases ty <;>
                simp [cachedLength, find_resizeEntry_length]

theorem createObjectParamMappings_lengths (vo : StrSet)
    (decls : StrMap SHADER_OBJECT_PARAM_DESC) (v : MaterialValues) (ty : GpuParamDataType)
    (k : String) :
    cachedLength (createObjectParamMappings vo decls v).1 ty k = cachedLength v ty k := by
  induction decls generalizing v with
  | nil => rfl
  | cons e rest ih =>
    obtain ⟨key, desc⟩ := e
    rw [createObjectParamMappings]
    split
    · exact ih v
    · simp only
      split
      · rw [ih]
        cases ty <;> rfl
      · split
        · rw [ih]
          cases ty <;> rfl
        · split
          · cases ty <;> rfl
          · cases ty <;> rfl

/-- The lengths of the cached arrays after a resolution without an exception of a shader
whose data parameters have distinct names. -/
theorem resolvedValues_lengths (s : Shader) (t : Technique)
    (hok : (resolvedValues s t).2 = none) (hnd : (StrMap.keys s.dataParams).Nodup)
    (ty : GpuParamDataType) (k : String) :
    cachedLength (resolvedValues s t).1 ty k
      = declaredLength (determineValidDataParameters (collectParamDescs t)) s.dataParams
          ty k := by
  unfold resolvedValues at hok ⊢
  simp only
  cases hd : (createDataParamMappings (determineValidDataParameters (collectParamDescs t))
    (determineParameterToBlockMapping (collectParamDescs t)) s.dataParams
    MaterialValues.empty).2 with
  | some e2 =>
    simp only [hd] at hok
    cases hok
  | none =>
    simp only [hd]
    rw [createObjectParamMappings_lengths, createDataParamMappings_lengths _ _ _ _ hd hnd]
    cases declaredLength (determineValidDataParameters (collectParamDescs t)) s.dataParams
      ty k with
    | none =>
      cases ty <;> simp [cachedLength, MaterialValues.empty, StrMap.find]
    | some n => rfl

theorem writeCache_lengths {T : Type} (cache : StrMap (List T)) (name : String)
    (arrayIdx : Nat) (value : T) (h : (writeCache cache name arrayIdx value).2 = false)
    (k : String) :
    (StrMap.find (writeCache cache name arrayIdx value).1 k).map List.length
      = (StrMap.find cache k).map List.length := by
  unfold writeCache at h ⊢
  simp only at h ⊢
  split at h
  · rename_i hlt
    rw [if_pos hlt]
    by_cases hk : k = name
    · subst hk
      rw [StrMap.find_insert_self]
      cases hf : StrMap.find cache k with
      | none => simp [hf] at hlt
      | some arr => simp
    · rw [StrMap.find_insert_ne _ _ _ _ hk]
  · cases h

/-- A setter call that writes inside the cached arrays changes the length of none of
them. -/
theorem applySetter_lengths (m : Material) (call : SetterCall)
    (h : (applySetter m call).undefined = false) (ty : GpuParamDataType) (k : String) :
    cachedLength (applySetter m call).m.toMaterialValues ty k
      = cachedLength m.toMaterialValues ty k := by
  cases hinit : throwIfNotInitialized m with
  | some e => rw [applySetter_notInitialized m call e hinit]
  | none =>
    cases hfind : StrMap.find m.mValidParams call.name with
    | none => rw [applySetter_absent m call hinit hfind]
    | some gpuVarName =>
      cases call with
      | setTexture name value =>
        simp only [SetterCall.name] at hfind
        simp only [applySetter, setTexture, hinit, hfind]
        cases ty <;> rfl
      | setSamplerState name value =>
        simp only [SetterCall.name] at hfind
        simp only [applySetter, setSamplerState, hinit, hfind]
        cases ty <;> rfl
      | setFloat name value arrayIdx =>
        simp only [SetterCall.name] at hfind
        simp only [applySetter, setFloat, hinit, hfind, setParam] at h ⊢
        cases ty <;> first | rfl | exact writeCache_lengths _ _ _ _ h k
      | setColor name value arrayIdx =>
        simp only [SetterCall.name] at hfind
        simp only [applySetter, setColor, hinit, hfind, setParam] at h ⊢
        cases ty <;> first | rfl | exact writeCache_lengths _ _ _ _ h k
      | setVec2 name value arrayIdx =>
        simp only [SetterCall.name] at hfind
        simp only [applySetter, setVec2, hinit, hfind, setParam] at h ⊢
        cases ty <;> first | rfl | exact writeCache_lengths _ _ _ _ h k
      | setVec3 name value arrayIdx =>
        simp only [SetterCall.name] at hfind
        simp only [applySetter, setVec3, hinit, hfind, setParam] at h ⊢
        cases ty <;> first | rfl | exact writeCache_lengths _ _ _ _ h k
      | setVec4 name value arrayIdx =>
        simp only [SetterCall.name] at hfind
        simp only [applySetter, setVec4, hinit, hfind, setParam] at h ⊢
        cases ty <;> first | rfl | exact writeCache_lengths _ _ _ _ h k
      | setMat3 name value arrayIdx =>
        simp only [SetterCall.name] at hfind
        simp only [applySetter, setMat3, hinit, hfind, setParam] at h ⊢
        cases ty <;> first | rfl | exact writeCache_lengths _ _ _ _ h k
      | setMat4 name value arrayIdx =>
        simp only [SetterCall.name] at hfind
        simp only [applySetter, setMat4, hinit, hfind, setParam] at h ⊢
        cases ty <;> first | rfl | exact writeCache_lengths _ _ _ _ h k
      | setStructData name value size arrayIdx =>
        simp only [SetterCall.name] at hfind
        simp only [applySetter, setStructData, hinit, hfind] at h ⊢
        split at h
        · rename_i hs
          simp only [hs]
        · rename_i shader hs
          simp only [hs] at h ⊢
          split at h
          · cases h
          · rfl
          · split at h
            · rename_i hsz
              rw [if_pos hsz]
            · rename_i hsz
              rw [if_neg hsz]
              cases ty <;> first | rfl | exact writeCache_lengths _ _ _ _ h k

/-- C15. Each of the seven getters of data values raises the not-found exception for a name
without an array in the cache of its kind, the out-of-range exception for an index that is
not below the length of the cached array, and returns the cached value otherwise. After a
call of `setShader` that finds a technique and raises nothing, for a shader whose data
parameters have distinct names, a name has a cached array of a kind exactly when the shader
declares it as a data parameter of that kind and the declaration passes the test of the
mapping loop, and the length of the array is the declared array size. A setter call that
writes inside the cached arrays leaves these lengths as they are. -/
theorem getter_contract (m : Material) :
    (GetterContract m.mFloatValues
        (cachedLength m.toMaterialValues GpuParamDataType.GPDT_FLOAT1) (getFloat m) ∧
      GetterContract m.mVec2Values
        (cachedLength m.toMaterialValues GpuParamDataType.GPDT_FLOAT2) (getVec2 m) ∧
      GetterContract m.mVec3Values
        (cachedLength m.toMaterialValues GpuParamDataType.GPDT_FLOAT3) (getVec3 m) ∧
      GetterContract m.mVec4Values
        (cachedLength m.toMaterialValues GpuParamDataType.GPDT_FLOAT4) (getVec4 m) ∧
      GetterContract m.mMat3Values
        (cachedLength m.toMaterialValues GpuParamDataType.GPDT_MATRIX_3X3) (getMat3 m) ∧
      GetterContract m.mMat4Values
        (cachedLength m.toMaterialValues GpuParamDataType.GPDT_MATRIX_4X4) (getMat4 m) ∧
      GetterContract m.mStructValues
        (cachedLength m.toMaterialValues GpuParamDataType.GPDT_STRUCT) (getStructData m)) ∧
    (∀ (ignoreBufferOffsets : Bool) (hbm : HardwareBufferManager) (s : Shader) (t : Technique),
      s.getBestTechnique = some t →
      (setShader ignoreBufferOffsets hbm m (some s)).exception = none →
      (StrMap.keys s.dataParams).Nodup →
      ∀ (type : GpuParamDataType) (name : String),
        cachedLength (setShader ignoreBufferOffsets hbm m (some s)).m.toMaterialValues type name
          = declaredLength (determineValidDataParameters (collectParamDescs t)) s.dataParams
              type name) ∧
    (∀ (call : SetterCall), (applySetter m call).undefined = false →
      ∀ (type : GpuParamDataType) (name : String),
        cachedLength (applySetter m call).m.toMaterialValues type name
          = cachedLength m.toMaterialValues type name) := by
  refine ⟨⟨getCached_contract _, getCached_contract _, getCached_contract _,
    getCached_contract _, getCached_contract _, getCached_contract _, getCached_contract _⟩,
    ?_, ?_⟩
  · intro flag hbm s t ht hok hnd ty name
    have hres := setShader_resolved flag hbm m s t ht hok
    have hex : (resolvedValues s t).2 = none := by
      rcases setShader_view flag hbm m (some s) with ⟨h, _⟩ | ⟨s2, t2, hs, ht2, _, _, _, he⟩
      · rcases h with h | ⟨s2, hs, ht2⟩
        · cases h
        · cases hs
          rw [ht2] at ht
          cases ht
      · cases hs
        rw [ht2] at ht
        cases ht
        rw [← he]
        exact hok
    rw [hres]
    exact resolvedValues_lengths s t hex hnd ty name
  · intro call h ty name
    exact applySetter_lengths m call h ty name

/-- Witness of C15: after `setShader` with the shader of `gloss` and `tintColor` the cached
array of `tintColor` has the declared length one, and `getVec4` raises the out-of-range
exception at the index one and the not-found exception for `gloss`. -/
theorem getter_contract_witness :
    (cachedLength (setShader false HardwareBufferManager.new Material.new
        (some exampleTintShader)).m.toMaterialValues GpuParamDataType.GPDT_FLOAT4 "tintColor"
      = declaredLength
          (determineValidDataParameters (collectParamDescs { passes := [examplePass] }))
          exampleTintShader.dataParams GpuParamDataType.GPDT_FLOAT4 "tintColor") ∧
    declaredLength (determineValidDataParameters (collectParamDescs { passes := [examplePass] }))
      exampleTintShader.dataParams GpuParamDataType.GPDT_FLOAT4 "tintColor" = some 1 ∧
    getVec4 exampleResolved "tintColor" 1 = Result.raised CmException.OutOfRange ∧
    getVec4 exampleResolved "gloss" 0 = Result.raised
      (CmException.InternalErrorException ("No float parameter with the name: " ++ "gloss")) :=
  ⟨(getter_contract Material.new).2.1 false HardwareBufferManager.new exampleTintShader
      { passes := [examplePass] } rfl (by decide) (by decide) GpuParamDataType.GPDT_FLOAT4
      "tintColor",
    by decide,
    ((getter_contract exampleResolved).1.2.2.2.1 "tintColor" 1).2.1 1 (by decide) (by decide),
    ((getter_contract exampleResolved).1.2.2.2.1 "gloss" 0).1 (by decide)⟩

/-- The state `setShader` leaves for a shader with a best technique, whether the resolution
raised an exception or not. -/
theorem setShader_technique_state (flag : Bool) (hbm : HardwareBufferManager) (m : Material)
    (s : Shader) (t : Technique) (ht : s.getBestTechnique = some t) :
    (setShader flag hbm m (some s)).m.mShader = some s ∧
    (setShader flag hbm m (some s)).m.mBestTechnique = some t ∧
    (setShader flag hbm m (some s)).m.toMaterialValues = (resolvedValues s t).1 ∧
    (setShader flag hbm m (some s)).m.mValidShareableParamBlocks
      = determineValidShareableParamBlocks flag (collectParamDescs t) := by
  rcases setShader_cases flag hbm m (some s) with
    ⟨hs, _⟩ | ⟨s2, hs, ht2, _⟩ | ⟨s2, t2, hs, ht2, heq⟩
  · cases hs
  · cases hs
    rw [ht2] at ht
    cases ht
  · cases hs
    rw [ht2] at ht
    cases ht
    rw [heq]
    cases he : (resolvedValues s t).2 with
    | none =>
      rw [resolveTechnique_done flag s t _ m he]
      exact ⟨rfl, rfl, rfl, sharedBlocks_valid_eq flag s t _⟩
    | some e =>
      rw [resolveTechnique_raised flag s t _ m e he]
      exact ⟨rfl, rfl, rfl, sharedBlocks_valid_eq flag s t _⟩

/-- C21 (amended). Agreement of all declarations of a name on type and array size is
necessary for the name to be a key of the result of `determineValidDataParameters`, and for
a name that some descriptor declares and whose declarations agree on type and array size it
is sufficient exactly when they also agree on element size and array-element stride. -/
theorem determineValidDataParameters_type_and_size (paramDescs : List GpuParamDesc)
    (n : String) :
    (n ∈ StrMap.keys (determineValidDataParameters paramDescs) →
      (∃ d ∈ paramDescs, n ∈ StrMap.keys d.params) ∧
      ∀ d1 ∈ paramDescs, ∀ d2 ∈ paramDescs, ∀ p1 p2,
        (n, p1) ∈ d1.params → (n, p2) ∈ d2.params →
          p1.type = p2.type ∧ p1.arraySize = p2.arraySize) ∧
    ((∃ d ∈ paramDescs, n ∈ StrMap.keys d.params) →
      (∀ d1 ∈ paramDescs, ∀ d2 ∈ paramDescs, ∀ p1 p2,
        (n, p1) ∈ d1.params → (n, p2) ∈ d2.params →
          p1.type = p2.type ∧ p1.arraySize = p2.arraySize) →
      (n ∈ StrMap.keys (determineValidDataParameters paramDescs) ↔
        ∀ d1 ∈ paramDescs, ∀ d2 ∈ paramDescs, ∀ p1 p2,
          (n, p1) ∈ d1.params → (n, p2) ∈ d2.params →
            p1.elementSize = p2.elementSize ∧
              p1.arrayElementStride = p2.arrayElementStride)) := by
  constructor
  · intro h
    obtain ⟨hdecl, hall⟩ := (validData_iff paramDescs n).1 h
    refine ⟨hdecl, ?_⟩
    intro d1 hd1 d2 hd2 p1 p2 hp1 hp2
    exact ⟨(hall d1 hd1 d2 hd2 p1 p2 hp1 hp2).1, (hall d1 hd1 d2 hd2 p1 p2 hp1 hp2).2.1⟩
  · intro hdecl hts
    rw [validData_iff]
    constructor
    · rintro ⟨_, hall⟩ d1 hd1 d2 hd2 p1 p2 hp1 hp2
      exact ⟨(hall d1 hd1 d2 hd2 p1 p2 hp1 hp2).2.2.1, (hall d1 hd1 d2 hd2 p1 p2 hp1 hp2).2.2.2⟩
    · intro hes
      refine ⟨hdecl, ?_⟩
      intro d1 hd1 d2 hd2 p1 p2 hp1 hp2
      exact ⟨(hts d1 hd1 d2 hd2 p1 p2 hp1 hp2).1, (hts d1 hd1 d2 hd2 p1 p2 hp1 hp2).2,
        (hes d1 hd1 d2 hd2 p1 p2 hp1 hp2).1, (hes d1 hd1 d2 hd2 p1 p2 hp1 hp2).2⟩

/-- Witness of the amended C21: `tintColor`, declared alike by two stages, is valid, so its
declarations agree on type and array size. -/
theorem determineValidDataParameters_type_and_size_witness :
    "tintColor" ∈ StrMap.keys (determineValidDataParameters [exampleStageA, exampleStageA]) ∧
    (∃ d ∈ [exampleStageA, exampleStageA], "tintColor" ∈ StrMap.keys d.params) ∧
    ∀ d1 ∈ [exampleStageA, exampleStageA], ∀ d2 ∈ [exampleStageA, exampleStageA], ∀ p1 p2,
      ("tintColor", p1) ∈ d1.params → ("tintColor", p2) ∈ d2.params →
        p1.type = p2.type ∧ p1.arraySize = p2.arraySize :=
  ⟨by decide,
    (determineValidDataParameters_type_and_size [exampleStageA, exampleStageA] "tintColor").1
      (by decide)⟩

/-- Counterexample of C21: two stages declare `light` with the same type and the same array
size and with element sizes of eight and sixteen bytes, and `light` is not a valid data
parameter. -/
theorem determineValidDataParameters_type_and_size_counterexample :
    exampleLightStage.params = [("light", exampleLightParam)] ∧
    exampleWideLightStage.params = [("light", exampleWideLightParam)] ∧
    exampleLightParam.type = exampleWideLightParam.type ∧
    exampleLightParam.arraySize = exampleWideLightParam.arraySize ∧
    exampleLightParam.elementSize ≠ exampleWideLightParam.elementSize ∧
    "light" ∉ StrMap.keys
      (determineValidDataParameters [exampleLightStage, exampleWideLightStage]) ∧
    "light" ∈ StrMap.keys (determineValidDataParameters [exampleLightStage]) := by
  decide

/-- The cache write of a typed setter is not checked: on a material that passes the state
check, for a name of the validated-parameter map, `setFloat` with an index that is not below
the length of the cached float array of the name, or for a name without a cached float
array, raises nothing and writes outside the array. -/
theorem setFloat_unchecked (m : Material) (name gpuVarName : String) (value : float)
    (arrayIdx : Nat) (hres : Resolved m)
    (hvalid : StrMap.find m.mValidParams name = some gpuVarName)
    (hout : ((StrMap.find m.mFloatValues name).getD []).length ≤ arrayIdx) :
    (setFloat m name value arrayIdx).exception = none ∧
    (setFloat m name value arrayIdx).undefined = true := by
  have hinit := (throwIfNotInitialized_eq_none m).2 hres
  simp only [setFloat, hinit, hvalid, writeCache, Nat.not_lt.2 hout, if_false, and_self]

/-- C26. On the material resolved for `gloss` (one float) and `tintColor` (one vector of
four floats), `setFloat` on `tintColor` at the index zero, `setFloat` on `gloss` at the
index one and `setVec4` on `tintColor` at the index one pass the state check and the lookup
of the name, raise nothing, and write outside the cached array: the float cache has no array
for `tintColor`, so that the subscript of the map creates an empty one, and the arrays of
`gloss` and `tintColor` have one element. -/
theorem typed_setter_writes_outside_cache :
    Resolved exampleResolved ∧
    StrMap.find exampleResolved.mValidParams "tintColor" = some "tintColor" ∧
    StrMap.find exampleResolved.mValidParams "gloss" = some "gloss" ∧
    StrMap.find exampleResolved.mFloatValues "tintColor" = none ∧
    StrMap.find exampleResolved.mFloatValues "gloss" = some [0] ∧
    StrMap.find exampleResolved.mVec4Values "tintColor"
      = some [{ x := 0, y := 0, z := 0, w := 0 }] ∧
    (setFloat exampleResolved "tintColor" floatOne 0).exception = none ∧
    (setFloat exampleResolved "tintColor" floatOne 0).undefined = true ∧
    StrMap.find (setFloat exampleResolved "tintColor" floatOne 0).m.mFloatValues "tintColor"
      = some [] ∧
    (setFloat exampleResolved "gloss" floatOne 1).exception = none ∧
    (setFloat exampleResolved "gloss" floatOne 1).undefined = true ∧
    (setVec4 exampleResolved "tintColor" { x := floatOne, y := 0, z := 0, w := 0 }
      1).exception = none ∧
    (setVec4 exampleResolved "tintColor" { x := floatOne, y := 0, z := 0, w := 0 }
      1).undefined = true := by
  decide

/-- C25 (amended). For every shader argument and any two prior states of the material and of
the buffer manager, the two calls of `setShader` leave the same nine caches, the same number
of per-pass parameter sets, the same number of owned buffers, and end in the same way. For a
shader with a best technique they also leave the same validated-parameter map and the same
set of valid shareable blocks. Without a shader, or for a shader without a supported
technique, the validated-parameter map and the set of valid shareable blocks are those of
the prior state. -/
theorem setShader_history (ignoreBufferOffsets : Bool) (hbm1 hbm2 : HardwareBufferManager)
    (m1 m2 : Material) (shader : Option Shader) :
    ({ (setShader ignoreBufferOffsets hbm1 m1 shader).m.toMaterialValues with
        mValidParams := [] }
      = { (setShader ignoreBufferOffsets hbm2 m2 shader).m.toMaterialValues with
        mValidParams := [] }) ∧
    (setShader ignoreBufferOffsets hbm1 m1 shader).m.mParametersPerPass.length
      = (setShader ignoreBufferOffsets hbm2 m2 shader).m.mParametersPerPass.length ∧
    (setShader ignoreBufferOffsets hbm1 m1 shader).m.mParamBuffers.length
      = (setShader ignoreBufferOffsets hbm2 m2 shader).m.mParamBuffers.length ∧
    (setShader ignoreBufferOffsets hbm1 m1 shader).exception
      = (setShader ignoreBufferOffsets hbm2 m2 shader).exception ∧
    ((∃ s t, shader = some s ∧ s.getBestTechnique = some t) →
      (setShader ignoreBufferOffsets hbm1 m1 shader).m.mValidParams
        = (setShader ignoreBufferOffsets hbm2 m2 shader).m.mValidParams ∧
      (setShader ignoreBufferOffsets hbm1 m1 shader).m.mValidShareableParamBlocks
        = (setShader ignoreBufferOffsets hbm2 m2 shader).m.mValidShareableParamBlocks) ∧
    ((shader = none ∨ ∃ s, shader = some s ∧ s.getBestTechnique = none) →
      (setShader ignoreBufferOffsets hbm1 m1 shader).m.mValidParams = m1.mValidParams ∧
      (setShader ignoreBufferOffsets hbm1 m1 shader).m.mValidShareableParamBlocks
        = m1.mValidShareableParamBlocks) := by
  have hlen1 := (setShader_alloc ignoreBufferOffsets hbm1 m1 shader).2
  have hlen2 := (setShader_alloc ignoreBufferOffsets hbm2 m2 shader).2
  refine ⟨?_, ?_, hlen1.trans hlen2.symm, ?_, ?_, ?_⟩
  · rcases setShader_view ignoreBufferOffsets hbm1 m1 shader with
      ⟨hsh, h1, _⟩ | ⟨s, t, hs, ht, h1, _⟩
    · rcases setShader_view ignoreBufferOffsets hbm2 m2 shader with
        ⟨_, h2, _⟩ | ⟨s2, t2, hs2, ht2, h2, _⟩
      · rw [h1, h2]
      · exfalso
        rcases hsh with hn | ⟨s3, hs3, ht3⟩
        · rw [hn] at hs2
          cases hs2
        · rw [hs3] at hs2
          cases hs2
          rw [ht3] at ht2
          cases ht2
    · rcases setShader_view ignoreBufferOffsets hbm2 m2 shader with
        ⟨hsh, _⟩ | ⟨s2, t2, hs2, ht2, h2, _⟩
      · exfalso
        rcases hsh with hn | ⟨s3, hs3, ht3⟩
        · rw [hn] at hs
          cases hs
        · rw [hs3] at hs
          cases hs
          rw [ht3] at ht
          cases ht
      · rw [hs] at hs2
        cases hs2
        rw [ht] at ht2
        cases ht2
        rw [h1, h2]
  · rcases setShader_view ignoreBufferOffsets hbm1 m1 shader with
      ⟨hsh, _, _, h1, _⟩ | ⟨s, t, hs, ht, _, _, h1, _⟩
    · rcases setShader_view ignoreBufferOffsets hbm2 m2 shader with
        ⟨_, _, _, h2, _⟩ | ⟨s2, t2, hs2, ht2, _, _, h2, _⟩
      · rw [h1, h2]
      · exfalso
        rcases hsh with hn | ⟨s3, hs3, ht3⟩
        · rw [hn] at hs2
          cases hs2
        · rw [hs3] at hs2
          cases hs2
          rw [ht3] at ht2
          cases ht2
    · rcases setShader_view ignoreBufferOffsets hbm2 m2 shader with
        ⟨hsh, _⟩ | ⟨s2, t2, hs2, ht2, _, _, h2, _⟩
      · exfalso
        rcases hsh with hn | ⟨s3, hs3, ht3⟩
        · rw [hn] at hs
          cases hs
        · rw [hs3] at hs
          cases hs
          rw [ht3] at ht
          cases ht
      · rw [hs] at hs2
        cases hs2
        rw [ht] at ht2
        cases ht2
        rw [h1, h2]
  · rcases setShader_view ignoreBufferOffsets hbm1 m1 shader with
      ⟨hsh, _, _, _, h1⟩ | ⟨s, t, hs, ht, _, _, _, h1⟩
    · rcases setShader_view ignoreBufferOffsets hbm2 m2 shader with
        ⟨_, _, _, _, h2⟩ | ⟨s2, t2, hs2, ht2, _, _, _, h2⟩
      · rw [h1, h2]
      · exfalso
        rcases hsh with hn | ⟨s3, hs3, ht3⟩
        · rw [hn] at hs2
          cases hs2
        · rw [hs3] at hs2
          cases hs2
          rw [ht3] at ht2
          cases ht2
    · rcases setShader_view ignoreBufferOffsets hbm2 m2 shader with
        ⟨hsh, _⟩ | ⟨s2, t2, hs2, ht2, _, _, _, h2⟩
      · exfalso
        rcases hsh with hn | ⟨s3, hs3, ht3⟩
        · rw [hn] at hs
          cases hs
        · rw [hs3] at hs
          cases hs
          rw [ht3] at ht
          cases ht
      · rw [hs] at hs2
        cases hs2
        rw [ht] at ht2
        cases ht2
        rw [h1, h2]
  · rintro ⟨s, t, hs, ht⟩
    subst hs
    obtain ⟨_, _, a3, a4⟩ := setShader_technique_state ignoreBufferOffsets hbm1 m1 s t ht
    obtain ⟨_, _, b3, b4⟩ := setShader_technique_state ignoreBufferOffsets hbm2 m2 s t ht
    refine ⟨?_, a4.trans b4.symm⟩
    have h := a3.trans b3.symm
    exact congrArg MaterialValues.mValidParams h
  · intro hsh
    rcases setShader_cases ignoreBufferOffsets hbm1 m1 shader with
      ⟨_, heq⟩ | ⟨s, _, _, heq⟩ | ⟨s, t, hs, ht, _⟩
    · rw [heq]
      exact ⟨rfl, rfl⟩
    · rw [heq]
      exact ⟨rfl, rfl⟩
    · exfalso
      rcases hsh with hn | ⟨s3, hs3, ht3⟩
      · rw [hn] at hs
        cases hs
      · rw [hs3] at hs
        cases hs
        rw [ht3] at ht
        cases ht

/-- Witness of the amended C25: `setShader` with the shader of `gloss` and `tintColor` on a
new material and on the material of the shader of `light` leaves the same
validated-parameter map and the same set of valid shareable blocks. -/
theorem setShader_history_witness :
    (setShader false HardwareBufferManager.new Material.new
        (some exampleTintShader)).m.mValidParams
      = (setShader false HardwareBufferManager.new exampleStructResolved
        (some exampleTintShader)).m.mValidParams ∧
    (setShader false HardwareBufferManager.new Material.new
        (some exampleTintShader)).m.mValidShareableParamBlocks
      = (setShader false HardwareBufferManager.new exampleStructResolved
        (some exampleTintShader)).m.mValidShareableParamBlocks :=
  (setShader_history false HardwareBufferManager.new HardwareBufferManager.new Material.new
    exampleStructResolved (some exampleTintShader)).2.2.2.2.1
    ⟨exampleTintShader, { passes := [examplePass] }, rfl, rfl⟩

/-- Counterexample of C25: `setShader` without a shader, and with the shader that has no
supported technique, on a new material and on the material resolved for `gloss` and
`tintColor`: the second material keeps its validated-parameter map and its set of valid
shareable blocks, the first has none. -/
theorem setShader_history_counterexample :
    (setShader false HardwareBufferManager.new Material.new none).m.mValidParams = [] ∧
    (setShader false HardwareBufferManager.new exampleResolved none).m.mValidParams
      = [("gloss", "gloss"), ("tintColor", "tintColor")] ∧
    (setShader false HardwareBufferManager.new Material.new none).m.mValidShareableParamBlocks
      = [] ∧
    (setShader false HardwareBufferManager.new exampleResolved
      none).m.mValidShareableParamBlocks = ["PerMaterial"] ∧
    (setShader false HardwareBufferManager.new Material.new
      (some exampleUnsupportedShader)).m.mValidParams = [] ∧
    (setShader false HardwareBufferManager.new exampleResolved
      (some exampleUnsupportedShader)).m.mValidParams
      = [("gloss", "gloss"), ("tintColor", "tintColor")] := by
  decide

theorem areParamsEqual_fields (p q : GpuParamDataDesc) (flag : Bool) :
    areParamsEqual p q flag = true ↔
      p.type = q.type ∧ p.arraySize = q.arraySize ∧ p.elementSize = q.elementSize ∧
      p.arrayElementStride = q.arrayElementStride ∧
      (flag = false → p.cpuMemOffset = q.cpuMemOffset ∧ p.gpuMemOffset = q.gpuMemOffset) := by
  cases flag with
  | true =>
    rw [areParamsEqual_ignoring_iff]
    simp [sameLayout]
  | false =>
    simp only [areParamsEqual, Bool.not_false, if_true, Bool.and_eq_true, decide_eq_true_eq,
      true_implies]
    tauto

/-- The first descriptor of a list that declares the block `X` as shareable. -/
theorem split_first_shareable (paramDescs : List GpuParamDesc) (X : String)
    (h : ∃ D ∈ paramDescs, ∃ b, (X, b) ∈ D.paramBlocks ∧ b.isShareable = true) :
    ∃ pre F post bF, paramDescs = pre ++ F :: post ∧
      (∀ d ∈ pre, ∀ b, (X, b) ∈ d.paramBlocks → b.isShareable = false) ∧
      (X, bF) ∈ F.paramBlocks ∧ bF.isShareable = true := by
  induction paramDescs with
  | nil =>
    obtain ⟨D, hD, _⟩ := h
    cases hD
  | cons d rest ih =>
    by_cases hd : ∃ b, (X, b) ∈ d.paramBlocks ∧ b.isShareable = true
    · obtain ⟨b, hb, hsh⟩ := hd
      exact ⟨[], d, rest, b, rfl, fun d2 hd2 => absurd hd2 (List.not_mem_nil _), hb, hsh⟩
    · have hrest : ∃ D ∈ rest, ∃ b, (X, b) ∈ D.paramBlocks ∧ b.isShareable = true := by
        obtain ⟨D, hD, b, hb, hsh⟩ := h
        rcases List.mem_cons.1 hD with h1 | h1
        · subst h1
          exact absurd ⟨b, hb, hsh⟩ hd
        · exact ⟨D, h1, b, hb, hsh⟩
      obtain ⟨pre, F, post, bF, hsplit, hpre, hF, hsh⟩ := ih hrest
      refine ⟨d :: pre, F, post, bF, by rw [hsplit]; rfl, ?_, hF, hsh⟩
      intro d2 hd2 b hb
      rcases List.mem_cons.1 hd2 with h1 | h1
      · subst h1
        cases hs : b.isShareable with
        | false => rfl
        | true => exact absurd ⟨b, hb, hs⟩ hd
      · exact hpre d2 h1 b hb

/-- The rule of `determineValidShareableParamBlocks` for a list of descriptors with unique
block names: membership of `X`, with the first descriptor that declares `X` as shareable. -/
theorem validShareable_exact (flag : Bool) (paramDescs : List GpuParamDesc) (X : String)
    (hwf : ∀ d ∈ paramDescs, (StrMap.keys d.paramBlocks).Nodup) :
    X ∈ determineValidShareableParamBlocks flag paramDescs ↔
      ∃ pre F post bF, paramDescs = pre ++ F :: post ∧
        (∀ d ∈ pre, ∀ b, (X, b) ∈ d.paramBlocks → b.isShareable = false) ∧
        (X, bF) ∈ F.paramBlocks ∧ bF.isShareable = true ∧
        ∀ D ∈ post, ∀ b, (X, b) ∈ D.paramBlocks → b.isShareable = true →
          membersFoundIn flag X F b D.params := by
  constructor
  · intro h
    obtain ⟨pre, F, post, bF, hsplit, hpre, hF, hsh⟩ :=
      split_first_shareable paramDescs X (validShareable_declared flag paramDescs X h)
    have huniq : (StrMap.keys F.paramBlocks).Nodup := by
      apply hwf
      rw [hsplit]
      exact List.mem_append_right _ (List.mem_cons_self _ _)
    rw [hsplit] at h
    exact ⟨pre, F, post, bF, hsplit, hpre, hF, hsh,
      (validShareable_first flag pre post F bF X hpre hF hsh huniq).1 h⟩
  · rintro ⟨pre, F, post, bF, hsplit, hpre, hF, hsh, hall⟩
    have huniq : (StrMap.keys F.paramBlocks).Nodup := by
      apply hwf
      rw [hsplit]
      exact List.mem_append_right _ (List.mem_cons_self _ _)
    rw [hsplit]
    exact (validShareable_first flag pre post F bF X hpre hF hsh huniq).2 hall

theorem mem_shareableOnly (d : GpuParamDesc) (X : String) (b : GpuParamBlockDesc) :
    (X, b) ∈ (shareableOnly d).paramBlocks ↔ (X, b) ∈ d.paramBlocks ∧ b.isShareable = true := by
  simp [shareableOnly, List.mem_filter]

theorem shareableOnly_nodup (d : GpuParamDesc) (h : (StrMap.keys d.paramBlocks).Nodup) :
    (StrMap.keys (shareableOnly d).paramBlocks).Nodup := by
  unfold shareableOnly StrMap.keys
  exact List.Nodup.sublist (List.Sublist.map _ (List.filter_sublist _)) h

/-- The blocks that descriptors declare as non-shareable have no part in the result of
`determineValidShareableParamBlocks`. -/
theorem validShareable_shareableOnly (flag : Bool) (paramDescs : List GpuParamDesc)
    (X : String) (hwf : ∀ d ∈ paramDescs, (StrMap.keys d.paramBlocks).Nodup) :
    X ∈ determineValidShareableParamBlocks flag (paramDescs.map shareableOnly) ↔
      X ∈ determineValidShareableParamBlocks flag paramDescs := by
  have hwf2 : ∀ d ∈ paramDescs.map shareableOnly, (StrMap.keys d.paramBlocks).Nodup := by
    intro d hd
    obtain ⟨d0, hd0, rfl⟩ := List.mem_map.1 hd
    exact shareableOnly_nodup d0 (hwf d0 hd0)
  rw [validShareable_exact flag _ X hwf2, validShareable_exact flag _ X hwf]
  constructor
  · rintro ⟨pre2, F2, post2, bF, hsplit, hpre, hF, hsh, hall⟩
    obtain ⟨pre, l2, hl, hpre2, hl2⟩ := List.map_eq_append_iff.1 hsplit
    obtain ⟨F, post, hl2', hF2, hpost2⟩ := List.map_eq_cons_iff.1 hl2
    subst hpre2 hF2 hpost2 hl2'
    refine ⟨pre, F, post, bF, hl, ?_, ((mem_shareableOnly F X bF).1 hF).1, hsh, ?_⟩
    · intro d hd b hb
      cases hs : b.isShareable with
      | false => rfl
      | true =>
        have := hpre (shareableOnly d) (List.mem_map_of_mem _ hd) b
          ((mem_shareableOnly d X b).2 ⟨hb, hs⟩)
        rw [hs] at this
        cases this
    · intro D hD b hb hbs
      exact hall (shareableOnly D) (List.mem_map_of_mem _ hD) b
        ((mem_shareableOnly D X b).2 ⟨hb, hbs⟩) hbs
  · rintro ⟨pre, F, post, bF, hsplit, hpre, hF, hsh, hall⟩
    refine ⟨pre.map shareableOnly, shareableOnly F, post.map shareableOnly, bF, ?_, ?_,
      (mem_shareableOnly F X bF).2 ⟨hF, hsh⟩, hsh, ?_⟩
    · rw [hsplit]
      simp
    · intro d hd b hb
      obtain ⟨d0, hd0, rfl⟩ := List.mem_map.1 hd
      exact hpre d0 hd0 b ((mem_shareableOnly d0 X b).1 hb).1
    · intro D hD b hb hbs
      obtain ⟨D0, hD0, rfl⟩ := List.mem_map.1 hD
      exact hall D0 hD0 b ((mem_shareableOnly D0 X b).1 hb).1 hbs

/-- C23. For a list of descriptors with unique block names, the block `X` is in the result
of `determineValidShareableParamBlocks` iff some descriptor declares `X` as shareable and,
with `F` the first such descriptor, every later entry `D` of the list that declares `X` as
shareable has each of its data parameters in the slot of its block `X` found under the same
name in `F`, equal to it in type, array size, element size, array-element stride and, when
the flag `ignoreBufferOffsets` of `areParamsEqual` is not set, in both memory offsets, with
the name field of the block of `D` equal to `X`. The blocks declared as non-shareable have
no part in the result, and later entries without a parameter in the slot of their block
`X` leave `X` in the result. -/
theorem determineValidShareableParamBlocks_exact_rule (ignoreBufferOffsets : Bool)
    (paramDescs : List GpuParamDesc) (X : String)
    (hwf : ∀ d ∈ paramDescs, (StrMap.keys d.paramBlocks).Nodup) :
    (X ∈ determineValidShareableParamBlocks ignoreBufferOffsets paramDescs ↔
      ∃ pre F post bF, paramDescs = pre ++ F :: post ∧
        (∀ d ∈ pre, ∀ b, (X, b) ∈ d.paramBlocks → b.isShareable = false) ∧
        (X, bF) ∈ F.paramBlocks ∧ bF.isShareable = true ∧
        ∀ D ∈ post, ∀ b, (X, b) ∈ D.paramBlocks → b.isShareable = true →
          ∀ k p, (k, p) ∈ D.params → p.paramBlockSlot = b.slot →
            (∃ q, StrMap.find F.params k = some q ∧
              p.type = q.type ∧ p.arraySize = q.arraySize ∧ p.elementSize = q.elementSize ∧
              p.arrayElementStride = q.arrayElementStride ∧
              (ignoreBufferOffsets = false →
                p.cpuMemOffset = q.cpuMemOffset ∧ p.gpuMemOffset = q.gpuMemOffset)) ∧
            b.name = X) ∧
    (X ∈ determineValidShareableParamBlocks ignoreBufferOffsets
        (paramDescs.map shareableOnly) ↔
      X ∈ determineValidShareableParamBlocks ignoreBufferOffsets paramDescs) ∧
    (∀ pre F post bF, paramDescs = pre ++ F :: post →
      (∀ d ∈ pre, ∀ b, (X, b) ∈ d.paramBlocks → b.isShareable = false) →
      (X, bF) ∈ F.paramBlocks → bF.isShareable = true →
      (∀ D ∈ post, ∀ b, (X, b) ∈ D.paramBlocks → b.isShareable = true →
        ∀ k p, (k, p) ∈ D.params → p.paramBlockSlot ≠ b.slot) →
      X ∈ determineValidShareableParamBlocks ignoreBufferOffsets paramDescs) := by
  have hrule : ∀ (F D : GpuParamDesc) (b : GpuParamBlockDesc),
      membersFoundIn ignoreBufferOffsets X F b D.params ↔
        ∀ k p, (k, p) ∈ D.params → p.paramBlockSlot = b.slot →
          (∃ q, StrMap.find F.params k = some q ∧
            p.type = q.type ∧ p.arraySize = q.arraySize ∧ p.elementSize = q.elementSize ∧
            p.arrayElementStride = q.arrayElementStride ∧
            (ignoreBufferOffsets = false →
              p.cpuMemOffset = q.cpuMemOffset ∧ p.gpuMemOffset = q.gpuMemOffset)) ∧
          b.name = X := by
    intro F D b
    unfold membersFoundIn
    constructor
    · intro h k p hp hslot
      obtain ⟨⟨q, hq, heq⟩, hname⟩ := h k p hp hslot
      exact ⟨⟨q, hq, (areParamsEqual_fields p q ignoreBufferOffsets).1 heq⟩, hname⟩
    · intro h k p hp hslot
      obtain ⟨⟨q, hq, heq⟩, hname⟩ := h k p hp hslot
      exact ⟨⟨q, hq, (areParamsEqual_fields p q ignoreBufferOffsets).2 heq⟩, hname⟩
  refine ⟨?_, validShareable_shareableOnly ignoreBufferOffsets paramDescs X hwf, ?_⟩
  · rw [validShareable_exact ignoreBufferOffsets paramDescs X hwf]
    constructor
    · rintro ⟨pre, F, post, bF, hsplit, hpre, hF, hsh, hall⟩
      exact ⟨pre, F, post, bF, hsplit, hpre, hF, hsh,
        fun D hD b hb hbs => (hrule F D b).1 (hall D hD b hb hbs)⟩
    · rintro ⟨pre, F, post, bF, hsplit, hpre, hF, hsh, hall⟩
      exact ⟨pre, F, post, bF, hsplit, hpre, hF, hsh,
        fun D hD b hb hbs => (hrule F D b).2 (hall D hD b hb hbs)⟩
  · intro pre F post bF hsplit hpre hF hsh hnone
    rw [validShareable_exact ignoreBufferOffsets paramDescs X hwf]
    refine ⟨pre, F, post, bF, hsplit, hpre, hF, hsh, ?_⟩
    intro D hD b hb hbs k p hp hslot
    exact absurd hslot (hnone D hD b hb hbs k p hp)

/-- Witness of C23 on the example vertex stage followed by the example fragment stage. -/
theorem determineValidShareableParamBlocks_exact_rule_witness :
    "PerMaterial" ∈ determineValidShareableParamBlocks false
        [exampleVertexStage, exampleFragmentStage] ∧
    ("PerMaterial" ∈ determineValidShareableParamBlocks false
        [exampleVertexStage, exampleFragmentStage] ↔
      ∃ pre F post bF, [exampleVertexStage, exampleFragmentStage] = pre ++ F :: post ∧
        (∀ d ∈ pre, ∀ b, ("PerMaterial", b) ∈ d.paramBlocks → b.isShareable = false) ∧
        ("PerMaterial", bF) ∈ F.paramBlocks ∧ bF.isShareable = true ∧
        ∀ D ∈ post, ∀ b, ("PerMaterial", b) ∈ D.paramBlocks → b.isShareable = true →
          ∀ k p, (k, p) ∈ D.params → p.paramBlockSlot = b.slot →
            (∃ q, StrMap.find F.params k = some q ∧
              p.type = q.type ∧ p.arraySize = q.arraySize ∧ p.elementSize = q.elementSize ∧
              p.arrayElementStride = q.arrayElementStride ∧
              (false = false →
                p.cpuMemOffset = q.cpuMemOffset ∧ p.gpuMemOffset = q.gpuMemOffset)) ∧
            b.name = "PerMaterial") :=
  ⟨by decide,
    (determineValidShareableParamBlocks_exact_rule false
      [exampleVertexStage, exampleFragmentStage] "PerMaterial" (by decide)).1⟩

/-- The binding of the block `X` in every object of the passes after the assignment, for a
valid shareable block `X` that the shader does not declare as shared: the shared buffer when
the descriptor of the object declares `X` as shareable, a buffer of its own, allocated after
the shared one, when it declares `X` as non-shareable. -/
theorem resolved_block_binding (flag : Bool) (s : Shader) (t : Technique)
    (hbm : HardwareBufferManager) (X : String)
    (hwf : ∀ d ∈ collectParamDescs t, (StrMap.keys d.paramBlocks).Nodup)
    (hX : X ∈ determineValidShareableParamBlocks flag (collectParamDescs t))
    (hns : shaderMarksShared s.paramBlocks X = false) :
    ∃ shared, shared ∈ (assignedPasses flag s t hbm).2.mParamBuffers ∧
      ∀ (i : Nat) (p : GpuParams), (stageObjects (assignedPasses flag s t hbm).1)[i]? = some p →
        ∀ (b : GpuParamBlockDesc), (X, b) ∈ p.paramDesc.paramBlocks →
          (b.isShareable = true → StrMap.find p.paramBlockBuffers X = some (some shared)) ∧
          (b.isShareable = false →
            ∃ buf, StrMap.find p.paramBlockBuffers X = some (some buf) ∧
              shared.id < buf.id ∧
              buf ∈ (assignedPasses flag s t hbm).2.mParamBuffers ∧
              ∀ (j : Nat) (q : GpuParams) (k2 : String),
                (stageObjects (assignedPasses flag s t hbm).1)[j]? = some q →
                (j ≠ i ∨ k2 ≠ X) → StrMap.find q.paramBlockBuffers k2 ≠ some (some buf)) := by
  obtain ⟨shared, h1, h2, _⟩ : ∃ buf, HasSharedBuffer (collectParamDescs t)
      (sharedBlocks flag s t hbm) X buf :=
    createParamBlocks_shared _ _ _ _ X hns (Or.inl hX)
  have hlow := sharedBlocks_low flag s t hbm X shared h2
  obtain ⟨g1, g2, g3, g4, g5⟩ := assignObjects_spec
    (sharedBlocks flag s t hbm).mValidShareableParamBlocks
    (sharedBlocks flag s t hbm).paramBlockBuffers
    (stageObjects (t.passes.map createPassParameters))
    { hbm := (sharedBlocks flag s t hbm).hbm,
      mParamBuffers := (sharedBlocks flag s t hbm).mParamBuffers }
    (stageObjects_created t.passes).2
  obtain ⟨o1, o2⟩ := assignedPasses_objects flag s t hbm
  have hnd : ∀ q ∈ stageObjects (t.passes.map createPassParameters),
      (StrMap.keys q.paramDesc.paramBlocks).Nodup := by
    intro q hq
    apply hwf
    unfold collectParamDescs
    rw [← (stageObjects_created t.passes).1]
    exact List.mem_map_of_mem _ hq
  refine ⟨shared, ?_, ?_⟩
  · rw [o2]
    exact g3 shared h1
  · intro i p hi b hb
    have hp : p ∈ stageObjects (assignedPasses flag s t hbm).1 := List.getElem?_mem hi
    have hpnd : (StrMap.keys p.paramDesc.paramBlocks).Nodup := by
      apply hwf
      rw [← assignedPasses_descs flag s t hbm]
      exact List.mem_map_of_mem _ hp
    constructor
    · intro hsh
      have hdecl : DeclaresShareable p.paramDesc X := by
        refine ⟨List.mem_map.2 ⟨(X, b), hb, rfl⟩, ?_⟩
        intro b2 hb2
        rw [StrMap.entry_unique _ hpnd X b2 b hb2 hb]
        exact hsh
      have hXv : X ∈ (sharedBlocks flag s t hbm).mValidShareableParamBlocks := by
        rw [sharedBlocks_valid_eq]
        exact hX
      rw [o1] at hp
      rw [g4 p hp X hXv hdecl, h2]
      rfl
    · intro hsh
      rw [o1] at hi
      obtain ⟨buf, f1, f2, _, _, f5, f6⟩ := assignObjects_private _ _ _ _
        (stageObjects_created t.passes).2 hnd (sharedBlocks_low flag s t hbm) i p hi X b hb hsh
      refine ⟨buf, f1, Nat.lt_of_lt_of_le hlow f2, ?_, ?_⟩
      · rw [o2]
        exact f5
      · intro j q k2 hj hne
        rw [o1] at hj
        exact f6 j q k2 hj hne

/-- C22 (amended). After a `setShader` that finds a technique and raises nothing, for a
valid shareable block `X` that the shader does not declare as shared there is a buffer of
the ownership list, the shared one, such that every per-pass stage parameter object whose
descriptor has a block `X` is bound for `X` to the shared buffer iff the descriptor declares
`X` as shareable, and is bound to another buffer of the ownership list, to which no other
block of any object is bound, when the descriptor declares `X` as non-shareable. Block
names are unique within each descriptor. -/
theorem setShader_shared_iff_declared (ignoreBufferOffsets : Bool)
    (hbm : HardwareBufferManager) (m : Material) (s : Shader) (t : Technique) (X : String)
    (ht : s.getBestTechnique = some t)
    (hok : (setShader ignoreBufferOffsets hbm m (some s)).exception = none)
    (hwf : ∀ d ∈ collectParamDescs t, (StrMap.keys d.paramBlocks).Nodup)
    (hX : X ∈ (setShader ignoreBufferOffsets hbm m (some s)).m.mValidShareableParamBlocks)
    (hns : shaderMarksShared s.paramBlocks X = false) :
    ∃ shared, shared ∈ (setShader ignoreBufferOffsets hbm m (some s)).m.mParamBuffers ∧
      ∀ (i : Nat) (p : GpuParams), (stageObjects
          (setShader ignoreBufferOffsets hbm m (some s)).m.mParametersPerPass)[i]? = some p →
        ∀ (b : GpuParamBlockDesc), (X, b) ∈ p.paramDesc.paramBlocks →
          (StrMap.find p.paramBlockBuffers X = some (some shared) ↔ b.isShareable = true) ∧
          (b.isShareable = false →
            ∃ buf, StrMap.find p.paramBlockBuffers X = some (some buf) ∧ buf ≠ shared ∧
              buf ∈ (setShader ignoreBufferOffsets hbm m (some s)).m.mParamBuffers ∧
              ∀ (j : Nat) (q : GpuParams) (k2 : String), (stageObjects
                  (setShader ignoreBufferOffsets hbm m (some s)).m.mParametersPerPass)[j]?
                  = some q →
                (j ≠ i ∨ k2 ≠ X) → StrMap.find q.paramBlockBuffers k2 ≠ some (some buf)) := by
  rw [setShader_resolved ignoreBufferOffsets hbm m s t ht hok] at hX ⊢
  simp only at hX ⊢
  rw [sharedBlocks_valid_eq] at hX
  obtain ⟨shared, hmem, hall⟩ := resolved_block_binding ignoreBufferOffsets s t
    (freeParamBuffers hbm m).2 X hwf hX hns
  refine ⟨shared, hmem, ?_⟩
  intro i p hi b hb
  obtain ⟨hshared, hprivate⟩ := hall i p hi b hb
  refine ⟨⟨?_, hshared⟩, ?_⟩
  · intro hbound
    cases hs : b.isShareable with
    | true => rfl
    | false =>
      exfalso
      obtain ⟨buf, hbuf, hlt, _⟩ := hprivate hs
      rw [hbound] at hbuf
      cases hbuf
      exact Nat.lt_irrefl _ hlt
  · intro hs
    obtain ⟨buf, hbuf, hlt, hin, hother⟩ := hprivate hs
    refine ⟨buf, hbuf, ?_, hin, hother⟩
    intro heq
    rw [heq] at hlt
    exact Nat.lt_irrefl _ hlt

/-- Witness of the amended C22 on the shader whose vertex stage declares `PerMaterial` as
shareable and whose fragment stage declares it as non-shareable. -/
theorem setShader_shared_iff_declared_witness :
    ∃ shared, shared ∈ (setShader false HardwareBufferManager.new Material.new
        (some exampleMixedShader)).m.mParamBuffers ∧
      ∀ (i : Nat) (p : GpuParams), (stageObjects
          (setShader false HardwareBufferManager.new Material.new
            (some exampleMixedShader)).m.mParametersPerPass)[i]? = some p →
        ∀ (b : GpuParamBlockDesc), ("PerMaterial", b) ∈ p.paramDesc.paramBlocks →
          (StrMap.find p.paramBlockBuffers "PerMaterial" = some (some shared)
            ↔ b.isShareable = true) ∧
          (b.isShareable = false →
            ∃ buf, StrMap.find p.paramBlockBuffers "PerMaterial" = some (some buf) ∧
              buf ≠ shared ∧
              buf ∈ (setShader false HardwareBufferManager.new Material.new
                (some exampleMixedShader)).m.mParamBuffers ∧
              ∀ (j : Nat) (q : GpuParams) (k2 : String), (stageObjects
                  (setShader false HardwareBufferManager.new Material.new
                    (some exampleMixedShader)).m.mParametersPerPass)[j]? = some q →
                (j ≠ i ∨ k2 ≠ "PerMaterial") →
                StrMap.find q.paramBlockBuffers k2 ≠ some (some buf)) :=
  setShader_shared_iff_declared false HardwareBufferManager.new Material.new
    exampleMixedShader { passes := [exampleMixedPass] } "PerMaterial" rfl (by decide)
    (by decide) (by decide) (by decide)

/-- Counterexample of C22. The vertex stage declares `PerMaterial` as shareable and the
fragment stage declares it as non-shareable. After `setShader`, which raises nothing,
`PerMaterial` is a valid shareable block, the vertex stage object is bound for it to the
shared buffer and the fragment stage object to a private buffer; and in the fragment stage
object the loop "Assign shareable buffers" first binds `PerMaterial` to the shared buffer,
which the loop "Create non-shareable ones" then replaces. -/
theorem setShader_shared_and_private_counterexample :
    (setShader false HardwareBufferManager.new Material.new
      (some exampleMixedShader)).exception = none ∧
    "PerMaterial" ∈ (setShader false HardwareBufferManager.new Material.new
      (some exampleMixedShader)).m.mValidShareableParamBlocks ∧
    (setShader false HardwareBufferManager.new Material.new
      (some exampleMixedShader)).m.mParamBuffers
      = [{ id := 0, size := 32, usage := some GpuParamBlockUsage.GPBU_STATIC },
         { id := 1, size := 16, usage := none }] ∧
    (stageObjects (setShader false HardwareBufferManager.new Material.new
      (some exampleMixedShader)).m.mParametersPerPass).map
        (fun p => (p.paramDesc.paramBlocks.map (fun e => (e.1, e.2.isShareable)),
          StrMap.find p.paramBlockBuffers "PerMaterial"))
      = [([("PerMaterial", true)],
            some (some { id := 0, size := 32, usage := some GpuParamBlockUsage.GPBU_STATIC })),
         ([("PerMaterial", false)], some (some { id := 1, size := 16, usage := none }))] ∧
    StrMap.find (assignShareableBuffers
        (sharedBlocks false exampleMixedShader { passes := [exampleMixedPass] }
          HardwareBufferManager.new).mValidShareableParamBlocks
        (sharedBlocks false exampleMixedShader { passes := [exampleMixedPass] }
          HardwareBufferManager.new).paramBlockBuffers
        (GpuProgram.createParameters { paramDesc := examplePrivateFragmentStage })
      ).paramBlockBuffers "PerMaterial"
      = some (some { id := 0, size := 32, usage := some GpuParamBlockUsage.GPBU_STATIC }) ∧
    StrMap.find (assignParamBlockBuffers
        (sharedBlocks false exampleMixedShader { passes := [exampleMixedPass] }
          HardwareBufferManager.new).mValidShareableParamBlocks
        (sharedBlocks false exampleMixedShader { passes := [exampleMixedPass] }
          HardwareBufferManager.new).paramBlockBuffers
        (GpuProgram.createParameters { paramDesc := examplePrivateFragmentStage })
        { hbm := (sharedBlocks false exampleMixedShader { passes := [exampleMixedPass] }
            HardwareBufferManager.new).hbm,
          mParamBuffers := (sharedBlocks false exampleMixedShader
            { passes := [exampleMixedPass] } HardwareBufferManager.new).mParamBuffers }
      ).1.paramBlockBuffers "PerMaterial"
      = some (some { id := 1, size := 16, usage := none }) := by
  decide

end CamelotFramework
